import Mathlib

/-!
Verification of the Brainfuck derivative-calculator generator and interpreter.

This file gives a shallow embedding of the two source modules of the
repository:

* `bf_interpreter.py` — the function `run_bf`, embedded below as `run_bf`
  together with its bracket-matching load phase (`scanAux`, `scanBrackets`)
  and its execution phase (`machineStep`, `execLoop`).
* `bf_codegen.py` — the class `BF` (a code builder with cursor tracking),
  embedded as the structure `BF` with one Lean function per Python method,
  and the top-level `generate`.

Machine integers are modelled as `Int` with explicit `% cellSize`
(Python's `%` on a positive modulus agrees with `Int.emod`).  The tape is
modelled as a total function `Nat → Int`: the Python list only ever grows
with zero cells and is only read at the pointer, so the growable-list
bookkeeping is observationally the zero-extended function.

On top of the embedding the file develops a structured syntax `Ast` for
bracket-balanced instruction streams, a big-step relation `BigStep`, and a
simulation theorem showing that a `BigStep` derivation for a fragment is
realised by the flat interpreter, which is what the claim theorems use.
-/

/-! ## The interpreter (`bf_interpreter.py`) -/

/-- The 8 significant characters: `"><+-.,[]"`. -/
def isaChars : List Char := ['>', '<', '+', '-', '.', ',', '[', ']']

/-- The failure modes of `run_bf` (`RuntimeError` messages in the source):
unmatched `]` at a position, unmatched `[` at a position, pointer moved
below 0 at a step, and exceeding the step budget (the only error carrying
the output accumulated so far). -/
inductive BFError where
  | unmatchedClose (pos : Nat)
  | unmatchedOpen (pos : Nat)
  | pointerBelowZero (step : Nat)
  | budgetExceeded (maxSteps : Nat) (outputSoFar : List Int)
  deriving Repr, DecidableEq

/-- The bracket-matching scan of `run_bf` (lines 25–35): a left-to-right
pass with a stack of open positions, building the jump table.  Returns the
table and the final stack, or the position of an unmatched `]`.  Pushing is
`i :: stack`, so the Python `stack[-1]` (most recent) is the head. -/
def scanAux : List Char → Nat → List Nat → (Nat → Nat) →
    Except Nat ((Nat → Nat) × List Nat)
  | [], _, stack, tbl => .ok (tbl, stack)
  | c :: rest, i, stack, tbl =>
    if c = '[' then
      scanAux rest (i + 1) (i :: stack) tbl
    else if c = ']' then
      match stack with
      | [] => .error i
      | j :: st =>
          scanAux rest (i + 1) st
            (Function.update (Function.update tbl j i) i j)
    else
      scanAux rest (i + 1) stack tbl

/-- The full load phase: scan, then the final non-empty-stack check
(line 36–37 of the source). -/
def scanBrackets (ops : List Char) : Except BFError (Nat → Nat) :=
  match scanAux ops 0 [] (fun k => k) with
  | .error i => .error (.unmatchedClose i)
  | .ok (tbl, []) => .ok tbl
  | .ok (_, j :: _) => .error (.unmatchedOpen j)

/-- Execution state of `run_bf`: tape (zero-extended function), data
pointer, instruction pointer, input cursor and output buffer.  The step
counter lives in `execLoop`. -/
structure ExecState where
  tape : Nat → Int
  ptr : Nat
  ip : Nat
  inputPos : Nat
  output : List Int

/-- Result of dispatching one instruction. -/
inductive StepOut where
  | cont (s : ExecState)
  | ptrErr

/-- One dispatch of the `while` body of `run_bf` (lines 55–82), for
`s.ip < ops.length`.  `<` with the pointer at 0 is the bounds failure;
`,` stores the raw input byte (no modulus) and 0 at end of input;
`[`/`]` jump through the precomputed table. -/
def machineStep (ops : List Char) (tbl : Nat → Nat) (cellSize : Nat)
    (inp : List Int) (s : ExecState) : StepOut :=
  let op := ops.getD s.ip ' '
  if op = '>' then
    .cont { s with ptr := s.ptr + 1, ip := s.ip + 1 }
  else if op = '<' then
    if s.ptr = 0 then .ptrErr
    else .cont { s with ptr := s.ptr - 1, ip := s.ip + 1 }
  else if op = '+' then
    .cont { s with
      tape := Function.update s.tape s.ptr ((s.tape s.ptr + 1) % (cellSize : Int)),
      ip := s.ip + 1 }
  else if op = '-' then
    .cont { s with
      tape := Function.update s.tape s.ptr ((s.tape s.ptr - 1) % (cellSize : Int)),
      ip := s.ip + 1 }
  else if op = '.' then
    .cont { s with output := s.output ++ [s.tape s.ptr], ip := s.ip + 1 }
  else if op = ',' then
    if h : s.inputPos < inp.length then
      .cont { s with
        tape := Function.update s.tape s.ptr (inp.get ⟨s.inputPos, h⟩),
        inputPos := s.inputPos + 1, ip := s.ip + 1 }
    else
      .cont { s with tape := Function.update s.tape s.ptr 0, ip := s.ip + 1 }
  else if op = '[' then
    .cont { s with ip := (if s.tape s.ptr = 0 then tbl s.ip else s.ip) + 1 }
  else if op = ']' then
    .cont { s with ip := (if s.tape s.ptr ≠ 0 then tbl s.ip else s.ip) + 1 }
  else
    .cont { s with ip := s.ip + 1 }

/-- The execution loop of `run_bf` (lines 48–82): while the instruction
pointer is in range, count the step, fail on budget overrun (carrying the
output so far), dispatch, and continue.  The fuel argument only makes the
recursion structural; `run_bf` passes `maxSteps + 1`, which is enough for
the budget check to fire first (proved in `execLoop_fuel_irrelevant`). -/
def execLoop (ops : List Char) (tbl : Nat → Nat) (cellSize : Nat)
    (inp : List Int) (maxSteps : Nat) :
    Nat → Nat → ExecState → Except BFError (List Int)
  | 0, _, s => .error (.budgetExceeded maxSteps s.output)
  | fuel + 1, steps, s =>
    if s.ip < ops.length then
      if steps + 1 > maxSteps then
        .error (.budgetExceeded maxSteps s.output)
      else
        match machineStep ops tbl cellSize inp s with
        | .ptrErr => .error (.pointerBelowZero (steps + 1))
        | .cont s' => execLoop ops tbl cellSize inp maxSteps fuel (steps + 1) s'
    else
      .ok s.output

/-- The initial execution state: zero tape, everything at 0. -/
def initState : ExecState := ⟨fun _ => 0, 0, 0, 0, []⟩

/-- `run_bf` (lines 5–84): strip non-ISA characters, match brackets, run.
Input is the byte sequence of the Python input string (latin-1 codes);
output is the sequence of character codes written by `.`. -/
def run_bf (code : List Char) (inp : List Int) (cellSize : Nat)
    (maxSteps : Nat) : Except BFError (List Int) :=
  let ops := code.filter (fun c => c ∈ isaChars)
  match scanBrackets ops with
  | .error e => .error e
  | .ok tbl => execLoop ops tbl cellSize inp maxSteps (maxSteps + 1) 0 initState

/-! ## The code generator (`bf_codegen.py`) -/

/-- The `BF` builder: emitted code and the tracked cursor `pos`. -/
structure BF where
  code : List Char
  pos : Nat

/-- `BF()`: empty code, cursor at 0. -/
def BF.new : BF := ⟨[], 0⟩

/-- `BF._goto` (lines 21–27): emit the pointer motion from `pos` to
`cell` and update `pos`. -/
def BF.goto (b : BF) (cell : Nat) : BF :=
  if cell > b.pos then ⟨b.code ++ List.replicate (cell - b.pos) '>', cell⟩
  else if cell < b.pos then ⟨b.code ++ List.replicate (b.pos - cell) '<', cell⟩
  else ⟨b.code, cell⟩

/-- `BF.inc` (lines 29–31). -/
def BF.inc (b : BF) (cell : Nat) (n : Nat) : BF :=
  let g := b.goto cell
  ⟨g.code ++ List.replicate n '+', g.pos⟩

/-- `BF.dec` (lines 33–35). -/
def BF.dec (b : BF) (cell : Nat) (n : Nat) : BF :=
  let g := b.goto cell
  ⟨g.code ++ List.replicate n '-', g.pos⟩

/-- `BF.clear` (lines 37–39): emit `[-]`. -/
def BF.clear (b : BF) (cell : Nat) : BF :=
  let g := b.goto cell
  ⟨g.code ++ ['[', '-', ']'], g.pos⟩

/-- `BF.read` (lines 41–43). -/
def BF.read (b : BF) (cell : Nat) : BF :=
  let g := b.goto cell
  ⟨g.code ++ [','], g.pos⟩

/-- `BF.write` (lines 45–47). -/
def BF.write (b : BF) (cell : Nat) : BF :=
  let g := b.goto cell
  ⟨g.code ++ ['.'], g.pos⟩

/-- `BF.loop_open` (lines 49–51). -/
def BF.loop_open (b : BF) (cell : Nat) : BF :=
  let g := b.goto cell
  ⟨g.code ++ ['['], g.pos⟩

/-- `BF.loop_close` (lines 53–55). -/
def BF.loop_close (b : BF) (cell : Nat) : BF :=
  let g := b.goto cell
  ⟨g.code ++ [']'], g.pos⟩

/-- `BF.move` (lines 57–64): `src -> 0`, `dst += src` (dst must be 0). -/
def BF.move (b : BF) (src dst : Nat) : BF :=
  let b1 := b.goto src
  let b2 : BF := ⟨b1.code ++ ['[', '-'], b1.pos⟩
  let b3 := b2.goto dst
  let b4 : BF := ⟨b3.code ++ ['+'], b3.pos⟩
  let b5 := b4.goto src
  ⟨b5.code ++ [']'], b5.pos⟩

/-- `BF.copy` (lines 66–76): duplicate `src` into `dst` and `tmp`, then
move `tmp` back. -/
def BF.copy (b : BF) (src dst tmp : Nat) : BF :=
  let b1 := b.goto src
  let b2 : BF := ⟨b1.code ++ ['[', '-'], b1.pos⟩
  let b3 := b2.goto dst
  let b4 : BF := ⟨b3.code ++ ['+'], b3.pos⟩
  let b5 := b4.goto tmp
  let b6 : BF := ⟨b5.code ++ ['+'], b5.pos⟩
  let b7 := b6.goto src
  let b8 : BF := ⟨b7.code ++ [']'], b7.pos⟩
  b8.move tmp src

/-- `BF.multiply` (lines 78–92): `result = a * b`, `a` consumed, `b`
preserved via `tmp`. -/
def BF.multiply (b : BF) (a bc result tmp : Nat) : BF :=
  let b1 := b.goto a
  let b2 : BF := ⟨b1.code ++ ['[', '-'], b1.pos⟩
  let b3 := b2.goto bc
  let b4 : BF := ⟨b3.code ++ ['[', '-'], b3.pos⟩
  let b5 := b4.goto result
  let b6 : BF := ⟨b5.code ++ ['+'], b5.pos⟩
  let b7 := b6.goto tmp
  let b8 : BF := ⟨b7.code ++ ['+'], b7.pos⟩
  let b9 := b8.goto bc
  let b10 : BF := ⟨b9.code ++ [']'], b9.pos⟩
  let b11 := b10.move tmp bc
  let b12 := b11.goto a
  ⟨b12.code ++ [']'], b12.pos⟩

/-- The literal esolangs divmod loop appended by `divmod_10`. -/
def dmLoopChars : List Char :=
  ['[', '-', '>', '-', '[', '>', '+', '>', '>', ']', '>', '[', '+', '[', '-',
   '<', '+', '>', ']', '>', '+', '>', '>', ']', '<', '<', '<', '<', '<', ']']

/-- `BF.divmod_10` (lines 94–114): set divisor `base+2` to 10, step right
from `base`, append the esolangs loop (pointer bookkeeping set manually to
`base+1`), then clear the junk in `base+2`. -/
def BF.divmod_10 (b : BF) (base : Nat) : BF :=
  let b1 := b.inc (base + 2) 10
  let b2 := b1.goto base
  let b3 : BF := ⟨b2.code ++ ['>'], base + 1⟩
  let b4 : BF := ⟨b3.code ++ dmLoopChars, base + 1⟩
  b4.clear (base + 2)

/-- `BF.print_number` (lines 116–192): print `val_cell` in decimal using
the 14-cell workspace starting at `ws`. -/
def BF.print_number (b : BF) (val_cell ws : Nat) : BF :=
  let s1 := b.move val_cell (ws + 1)
  let s2 := s1.divmod_10 ws
  let s3 := s2.move (ws + 4) (ws + 7)
  let s4 := s3.divmod_10 (ws + 6)
  let s5 := s4.inc (ws + 12) 1
  let s6 := s5.inc (ws + 13) 1
  -- Branch 1: hundreds > 0
  let s7 := s6.loop_open (ws + 10)
  let s8 := s7.dec (ws + 12) 1
  let s9 := s8.dec (ws + 13) 1
  let s10 := s9.inc (ws + 10) 48
  let s11 := s10.write (ws + 10)
  let s12 := s11.clear (ws + 10)
  let s13 := s12.inc (ws + 9) 48
  let s14 := s13.write (ws + 9)
  let s15 := s14.clear (ws + 9)
  let s16 := s15.inc (ws + 3) 48
  let s17 := s16.write (ws + 3)
  let s18 := s17.clear (ws + 3)
  let s19 := s18.loop_close (ws + 10)
  -- Branch 2: hundreds == 0
  let s20 := s19.loop_open (ws + 12)
  let s21 := s20.dec (ws + 12) 1
  -- Sub-branch 2a: tens > 0
  let s22 := s21.loop_open (ws + 9)
  let s23 := s22.dec (ws + 13) 1
  let s24 := s23.inc (ws + 9) 48
  let s25 := s24.write (ws + 9)
  let s26 := s25.clear (ws + 9)
  let s27 := s26.inc (ws + 3) 48
  let s28 := s27.write (ws + 3)
  let s29 := s28.clear (ws + 3)
  let s30 := s29.loop_close (ws + 9)
  -- Sub-branch 2b: tens == 0
  let s31 := s30.loop_open (ws + 13)
  let s32 := s31.dec (ws + 13) 1
  let s33 := s32.inc (ws + 3) 48
  let s34 := s33.write (ws + 3)
  let s35 := s34.clear (ws + 3)
  let s36 := s35.loop_close (ws + 13)
  s36.loop_close (ws + 12)

/-- `BF.output` (lines 194–196): join and keep only ISA characters. -/
def BF.output (b : BF) : List Char :=
  b.code.filter (fun c => c ∈ isaChars)

/-- `generate` (lines 199–310): the complete derivative-calculator
program, mirrored statement by statement. -/
def generate : List Char :=
  let bf := BF.new
  -- Phase 0: read and discard constant term
  let bf := bf.read 0
  let bf := bf.clear 0
  let bf := bf.read 0
  let bf := bf.dec 0 32
  let bf := bf.inc 1 1
  let bf := bf.loop_open 0
  let bf := bf.dec 1 1
  let bf := bf.clear 0
  let bf := bf.loop_close 0
  let bf := bf.inc 6 1
  let bf := bf.loop_open 1
  let bf := bf.dec 6 1
  let bf := bf.dec 1 1
  let bf := bf.inc 0 1
  let bf := bf.loop_close 1
  let bf := bf.loop_open 6
  let bf := bf.dec 6 1
  let bf := bf.inc 1 48
  let bf := bf.write 1
  let bf := bf.clear 1
  let bf := bf.inc 1 10
  let bf := bf.write 1
  let bf := bf.clear 1
  let bf := bf.loop_close 6
  -- Phase 1: main derivative loop
  let bf := bf.inc 3 1
  let bf := bf.loop_open 0
  let bf := bf.dec 0 1
  let bf := bf.read 2
  let bf := bf.dec 2 48
  let bf := bf.multiply 2 3 4 5
  let bf := bf.print_number 4 7
  let bf := bf.inc 3 1
  let bf := bf.read 1
  let bf := bf.dec 1 32
  let bf := bf.inc 6 1
  let bf := bf.loop_open 1
  let bf := bf.dec 6 1
  let bf := bf.clear 1
  let bf := bf.inc 1 10
  let bf := bf.write 1
  let bf := bf.clear 1
  let bf := bf.loop_close 1
  let bf := bf.loop_open 6
  let bf := bf.dec 6 1
  let bf := bf.inc 0 1
  let bf := bf.inc 1 32
  let bf := bf.write 1
  let bf := bf.clear 1
  let bf := bf.loop_close 6
  let bf := bf.loop_close 0
  bf.output

/-! ## Structured syntax and big-step semantics

`Ast` is the structured form of a bracket-balanced instruction stream;
`flatten` lays it out as characters.  `BigStep` is the big-step execution
relation matching `machineStep` instruction by instruction; the simulation
theorem `bigStep_stepN` below transports `BigStep` derivations to runs of
the flat interpreter. -/

inductive Ast where
  | skip
  | seq (a b : Ast)
  | right
  | left
  | inc
  | dec
  | write
  | read
  | loop (body : Ast)
  deriving DecidableEq

/-- Lay out an `Ast` as the character stream the interpreter consumes. -/
def flatten : Ast → List Char
  | .skip => []
  | .seq a b => flatten a ++ flatten b
  | .right => ['>']
  | .left => ['<']
  | .inc => ['+']
  | .dec => ['-']
  | .write => ['.']
  | .read => [',']
  | .loop b => '[' :: (flatten b ++ [']'])

/-- Machine configuration without an instruction pointer. -/
structure Cfg where
  tape : Nat → Int
  ptr : Nat
  inputPos : Nat
  output : List Int

/-- View a configuration as a flat-interpreter state at instruction `ip`. -/
def Cfg.toES (c : Cfg) (ip : Nat) : ExecState :=
  ⟨c.tape, c.ptr, ip, c.inputPos, c.output⟩

/-- Big-step execution of structured code, mirroring `machineStep` case by
case.  `left` requires a positive pointer (the interpreter fails there),
so derivations only exist for runs the interpreter completes. -/
inductive BigStep (cs : Nat) (inp : List Int) : Ast → Cfg → Cfg → Prop where
  | skip (c : Cfg) : BigStep cs inp .skip c c
  | seq {a b : Ast} {c₁ c₂ c₃ : Cfg} :
      BigStep cs inp a c₁ c₂ → BigStep cs inp b c₂ c₃ →
      BigStep cs inp (.seq a b) c₁ c₃
  | right (c : Cfg) : BigStep cs inp .right c { c with ptr := c.ptr + 1 }
  | left (c : Cfg) (h : c.ptr ≠ 0) :
      BigStep cs inp .left c { c with ptr := c.ptr - 1 }
  | inc (c : Cfg) : BigStep cs inp .inc c
      { c with tape := Function.update c.tape c.ptr ((c.tape c.ptr + 1) % (cs : Int)) }
  | dec (c : Cfg) : BigStep cs inp .dec c
      { c with tape := Function.update c.tape c.ptr ((c.tape c.ptr - 1) % (cs : Int)) }
  | write (c : Cfg) : BigStep cs inp .write c
      { c with output := c.output ++ [c.tape c.ptr] }
  | readMore (c : Cfg) (h : c.inputPos < inp.length) :
      BigStep cs inp .read c
        { c with tape := Function.update c.tape c.ptr (inp.get ⟨c.inputPos, h⟩),
                 inputPos := c.inputPos + 1 }
  | readEof (c : Cfg) (h : ¬ c.inputPos < inp.length) :
      BigStep cs inp .read c
        { c with tape := Function.update c.tape c.ptr 0 }
  | loopZero {b : Ast} (c : Cfg) (h : c.tape c.ptr = 0) :
      BigStep cs inp (.loop b) c c
  | loopSucc {b : Ast} {c c₂ c₃ : Cfg} (h : c.tape c.ptr ≠ 0) :
      BigStep cs inp b c c₂ → BigStep cs inp (.loop b) c₂ c₃ →
      BigStep cs inp (.loop b) c c₃

/-- Iterate `machineStep` for `n` successful in-range steps. -/
def stepN (ops : List Char) (tbl : Nat → Nat) (cs : Nat) (inp : List Int) :
    Nat → ExecState → Option ExecState
  | 0, s => some s
  | n + 1, s =>
    if s.ip < ops.length then
      match machineStep ops tbl cs inp s with
      | .cont s' => stepN ops tbl cs inp n s'
      | .ptrErr => none
    else none

/-- The jump table is correct for an `Ast` laid out at offset `i`. -/
def TblOk (tbl : Nat → Nat) : Nat → Ast → Prop
  | i, .seq a b => TblOk tbl i a ∧ TblOk tbl (i + (flatten a).length) b
  | i, .loop b =>
      tbl i = i + (flatten b).length + 1 ∧
      tbl (i + (flatten b).length + 1) = i ∧
      TblOk tbl (i + 1) b
  | _, _ => True

theorem TblOk_congr {tbl tbl' : Nat → Nat} :
    ∀ (a : Ast) (i : Nat), TblOk tbl i a →
      (∀ k, i ≤ k → k < i + (flatten a).length → tbl' k = tbl k) →
      TblOk tbl' i a := by
  intro a
  induction a with
  | skip => intro i _ _; trivial
  | seq a b iha ihb =>
    intro i h hk
    simp only [TblOk] at h ⊢
    refine ⟨iha i h.1 ?_, ihb _ h.2 ?_⟩
    · intro k h1 h2
      exact hk k h1 (by simp [flatten]; omega)
    · intro k h1 h2
      refine hk k (by omega) ?_
      simp only [flatten, List.length_append] at h2 ⊢
      omega
  | loop b ih =>
    intro i h hk
    simp only [TblOk] at h ⊢
    have hlen : (flatten (.loop b)).length = (flatten b).length + 2 := by
      simp [flatten]
    refine ⟨?_, ?_, ih (i + 1) h.2.2 ?_⟩
    · rw [hk i (le_refl i) (by omega), h.1]
    · rw [hk _ (by omega) (by omega), h.2.1]
    · intro k h1 h2
      exact hk k (by omega) (by omega)
  | right => intro i _ _; trivial
  | left => intro i _ _; trivial
  | inc => intro i _ _; trivial
  | dec => intro i _ _; trivial
  | write => intro i _ _; trivial
  | read => intro i _ _; trivial

theorem scanAux_nil (i : Nat) (st : List Nat) (tbl : Nat → Nat) :
    scanAux [] i st tbl = .ok (tbl, st) := rfl

theorem scanAux_open (rest : List Char) (i : Nat) (st : List Nat)
    (tbl : Nat → Nat) :
    scanAux ('[' :: rest) i st tbl = scanAux rest (i + 1) (i :: st) tbl := rfl

theorem scanAux_close_cons (rest : List Char) (i j : Nat) (st : List Nat)
    (tbl : Nat → Nat) :
    scanAux (']' :: rest) i (j :: st) tbl =
      scanAux rest (i + 1) st (Function.update (Function.update tbl j i) i j) :=
  rfl

theorem scanAux_close_nil (rest : List Char) (i : Nat) (tbl : Nat → Nat) :
    scanAux (']' :: rest) i [] tbl = .error i := rfl

theorem scanAux_other (c : Char) (rest : List Char) (i : Nat) (st : List Nat)
    (tbl : Nat → Nat) (h1 : c ≠ '[') (h2 : c ≠ ']') :
    scanAux (c :: rest) i st tbl = scanAux rest (i + 1) st tbl := by
  simp [scanAux, h1, h2]

theorem scanAux_append (xs ys : List Char) :
    ∀ (i : Nat) (st : List Nat) (tbl : Nat → Nat),
      scanAux (xs ++ ys) i st tbl =
        match scanAux xs i st tbl with
        | .error e => .error e
        | .ok (tbl', st') => scanAux ys (i + xs.length) st' tbl' := by
  induction xs with
  | nil => intro i st tbl; simp [scanAux]
  | cons c rest ih =>
    intro i st tbl
    have harith : i + (c :: rest).length = (i + 1) + rest.length := by
      simp only [List.length_cons]; omega
    by_cases h1 : c = '['
    · subst h1
      rw [List.cons_append, scanAux_open, scanAux_open, ih, harith]
    · by_cases h2 : c = ']'
      · subst h2
        cases st with
        | nil => rw [List.cons_append, scanAux_close_nil, scanAux_close_nil]
        | cons j st' =>
          rw [List.cons_append, scanAux_close_cons, scanAux_close_cons, ih,
            harith]
      · rw [List.cons_append, scanAux_other c (rest ++ ys) i st tbl h1 h2,
          scanAux_other c rest i st tbl h1 h2, ih, harith]

/-- Scanning the layout of an `Ast` succeeds, leaves the stack unchanged,
only modifies table entries inside the laid-out region, and produces a
correct jump table for the region. -/
theorem scanAux_flatten (a : Ast) :
    ∀ (i : Nat) (st : List Nat) (tbl : Nat → Nat), ∃ tbl',
      scanAux (flatten a) i st tbl = .ok (tbl', st) ∧
      (∀ k, k < i ∨ i + (flatten a).length ≤ k → tbl' k = tbl k) ∧
      TblOk tbl' i a := by
  induction a with
  | skip =>
    intro i st tbl
    exact ⟨tbl, by simp [flatten, scanAux], fun k _ => rfl, trivial⟩
  | seq a b iha ihb =>
    intro i st tbl
    obtain ⟨t1, h1, f1, k1⟩ := iha i st tbl
    obtain ⟨t2, h2, f2, k2⟩ := ihb (i + (flatten a).length) st t1
    refine ⟨t2, ?_, ?_, ?_⟩
    · rw [flatten, scanAux_append, h1]
      exact h2
    · intro k hk
      rw [f2 k, f1 k]
      · rcases hk with hk | hk
        · exact Or.inl hk
        · right; simp only [flatten, List.length_append] at hk; omega
      · rcases hk with hk | hk
        · left; omega
        · right; simp only [flatten, List.length_append] at hk; omega
    · constructor
      · refine TblOk_congr a i k1 ?_
        intro k hk1 hk2
        exact f2 k (Or.inl hk2)
      · exact k2
  | loop b ih =>
    intro i st tbl
    obtain ⟨t1, h1, f1, k1⟩ := ih (i + 1) (i :: st) tbl
    refine ⟨Function.update (Function.update t1 i (i + 1 + (flatten b).length))
      (i + 1 + (flatten b).length) i, ?_, ?_, ?_⟩
    · show scanAux ('[' :: (flatten b ++ [']'])) i st tbl = _
      rw [scanAux_open, scanAux_append, h1]
      show scanAux [']'] (i + 1 + (flatten b).length) (i :: st) t1 = _
      rw [scanAux_close_cons, scanAux_nil]
    · intro k hk
      have hklen : k < i ∨ i + ((flatten b).length + 2) ≤ k := by
        rcases hk with hk | hk
        · exact Or.inl hk
        · right; simp only [flatten, List.length_cons, List.length_append,
            List.length_singleton] at hk; omega
      have hki : k ≠ i := by omega
      have hkc : k ≠ i + 1 + (flatten b).length := by omega
      rw [Function.update_noteq hkc, Function.update_noteq hki]
      exact f1 k (by omega)
    · show TblOk _ i (.loop b)
      simp only [TblOk]
      refine ⟨?_, ?_, ?_⟩
      · rw [Function.update_noteq (by omega : i ≠ i + 1 + (flatten b).length),
          Function.update_same]
        omega
      · have harith : i + (flatten b).length + 1 = i + 1 + (flatten b).length := by
          omega
        rw [harith, Function.update_same]
      · refine TblOk_congr b (i + 1) k1 ?_
        intro k hk1 hk2
        rw [Function.update_noteq (by omega), Function.update_noteq (by omega)]
  | right => intro i st tbl; exact ⟨tbl, by simp [flatten, scanAux], fun k _ => rfl, trivial⟩
  | left => intro i st tbl; exact ⟨tbl, by simp [flatten, scanAux], fun k _ => rfl, trivial⟩
  | inc => intro i st tbl; exact ⟨tbl, by simp [flatten, scanAux], fun k _ => rfl, trivial⟩
  | dec => intro i st tbl; exact ⟨tbl, by simp [flatten, scanAux], fun k _ => rfl, trivial⟩
  | write => intro i st tbl; exact ⟨tbl, by simp [flatten, scanAux], fun k _ => rfl, trivial⟩
  | read => intro i st tbl; exact ⟨tbl, by simp [flatten, scanAux], fun k _ => rfl, trivial⟩

/-- The load phase accepts the layout of any `Ast` and the resulting jump
table is correct for it. -/
theorem scanBrackets_flatten (a : Ast) :
    ∃ tbl, scanBrackets (flatten a) = .ok tbl ∧ TblOk tbl 0 a := by
  obtain ⟨tbl, h, _, k⟩ := scanAux_flatten a 0 [] (fun k => k)
  exact ⟨tbl, by simp [scanBrackets, h], k⟩

/-! ## Simulation: big-step derivations are realised by the flat machine -/

theorem getD_region {ops pre mid post : List Char}
    (h : ops = pre ++ (mid ++ post)) (k : Nat) (hk : k < mid.length) :
    ops.getD (pre.length + k) ' ' = mid.getD k ' ' := by
  subst h
  rw [List.getD_eq_getElem?_getD, List.getD_eq_getElem?_getD,
    List.getElem?_append_right (by omega : pre.length ≤ pre.length + k),
    show pre.length + k - pre.length = k from by omega,
    List.getElem?_append_left hk]

theorem stepN_add (ops : List Char) (tbl : Nat → Nat) (cs : Nat)
    (inp : List Int) (m n : Nat) :
    ∀ s : ExecState, stepN ops tbl cs inp (m + n) s =
      match stepN ops tbl cs inp m s with
      | none => none
      | some s' => stepN ops tbl cs inp n s' := by
  induction m with
  | zero => intro s; simp [stepN]
  | succ m ih =>
    intro s
    have harith : m + 1 + n = (m + n) + 1 := by omega
    rw [harith]
    by_cases h : s.ip < ops.length
    · rcases hms : machineStep ops tbl cs inp s with s' | _
      · have hl : stepN ops tbl cs inp ((m + n) + 1) s =
            stepN ops tbl cs inp (m + n) s' := by
          simp [stepN, h, hms]
        have hr : stepN ops tbl cs inp (m + 1) s =
            stepN ops tbl cs inp m s' := by
          simp [stepN, h, hms]
        rw [hl, hr, ih s']
      · have hl : stepN ops tbl cs inp ((m + n) + 1) s = none := by
          simp [stepN, h, hms]
        have hr : stepN ops tbl cs inp (m + 1) s = none := by
          simp [stepN, h, hms]
        rw [hl, hr]
    · have hl : stepN ops tbl cs inp ((m + n) + 1) s = none := by
        simp [stepN, h]
      have hr : stepN ops tbl cs inp (m + 1) s = none := by
        simp [stepN, h]
      rw [hl, hr]

theorem stepN_one {ops : List Char} {tbl : Nat → Nat} {cs : Nat}
    {inp : List Int} {s s' : ExecState} (hip : s.ip < ops.length)
    (hms : machineStep ops tbl cs inp s = .cont s') :
    stepN ops tbl cs inp 1 s = some s' := by
  simp [stepN, hip, hms]

theorem machineStep_right {ops : List Char} {tbl : Nat → Nat} {cs : Nat}
    {inp : List Int} {s : ExecState} (h : ops.getD s.ip ' ' = '>') :
    machineStep ops tbl cs inp s = .cont { s with ptr := s.ptr + 1, ip := s.ip + 1 } := by
  simp only [List.getD_eq_getElem?_getD] at h
  simp [machineStep, h]

theorem machineStep_left {ops : List Char} {tbl : Nat → Nat} {cs : Nat}
    {inp : List Int} {s : ExecState} (h : ops.getD s.ip ' ' = '<')
    (hp : s.ptr ≠ 0) :
    machineStep ops tbl cs inp s = .cont { s with ptr := s.ptr - 1, ip := s.ip + 1 } := by
  simp only [List.getD_eq_getElem?_getD] at h
  simp [machineStep, h, hp]

theorem machineStep_left_err {ops : List Char} {tbl : Nat → Nat} {cs : Nat}
    {inp : List Int} {s : ExecState} (h : ops.getD s.ip ' ' = '<')
    (hp : s.ptr = 0) :
    machineStep ops tbl cs inp s = .ptrErr := by
  simp only [List.getD_eq_getElem?_getD] at h
  simp [machineStep, h, hp]

theorem machineStep_inc {ops : List Char} {tbl : Nat → Nat} {cs : Nat}
    {inp : List Int} {s : ExecState} (h : ops.getD s.ip ' ' = '+') :
    machineStep ops tbl cs inp s = .cont { s with
      tape := Function.update s.tape s.ptr ((s.tape s.ptr + 1) % (cs : Int)),
      ip := s.ip + 1 } := by
  simp only [List.getD_eq_getElem?_getD] at h
  simp [machineStep, h]

theorem machineStep_dec {ops : List Char} {tbl : Nat → Nat} {cs : Nat}
    {inp : List Int} {s : ExecState} (h : ops.getD s.ip ' ' = '-') :
    machineStep ops tbl cs inp s = .cont { s with
      tape := Function.update s.tape s.ptr ((s.tape s.ptr - 1) % (cs : Int)),
      ip := s.ip + 1 } := by
  simp only [List.getD_eq_getElem?_getD] at h
  simp [machineStep, h]

theorem machineStep_write {ops : List Char} {tbl : Nat → Nat} {cs : Nat}
    {inp : List Int} {s : ExecState} (h : ops.getD s.ip ' ' = '.') :
    machineStep ops tbl cs inp s = .cont { s with
      output := s.output ++ [s.tape s.ptr], ip := s.ip + 1 } := by
  simp only [List.getD_eq_getElem?_getD] at h
  simp [machineStep, h]

theorem machineStep_read_more {ops : List Char} {tbl : Nat → Nat} {cs : Nat}
    {inp : List Int} {s : ExecState} (h : ops.getD s.ip ' ' = ',')
    (hlt : s.inputPos < inp.length) :
    machineStep ops tbl cs inp s = .cont { s with
      tape := Function.update s.tape s.ptr (inp.get ⟨s.inputPos, hlt⟩),
      inputPos := s.inputPos + 1, ip := s.ip + 1 } := by
  simp only [List.getD_eq_getElem?_getD] at h
  simp [machineStep, h, hlt]

theorem machineStep_read_eof {ops : List Char} {tbl : Nat → Nat} {cs : Nat}
    {inp : List Int} {s : ExecState} (h : ops.getD s.ip ' ' = ',')
    (hlt : ¬ s.inputPos < inp.length) :
    machineStep ops tbl cs inp s = .cont { s with
      tape := Function.update s.tape s.ptr 0, ip := s.ip + 1 } := by
  simp only [List.getD_eq_getElem?_getD] at h
  simp [machineStep, h, hlt]

theorem machineStep_open {ops : List Char} {tbl : Nat → Nat} {cs : Nat}
    {inp : List Int} {s : ExecState} (h : ops.getD s.ip ' ' = '[') :
    machineStep ops tbl cs inp s = .cont { s with
      ip := (if s.tape s.ptr = 0 then tbl s.ip else s.ip) + 1 } := by
  simp only [List.getD_eq_getElem?_getD] at h
  simp [machineStep, h]

theorem machineStep_close {ops : List Char} {tbl : Nat → Nat} {cs : Nat}
    {inp : List Int} {s : ExecState} (h : ops.getD s.ip ' ' = ']') :
    machineStep ops tbl cs inp s = .cont { s with
      ip := (if s.tape s.ptr ≠ 0 then tbl s.ip else s.ip) + 1 } := by
  simp only [List.getD_eq_getElem?_getD] at h
  simp [machineStep, h]

theorem sub_singleton {ops pre post : List Char} {ch : Char}
    (hops : ops = pre ++ ([ch] ++ post)) :
    pre.length < ops.length ∧ ops.getD pre.length ' ' = ch := by
  constructor
  · rw [hops]; simp
  · have h0 := getD_region hops 0 (by simp)
    simpa using h0

/-- Simulation: a big-step derivation for `a`, laid out inside `ops` at
offset `pre.length` with a correct jump table, is realised by finitely
many flat-machine steps from the matching state, ending just past the
layout of `a`. -/
theorem bigStep_stepN {cs : Nat} {inp : List Int} {a : Ast} {c c' : Cfg}
    (h : BigStep cs inp a c c') :
    ∀ (ops : List Char) (tbl : Nat → Nat) (pre post : List Char),
      ops = pre ++ (flatten a ++ post) → TblOk tbl pre.length a →
      ∃ n, stepN ops tbl cs inp n (c.toES pre.length) =
        some (c'.toES (pre.length + (flatten a).length)) := by
  induction h with
  | skip c =>
    intro ops tbl pre post hops htbl
    exact ⟨0, by simp [stepN, flatten, Cfg.toES]⟩
  | @seq a b c₁ c₂ c₃ h1 h2 ih1 ih2 =>
    intro ops tbl pre post hops htbl
    simp only [TblOk] at htbl
    obtain ⟨n₁, e₁⟩ := ih1 ops tbl pre (flatten b ++ post)
      (by rw [hops]; simp [flatten, List.append_assoc]) htbl.1
    obtain ⟨n₂, e₂⟩ := ih2 ops tbl (pre ++ flatten a) post
      (by rw [hops]; simp [flatten, List.append_assoc])
      (by simpa using htbl.2)
    have hl : (pre ++ flatten a).length = pre.length + (flatten a).length := by
      simp
    rw [hl] at e₂
    have hfin : pre.length + (flatten a).length + (flatten b).length =
        pre.length + (flatten (Ast.seq a b)).length := by
      simp [flatten]; omega
    rw [hfin] at e₂
    refine ⟨n₁ + n₂, ?_⟩
    rw [stepN_add, e₁]
    exact e₂
  | right c =>
    intro ops tbl pre post hops htbl
    obtain ⟨hip, hop⟩ := sub_singleton (by simpa [flatten] using hops)
    refine ⟨1, ?_⟩
    rw [stepN_one (by simpa [Cfg.toES] using hip)
      (machineStep_right (by simpa [Cfg.toES] using hop))]
    simp [Cfg.toES, flatten]
  | left c hp =>
    intro ops tbl pre post hops htbl
    obtain ⟨hip, hop⟩ := sub_singleton (by simpa [flatten] using hops)
    refine ⟨1, ?_⟩
    rw [stepN_one (by simpa [Cfg.toES] using hip)
      (machineStep_left (by simpa [Cfg.toES] using hop) (by simpa [Cfg.toES] using hp))]
    simp [Cfg.toES, flatten]
  | inc c =>
    intro ops tbl pre post hops htbl
    obtain ⟨hip, hop⟩ := sub_singleton (by simpa [flatten] using hops)
    refine ⟨1, ?_⟩
    rw [stepN_one (by simpa [Cfg.toES] using hip)
      (machineStep_inc (by simpa [Cfg.toES] using hop))]
    simp [Cfg.toES, flatten]
  | dec c =>
    intro ops tbl pre post hops htbl
    obtain ⟨hip, hop⟩ := sub_singleton (by simpa [flatten] using hops)
    refine ⟨1, ?_⟩
    rw [stepN_one (by simpa [Cfg.toES] using hip)
      (machineStep_dec (by simpa [Cfg.toES] using hop))]
    simp [Cfg.toES, flatten]
  | write c =>
    intro ops tbl pre post hops htbl
    obtain ⟨hip, hop⟩ := sub_singleton (by simpa [flatten] using hops)
    refine ⟨1, ?_⟩
    rw [stepN_one (by simpa [Cfg.toES] using hip)
      (machineStep_write (by simpa [Cfg.toES] using hop))]
    simp [Cfg.toES, flatten]
  | readMore c hlt =>
    intro ops tbl pre post hops htbl
    obtain ⟨hip, hop⟩ := sub_singleton (by simpa [flatten] using hops)
    refine ⟨1, ?_⟩
    rw [stepN_one (by simpa [Cfg.toES] using hip)
      (machineStep_read_more (by simpa [Cfg.toES] using hop) (by simpa [Cfg.toES] using hlt))]
    simp [Cfg.toES, flatten]
  | readEof c hlt =>
    intro ops tbl pre post hops htbl
    obtain ⟨hip, hop⟩ := sub_singleton (by simpa [flatten] using hops)
    refine ⟨1, ?_⟩
    rw [stepN_one (by simpa [Cfg.toES] using hip)
      (machineStep_read_eof (by simpa [Cfg.toES] using hop) (by simpa [Cfg.toES] using hlt))]
    simp [Cfg.toES, flatten]
  | @loopZero b c hz =>
    intro ops tbl pre post hops htbl
    simp only [TblOk] at htbl
    have hops' : ops = pre ++ (('[' :: (flatten b ++ [']'])) ++ post) := by
      simpa [flatten] using hops
    have hlen : ops.length = pre.length + (flatten b).length + 2 + post.length := by
      rw [hops']; simp; omega
    have hip : pre.length < ops.length := by omega
    have hop : ops.getD pre.length ' ' = '[' := by
      have h0 := getD_region hops' 0 (by simp)
      simpa using h0
    refine ⟨1, ?_⟩
    have hstep : stepN ops tbl cs inp 1 (Cfg.toES c pre.length) =
        some (Cfg.toES c
          ((if c.tape c.ptr = 0 then tbl pre.length else pre.length) + 1)) := by
      refine stepN_one (by simpa [Cfg.toES] using hip) ?_
      rw [machineStep_open (by simpa [Cfg.toES] using hop)]
      rfl
    rw [hstep, if_pos hz, htbl.1]
    have harr : pre.length + (flatten b).length + 1 + 1 =
        pre.length + (flatten (Ast.loop b)).length := by
      simp [flatten]; omega
    rw [harr]
  | @loopSucc b c c₂ c₃ hnz hbody htail ihbody ihtail =>
    intro ops tbl pre post hops htbl
    simp only [TblOk] at htbl
    obtain ⟨h1, h2, h3⟩ := htbl
    have hops' : ops = pre ++ (('[' :: (flatten b ++ [']'])) ++ post) := by
      simpa [flatten] using hops
    have hops'' : ops = (pre ++ ['[']) ++ (flatten b ++ (']' :: post)) := by
      rw [hops']; simp
    have hops''' : ops = (pre ++ ('[' :: flatten b)) ++ ([']'] ++ post) := by
      rw [hops']; simp
    have hlen : ops.length = pre.length + (flatten b).length + 2 + post.length := by
      rw [hops']; simp; omega
    have hip0 : pre.length < ops.length := by omega
    have hipc : pre.length + 1 + (flatten b).length < ops.length := by omega
    have hop0 : ops.getD pre.length ' ' = '[' := by
      have h0 := getD_region hops' 0 (by simp)
      simpa using h0
    have hopc : ops.getD (pre.length + 1 + (flatten b).length) ' ' = ']' := by
      have h0 := getD_region hops''' 0 (by simp)
      have harr : (pre ++ ('[' :: flatten b)).length + 0 =
          pre.length + 1 + (flatten b).length := by simp; omega
      rw [harr] at h0
      simpa using h0
    obtain ⟨n₁, e₁⟩ := ihbody ops tbl (pre ++ ['[']) (']' :: post) hops''
      (by simpa using h3)
    have e₁' : stepN ops tbl cs inp n₁ (Cfg.toES c (pre.length + 1)) =
        some (Cfg.toES c₂ (pre.length + 1 + (flatten b).length)) := by
      have hl : (pre ++ ['[']).length = pre.length + 1 := by simp
      rw [hl] at e₁
      exact e₁
    have hstep1 : stepN ops tbl cs inp 1 (Cfg.toES c pre.length) =
        some (Cfg.toES c (pre.length + 1)) := by
      refine stepN_one (by simpa [Cfg.toES] using hip0) ?_
      rw [machineStep_open (by simpa [Cfg.toES] using hop0)]
      show StepOut.cont (Cfg.toES c
        ((if c.tape c.ptr = 0 then tbl pre.length else pre.length) + 1)) = _
      rw [if_neg hnz]
    by_cases hz : c₂.tape c₂.ptr = 0
    · -- the tail derivation must be `loopZero`, and the `]` falls through
      have hc₃ : c₂ = c₃ := by
        cases htail with
        | loopZero _ _ => rfl
        | loopSucc h' _ _ => exact absurd hz h'
      subst hc₃
      have hstepc : stepN ops tbl cs inp 1
          (Cfg.toES c₂ (pre.length + 1 + (flatten b).length)) =
          some (Cfg.toES c₂ (pre.length + (flatten (Ast.loop b)).length)) := by
        refine stepN_one (by simpa [Cfg.toES] using hipc) ?_
        rw [machineStep_close (by simpa [Cfg.toES] using hopc)]
        show StepOut.cont (Cfg.toES c₂
          ((if c₂.tape c₂.ptr ≠ 0 then tbl (pre.length + 1 + (flatten b).length)
            else (pre.length + 1 + (flatten b).length)) + 1)) = _
        rw [if_neg (by simp [hz])]
        have harr : pre.length + 1 + (flatten b).length + 1 =
            pre.length + (flatten (Ast.loop b)).length := by
          simp [flatten]; omega
        rw [harr]
      refine ⟨1 + (n₁ + 1), ?_⟩
      rw [stepN_add, hstep1]
      show stepN ops tbl cs inp (n₁ + 1) (Cfg.toES c (pre.length + 1)) = _
      rw [stepN_add, e₁']
      exact hstepc
    · -- the loop iterates again: peel the initial `[` off the tail run
      obtain ⟨m, e_t⟩ := ihtail ops tbl pre post hops
        (by simp only [TblOk]; exact ⟨h1, h2, h3⟩)
      cases m with
      | zero =>
        exfalso
        have hip_eq : (Cfg.toES c₂ pre.length).ip =
            (Cfg.toES c₃ (pre.length + (flatten (Ast.loop b)).length)).ip := by
          rw [Option.some.inj e_t]
        simp only [Cfg.toES] at hip_eq
        have hL : (flatten (Ast.loop b)).length = (flatten b).length + 2 := by
          simp [flatten]
        omega
      | succ m' =>
        have hs1 : stepN ops tbl cs inp 1 (Cfg.toES c₂ pre.length) =
            some (Cfg.toES c₂ (pre.length + 1)) := by
          refine stepN_one (by simpa [Cfg.toES] using hip0) ?_
          rw [machineStep_open (by simpa [Cfg.toES] using hop0)]
          show StepOut.cont (Cfg.toES c₂
            ((if c₂.tape c₂.ptr = 0 then tbl pre.length else pre.length) + 1)) = _
          rw [if_neg hz]
        have e_t' : stepN ops tbl cs inp m' (Cfg.toES c₂ (pre.length + 1)) =
            some (Cfg.toES c₃ (pre.length + (flatten (Ast.loop b)).length)) := by
          have harr : m' + 1 = 1 + m' := by omega
          rw [harr, stepN_add, hs1] at e_t
          exact e_t
        have hstepc : stepN ops tbl cs inp 1
            (Cfg.toES c₂ (pre.length + 1 + (flatten b).length)) =
            some (Cfg.toES c₂ (pre.length + 1)) := by
          refine stepN_one (by simpa [Cfg.toES] using hipc) ?_
          rw [machineStep_close (by simpa [Cfg.toES] using hopc)]
          show StepOut.cont (Cfg.toES c₂
            ((if c₂.tape c₂.ptr ≠ 0 then tbl (pre.length + 1 + (flatten b).length)
              else (pre.length + 1 + (flatten b).length)) + 1)) = _
          rw [if_pos hz]
          have harr : pre.length + 1 + (flatten b).length =
              pre.length + (flatten b).length + 1 := by omega
          rw [harr, h2]
        refine ⟨1 + (n₁ + (1 + m')), ?_⟩
        rw [stepN_add, hstep1]
        show stepN ops tbl cs inp (n₁ + (1 + m')) (Cfg.toES c (pre.length + 1)) = _
        rw [stepN_add, e₁']
        show stepN ops tbl cs inp (1 + m')
          (Cfg.toES c₂ (pre.length + 1 + (flatten b).length)) = _
        rw [stepN_add, hstepc]
        exact e_t'

/-- A completed `stepN` run within the budget is what `execLoop` returns. -/
theorem stepN_execLoop {ops : List Char} {tbl : Nat → Nat} {cs : Nat}
    {inp : List Int} :
    ∀ (n : Nat) (s s' : ExecState),
      stepN ops tbl cs inp n s = some s' → ¬ s'.ip < ops.length →
      ∀ (maxSteps steps fuel : Nat), steps + n ≤ maxSteps → n < fuel →
        execLoop ops tbl cs inp maxSteps fuel steps s = .ok s'.output := by
  intro n
  induction n with
  | zero =>
    intro s s' hs hend maxSteps steps fuel hbud hfuel
    cases fuel with
    | zero => omega
    | succ f =>
      simp only [stepN] at hs
      injection hs with hs
      subst hs
      simp [execLoop, hend]
  | succ n ih =>
    intro s s' hs hend maxSteps steps fuel hbud hfuel
    simp only [stepN] at hs
    by_cases hip : s.ip < ops.length
    · rw [if_pos hip] at hs
      cases fuel with
      | zero => omega
      | succ f =>
        rcases hms : machineStep ops tbl cs inp s with s₁ | _
        · rw [hms] at hs
          have : execLoop ops tbl cs inp maxSteps (f + 1) steps s =
              execLoop ops tbl cs inp maxSteps f (steps + 1) s₁ := by
            simp [execLoop, hip, hms, Nat.not_lt.mpr, show ¬ steps + 1 > maxSteps by omega]
          rw [this]
          exact ih s₁ s' hs hend maxSteps (steps + 1) f (by omega) (by omega)
        · rw [hms] at hs
          exact absurd hs (by simp)
    · rw [if_neg hip] at hs
      exact absurd hs (by simp)

/-- Master theorem: if the filtered program is the layout of an `Ast` with
a big-step derivation from the initial configuration, then for every
sufficiently large budget `run_bf` succeeds with that derivation's output. -/
theorem run_bf_of_bigStep {a : Ast} {c' : Cfg} {cs : Nat} {inp : List Int}
    (code : List Char)
    (hcode : code.filter (fun c => c ∈ isaChars) = flatten a)
    (h : BigStep cs inp a ⟨fun _ => 0, 0, 0, []⟩ c') :
    ∃ N, ∀ maxSteps, N ≤ maxSteps →
      run_bf code inp cs maxSteps = .ok c'.output := by
  obtain ⟨tbl, hscan, htbl⟩ := scanBrackets_flatten a
  obtain ⟨n, hrun⟩ := bigStep_stepN h (flatten a) tbl [] []
    (by simp) (by simpa using htbl)
  simp only [List.length_nil, Nat.zero_add] at hrun
  refine ⟨n, ?_⟩
  intro maxSteps hms
  have hrun' : stepN (flatten a) tbl cs inp n initState =
      some (Cfg.toES c' (flatten a).length) := hrun
  have hend : ¬ (Cfg.toES c' (flatten a).length).ip < (flatten a).length := by
    simp [Cfg.toES]
  unfold run_bf
  rw [hcode]
  show (match scanBrackets (flatten a) with
    | Except.error e => Except.error e
    | Except.ok tbl =>
        execLoop (flatten a) tbl cs inp maxSteps (maxSteps + 1) 0 initState) =
    Except.ok c'.output
  rw [hscan]
  exact stepN_execLoop n initState _ hrun' hend maxSteps 0 (maxSteps + 1)
    (by omega) (by omega)

/-- Fragment-level master theorem: a big-step derivation for a fragment is
realised by the flat machine on the fragment alone: its own bracket scan
succeeds, and some number of steps takes the corresponding start state to
the end of the fragment with the derivation's final configuration. -/
theorem frag_run_of_bigStep {a : Ast} {c c' : Cfg} {cs : Nat} {inp : List Int}
    (h : BigStep cs inp a c c') :
    ∃ tbl, scanBrackets (flatten a) = .ok tbl ∧
      ∃ n, stepN (flatten a) tbl cs inp n (c.toES 0) =
        some (c'.toES (flatten a).length) := by
  obtain ⟨tbl, hscan, htbl⟩ := scanBrackets_flatten a
  obtain ⟨n, hrun⟩ := bigStep_stepN h (flatten a) tbl [] []
    (by simp) (by simpa using htbl)
  exact ⟨tbl, hscan, n, by simpa using hrun⟩

/-! ## Structured counterparts of the emitter operations

For each `BF` method a function builds the `Ast` of the fragment that the
method emits, given the cursor position `p` the method starts from.  The
lemmas `..._code`/`..._pos` prove that the method emits exactly the
layout of that `Ast` and tracks the cursor accordingly. -/

/-- `n`-fold repetition of a single instruction. -/
def repAst (x : Ast) : Nat → Ast
  | 0 => .skip
  | n + 1 => .seq x (repAst x n)

/-- The motion fragment `_goto` emits from `p` to `c`. -/
def aMoves (p c : Nat) : Ast :=
  if c > p then repAst .right (c - p)
  else if c < p then repAst .left (p - c)
  else .skip

def incA (p cell n : Nat) : Ast := .seq (aMoves p cell) (repAst .inc n)

def decA (p cell n : Nat) : Ast := .seq (aMoves p cell) (repAst .dec n)

def clearA (p cell : Nat) : Ast := .seq (aMoves p cell) (.loop .dec)

def readA (p cell : Nat) : Ast := .seq (aMoves p cell) .read

def writeA (p cell : Nat) : Ast := .seq (aMoves p cell) .write

def moveA (p src dst : Nat) : Ast :=
  .seq (aMoves p src)
    (.loop (.seq .dec (.seq (aMoves src dst) (.seq .inc (aMoves dst src)))))

def copyA (p src dst tmp : Nat) : Ast :=
  .seq
    (.seq (aMoves p src)
      (.loop (.seq .dec (.seq (aMoves src dst) (.seq .inc
        (.seq (aMoves dst tmp) (.seq .inc (aMoves tmp src))))))))
    (moveA src tmp src)

def multiplyA (p a bc r t : Nat) : Ast :=
  .seq (aMoves p a)
    (.loop (.seq .dec (.seq (aMoves a bc)
      (.seq (.loop (.seq .dec (.seq (aMoves bc r)
        (.seq .inc (.seq (aMoves r t) (.seq .inc (aMoves t bc)))))))
        (.seq (moveA bc t bc) (aMoves t a))))))

/-- The esolangs divmod loop `[->-[>+>>]>[+[-<+>]>+>>]<<<<<]`. -/
def dmLoopAst : Ast :=
  .loop (.seq .dec (.seq .right (.seq .dec
    (.seq (.loop (.seq .right (.seq .inc (.seq .right .right))))
      (.seq .right
        (.seq (.loop (.seq .inc (.seq (.loop (.seq .dec (.seq .left
            (.seq .inc .right))))
          (.seq .right (.seq .inc (.seq .right .right))))))
          (.seq .left (.seq .left (.seq .left (.seq .left .left))))))))))

def divmodA (p base : Nat) : Ast :=
  .seq (incA p (base + 2) 10)
    (.seq (aMoves (base + 2) base)
      (.seq .right (.seq dmLoopAst (clearA (base + 1) (base + 2)))))

/-- Sequence a list of fragments. -/
def seqs : List Ast → Ast
  | [] => .skip
  | x :: xs => .seq x (seqs xs)

/-- A `loop_open`/`loop_close` pair on cell `c` whose body ends with the
cursor at `endPos`: the closing `goto` is part of the loop body. -/
def loopA (c : Nat) (body : Ast) (endPos : Nat) : Ast :=
  .loop (.seq body (aMoves endPos c))

theorem flatten_repAst (x : Ast) (ch : Char) (h : flatten x = [ch]) (n : Nat) :
    flatten (repAst x n) = List.replicate n ch := by
  induction n with
  | zero => simp [repAst, flatten]
  | succ n ih => simp [repAst, flatten, h, ih, List.replicate_succ]

theorem goto_pos (b : BF) (c : Nat) : (b.goto c).pos = c := by
  unfold BF.goto
  split_ifs <;> rfl

theorem goto_code (b : BF) (c : Nat) :
    (b.goto c).code = b.code ++ flatten (aMoves b.pos c) := by
  unfold BF.goto aMoves
  split_ifs with h1 h2
  · rw [flatten_repAst .right '>' rfl]
  · rw [flatten_repAst .left '<' rfl]
  · simp [flatten]

theorem inc_pos (b : BF) (cell n : Nat) : (b.inc cell n).pos = cell := by
  simp [BF.inc, goto_pos]

theorem inc_code (b : BF) (cell n : Nat) :
    (b.inc cell n).code = b.code ++ flatten (incA b.pos cell n) := by
  simp [BF.inc, incA, flatten, goto_code, flatten_repAst .inc '+' rfl]

theorem dec_pos (b : BF) (cell n : Nat) : (b.dec cell n).pos = cell := by
  simp [BF.dec, goto_pos]

theorem dec_code (b : BF) (cell n : Nat) :
    (b.dec cell n).code = b.code ++ flatten (decA b.pos cell n) := by
  simp [BF.dec, decA, flatten, goto_code, flatten_repAst .dec '-' rfl]

theorem clear_pos (b : BF) (cell : Nat) : (b.clear cell).pos = cell := by
  simp [BF.clear, goto_pos]

theorem clear_code (b : BF) (cell : Nat) :
    (b.clear cell).code = b.code ++ flatten (clearA b.pos cell) := by
  simp [BF.clear, clearA, flatten, goto_code]

theorem read_pos (b : BF) (cell : Nat) : (b.read cell).pos = cell := by
  simp [BF.read, goto_pos]

theorem read_code (b : BF) (cell : Nat) :
    (b.read cell).code = b.code ++ flatten (readA b.pos cell) := by
  simp [BF.read, readA, flatten, goto_code]

theorem write_pos (b : BF) (cell : Nat) : (b.write cell).pos = cell := by
  simp [BF.write, goto_pos]

theorem write_code (b : BF) (cell : Nat) :
    (b.write cell).code = b.code ++ flatten (writeA b.pos cell) := by
  simp [BF.write, writeA, flatten, goto_code]

theorem move_pos (b : BF) (src dst : Nat) : (b.move src dst).pos = src := by
  simp [BF.move, goto_pos]

theorem move_code (b : BF) (src dst : Nat) :
    (b.move src dst).code = b.code ++ flatten (moveA b.pos src dst) := by
  simp [BF.move, moveA, flatten, goto_code, goto_pos, List.append_assoc]

theorem copy_pos (b : BF) (src dst tmp : Nat) : (b.copy src dst tmp).pos = tmp := by
  simp [BF.copy, move_pos]

theorem copy_code (b : BF) (src dst tmp : Nat) :
    (b.copy src dst tmp).code = b.code ++ flatten (copyA b.pos src dst tmp) := by
  simp [BF.copy, copyA, flatten, goto_code, goto_pos, move_code, move_pos,
    List.append_assoc]

theorem multiply_pos (b : BF) (a bc r t : Nat) : (b.multiply a bc r t).pos = a := by
  simp [BF.multiply, goto_pos]

theorem multiply_code (b : BF) (a bc r t : Nat) :
    (b.multiply a bc r t).code = b.code ++ flatten (multiplyA b.pos a bc r t) := by
  simp [BF.multiply, multiplyA, flatten, goto_code, goto_pos, move_code,
    move_pos, List.append_assoc]

theorem dmLoopAst_flatten : flatten dmLoopAst = dmLoopChars := by decide

theorem divmod_pos (b : BF) (base : Nat) : (b.divmod_10 base).pos = base + 2 := by
  simp [BF.divmod_10, clear_pos]

theorem divmod_code (b : BF) (base : Nat) :
    (b.divmod_10 base).code = b.code ++ flatten (divmodA b.pos base) := by
  simp [BF.divmod_10, divmodA, flatten, inc_code, inc_pos, clear_code,
    goto_code, goto_pos, dmLoopChars, List.append_assoc]

theorem loop_open_pos (b : BF) (cell : Nat) : (b.loop_open cell).pos = cell := by
  simp [BF.loop_open, goto_pos]

theorem loop_open_code (b : BF) (cell : Nat) :
    (b.loop_open cell).code = b.code ++ (flatten (aMoves b.pos cell) ++ ['[']) := by
  simp [BF.loop_open, goto_code, goto_pos, List.append_assoc]

theorem loop_close_pos (b : BF) (cell : Nat) : (b.loop_close cell).pos = cell := by
  simp [BF.loop_close, goto_pos]

theorem loop_close_code (b : BF) (cell : Nat) :
    (b.loop_close cell).code = b.code ++ (flatten (aMoves b.pos cell) ++ [']']) := by
  simp [BF.loop_close, goto_code, goto_pos, List.append_assoc]

theorem print_pos (b : BF) (val ws : Nat) : (b.print_number val ws).pos = ws + 12 := by
  simp [BF.print_number, loop_close_pos]


/-! ## Compositional emission specifications

`Emits f e` says the builder transformation `f` appends exactly the layout
of `e.frag p` when started at cursor `p`, leaving the cursor at `e.post p`.
Composing these specs keeps proofs about long emission chains linear. -/

structure EmitSpec where
  frag : Nat → Ast
  post : Nat → Nat

def Emits (f : BF → BF) (e : EmitSpec) : Prop :=
  ∀ b : BF, (f b).code = b.code ++ flatten (e.frag b.pos) ∧ (f b).pos = e.post b.pos

theorem emits_comp {f g : BF → BF} {ef eg : EmitSpec}
    (hf : Emits f ef) (hg : Emits g eg) :
    Emits (fun b => g (f b))
      ⟨fun p => .seq (ef.frag p) (eg.frag (ef.post p)),
       fun p => eg.post (ef.post p)⟩ := by
  intro b
  obtain ⟨hc, hp⟩ := hf b
  obtain ⟨hc', hp'⟩ := hg (f b)
  constructor
  · rw [hc', hc, hp, flatten]
    simp [List.append_assoc]
  · rw [hp', hp]

theorem emits_of_eq {f g : BF → BF} {e e' : EmitSpec}
    (h : Emits f e) (hfg : ∀ b, g b = f b)
    (h1 : ∀ p, e'.frag p = e.frag p) (h2 : ∀ p, e'.post p = e.post p) :
    Emits g e' := by
  intro b
  rw [hfg b, h1, h2]
  exact h b

theorem emits_loop {f : BF → BF} {e : EmitSpec} (c : Nat) (hf : Emits f e) :
    Emits (fun b => (f (b.loop_open c)).loop_close c)
      ⟨fun p => .seq (aMoves p c) (loopA c (e.frag c) (e.post c)),
       fun _ => c⟩ := by
  intro b
  obtain ⟨hc, hp⟩ := hf (b.loop_open c)
  rw [loop_open_pos] at hc hp
  refine ⟨?_, loop_close_pos _ c⟩
  rw [loop_close_code, hc, loop_open_code, hp]
  simp [loopA, flatten, List.append_assoc]

theorem emits_inc (cell n : Nat) :
    Emits (fun b => b.inc cell n) ⟨fun p => incA p cell n, fun _ => cell⟩ :=
  fun b => ⟨inc_code b cell n, inc_pos b cell n⟩

theorem emits_dec (cell n : Nat) :
    Emits (fun b => b.dec cell n) ⟨fun p => decA p cell n, fun _ => cell⟩ :=
  fun b => ⟨dec_code b cell n, dec_pos b cell n⟩

theorem emits_clear (cell : Nat) :
    Emits (fun b => b.clear cell) ⟨fun p => clearA p cell, fun _ => cell⟩ :=
  fun b => ⟨clear_code b cell, clear_pos b cell⟩

theorem emits_read (cell : Nat) :
    Emits (fun b => b.read cell) ⟨fun p => readA p cell, fun _ => cell⟩ :=
  fun b => ⟨read_code b cell, read_pos b cell⟩

theorem emits_write (cell : Nat) :
    Emits (fun b => b.write cell) ⟨fun p => writeA p cell, fun _ => cell⟩ :=
  fun b => ⟨write_code b cell, write_pos b cell⟩

theorem emits_move (src dst : Nat) :
    Emits (fun b => b.move src dst) ⟨fun p => moveA p src dst, fun _ => src⟩ :=
  fun b => ⟨move_code b src dst, move_pos b src dst⟩

theorem emits_multiply (a bc r t : Nat) :
    Emits (fun b => b.multiply a bc r t)
      ⟨fun p => multiplyA p a bc r t, fun _ => a⟩ :=
  fun b => ⟨multiply_code b a bc r t, multiply_pos b a bc r t⟩

theorem emits_divmod (base : Nat) :
    Emits (fun b => b.divmod_10 base)
      ⟨fun p => divmodA p base, fun _ => base + 2⟩ :=
  fun b => ⟨divmod_code b base, divmod_pos b base⟩

/-! ## The layout of `print_number` and of `generate` -/

/-- The print-one-digit unit: `inc cell 48; write cell; clear cell`,
entered with the cursor at `c`. -/
def digitA (c cell : Nat) : Ast :=
  .seq (incA c cell 48) (.seq (writeA cell cell) (clearA cell cell))

/-- Branch 1 of `print_number` (hundreds > 0), body from cursor `ws+10`. -/
def printB1 (ws : Nat) : Ast :=
  .seq (decA (ws + 10) (ws + 12) 1)
  (.seq (decA (ws + 12) (ws + 13) 1)
  (.seq (digitA (ws + 13) (ws + 10))
  (.seq (digitA (ws + 10) (ws + 9))
        (digitA (ws + 9) (ws + 3)))))

/-- Sub-branch 2a of `print_number` (tens > 0), body from cursor `ws+9`. -/
def printB2a (ws : Nat) : Ast :=
  .seq (decA (ws + 9) (ws + 13) 1)
  (.seq (digitA (ws + 13) (ws + 9))
        (digitA (ws + 9) (ws + 3)))

/-- Sub-branch 2b of `print_number` (ones only), body from cursor `ws+13`. -/
def printB2b (ws : Nat) : Ast :=
  .seq (decA (ws + 13) (ws + 13) 1)
        (digitA (ws + 13) (ws + 3))

/-- Branch 2 of `print_number` (hundreds = 0), body from cursor `ws+12`. -/
def printB2 (ws : Nat) : Ast :=
  .seq (decA (ws + 12) (ws + 12) 1)
  (.seq (.seq (aMoves (ws + 12) (ws + 9)) (loopA (ws + 9) (printB2a ws) (ws + 3)))
        (.seq (aMoves (ws + 9) (ws + 13)) (loopA (ws + 13) (printB2b ws) (ws + 3))))

/-- The full fragment of `print_number(val, ws)` emitted from cursor `p`. -/
def printA (p val ws : Nat) : Ast :=
  .seq (moveA p val (ws + 1))
  (.seq (divmodA val ws)
  (.seq (moveA (ws + 2) (ws + 4) (ws + 7))
  (.seq (divmodA (ws + 4) (ws + 6))
  (.seq (incA (ws + 8) (ws + 12) 1)
  (.seq (incA (ws + 12) (ws + 13) 1)
  (.seq (.seq (aMoves (ws + 13) (ws + 10)) (loopA (ws + 10) (printB1 ws) (ws + 3)))
        (.seq (aMoves (ws + 10) (ws + 12)) (loopA (ws + 12) (printB2 ws) (ws + 13)))))))))

theorem emits_print (val ws : Nat) :
    Emits (fun b => b.print_number val ws)
      ⟨fun p => printA p val ws, fun _ => ws + 12⟩ := by
  have hB1 :=
    emits_comp (emits_dec (ws + 12) 1)
    (emits_comp (emits_dec (ws + 13) 1)
    (emits_comp (emits_comp (emits_inc (ws + 10) 48)
      (emits_comp (emits_write (ws + 10)) (emits_clear (ws + 10))))
    (emits_comp (emits_comp (emits_inc (ws + 9) 48)
      (emits_comp (emits_write (ws + 9)) (emits_clear (ws + 9))))
      (emits_comp (emits_inc (ws + 3) 48)
      (emits_comp (emits_write (ws + 3)) (emits_clear (ws + 3)))))))
  have hB2a :=
    emits_comp (emits_dec (ws + 13) 1)
    (emits_comp (emits_comp (emits_inc (ws + 9) 48)
      (emits_comp (emits_write (ws + 9)) (emits_clear (ws + 9))))
      (emits_comp (emits_inc (ws + 3) 48)
      (emits_comp (emits_write (ws + 3)) (emits_clear (ws + 3)))))
  have hB2b :=
    emits_comp (emits_dec (ws + 13) 1)
      (emits_comp (emits_inc (ws + 3) 48)
      (emits_comp (emits_write (ws + 3)) (emits_clear (ws + 3))))
  have hB2 :=
    emits_comp (emits_dec (ws + 12) 1)
    (emits_comp (emits_loop (ws + 9) hB2a)
      (emits_loop (ws + 13) hB2b))
  have h :=
    emits_comp (emits_move val (ws + 1))
    (emits_comp (emits_divmod ws)
    (emits_comp (emits_move (ws + 4) (ws + 7))
    (emits_comp (emits_divmod (ws + 6))
    (emits_comp (emits_inc (ws + 12) 1)
    (emits_comp (emits_inc (ws + 13) 1)
    (emits_comp (emits_loop (ws + 10) hB1)
      (emits_loop (ws + 12) hB2)))))))
  exact emits_of_eq h (fun b => rfl) (fun p => rfl) (fun p => rfl)

theorem print_code (b : BF) (val ws : Nat) :
    (b.print_number val ws).code = b.code ++ flatten (printA b.pos val ws) :=
  ((emits_print val ws) b).1

/-- The constant-polynomial branch of `generate` (output `"0\n"`), body
from cursor 6. -/
def genConstOut : Ast :=
  .seq (decA 6 6 1)
  (.seq (incA 6 1 48)
  (.seq (writeA 1 1)
  (.seq (clearA 1 1)
  (.seq (incA 1 1 10)
  (.seq (writeA 1 1)
        (clearA 1 1))))))

/-- The end-of-input branch of the main loop (print `"\n"`), body from
cursor 1. -/
def genSep1 : Ast :=
  .seq (decA 1 6 1)
  (.seq (clearA 6 1)
  (.seq (incA 1 1 10)
  (.seq (writeA 1 1)
        (clearA 1 1))))

/-- The continue branch of the main loop (print `" "`), body from
cursor 6. -/
def genSep2 : Ast :=
  .seq (decA 6 6 1)
  (.seq (incA 6 0 1)
  (.seq (incA 0 1 32)
  (.seq (writeA 1 1)
        (clearA 1 1))))

/-- The main derivative loop body, from cursor 0. -/
def genLoopBody : Ast :=
  .seq (decA 0 0 1)
  (.seq (readA 0 2)
  (.seq (decA 2 2 48)
  (.seq (multiplyA 2 2 3 4 5)
  (.seq (printA 2 4 7)
  (.seq (incA 19 3 1)
  (.seq (readA 3 1)
  (.seq (decA 1 1 32)
  (.seq (incA 1 6 1)
  (.seq (.seq (aMoves 6 1) (loopA 1 genSep1 1))
        (.seq (aMoves 1 6) (loopA 6 genSep2 1)))))))))))

/-- The layout of the generated program, emitted from cursor `p`. -/
def genAstFrom (p : Nat) : Ast :=
  .seq (readA p 0)
  (.seq (clearA 0 0)
  (.seq (readA 0 0)
  (.seq (decA 0 0 32)
  (.seq (incA 0 1 1)
  (.seq (.seq (aMoves 1 0) (loopA 0 (.seq (decA 0 1 1) (clearA 1 0)) 0))
  (.seq (incA 0 6 1)
  (.seq (.seq (aMoves 6 1)
          (loopA 1 (.seq (decA 1 6 1) (.seq (decA 6 1 1) (incA 1 0 1))) 0))
  (.seq (.seq (aMoves 1 6) (loopA 6 genConstOut 1))
  (.seq (incA 6 3 1)
        (.seq (aMoves 3 0) (loopA 0 genLoopBody 6)))))))))))

/-- The layout of the whole generated program (the builder starts at 0). -/
def genAst : Ast := genAstFrom 0

/-- The op chain of `generate`, written as one functional pipeline. -/
def genChain (b : BF) : BF :=
    ((((((((((((((((((((((((((((((((((((((((((((((((((b.read 0).clear
    0).read 0).dec 0 32).inc 1 1).loop_open 0).dec 1 1).clear 0).loop_close
    0).inc 6 1).loop_open 1).dec 6 1).dec 1 1).inc 0 1).loop_close
    1).loop_open 6).dec 6 1).inc 1 48).write 1).clear 1).inc 1 10).write
    1).clear 1).loop_close 6).inc 3 1).loop_open 0).dec 0 1).read 2).dec 2
    48).multiply 2 3 4 5).print_number 4 7).inc 3 1).read 1).dec 1 32).inc 6
    1).loop_open 1).dec 6 1).clear 1).inc 1 10).write 1).clear 1).loop_close
    1).loop_open 6).dec 6 1).inc 0 1).inc 1 32).write 1).clear 1).loop_close
    6).loop_close 0)

set_option maxRecDepth 4000 in
theorem generate_eq_chain : generate = (genChain BF.new).output := rfl

set_option maxRecDepth 4000 in
theorem emits_generate : Emits genChain ⟨fun p => genAstFrom p, fun _ => 0⟩ := by
  have hC0 :=
    emits_comp (emits_dec 6 1)
    (emits_comp (emits_inc 1 48)
    (emits_comp (emits_write 1)
    (emits_comp (emits_clear 1)
    (emits_comp (emits_inc 1 10)
    (emits_comp (emits_write 1)
      (emits_clear 1))))))
  have hS1 :=
    emits_comp (emits_dec 6 1)
    (emits_comp (emits_clear 1)
    (emits_comp (emits_inc 1 10)
    (emits_comp (emits_write 1)
      (emits_clear 1))))
  have hS2 :=
    emits_comp (emits_dec 6 1)
    (emits_comp (emits_inc 0 1)
    (emits_comp (emits_inc 1 32)
    (emits_comp (emits_write 1)
      (emits_clear 1))))
  have hMain :=
    emits_comp (emits_dec 0 1)
    (emits_comp (emits_read 2)
    (emits_comp (emits_dec 2 48)
    (emits_comp (emits_multiply 2 3 4 5)
    (emits_comp (emits_print 4 7)
    (emits_comp (emits_inc 3 1)
    (emits_comp (emits_read 1)
    (emits_comp (emits_dec 1 32)
    (emits_comp (emits_inc 6 1)
    (emits_comp (emits_loop 1 hS1)
      (emits_loop 6 hS2))))))))))
  have h :=
    emits_comp (emits_read 0)
    (emits_comp (emits_clear 0)
    (emits_comp (emits_read 0)
    (emits_comp (emits_dec 0 32)
    (emits_comp (emits_inc 1 1)
    (emits_comp (emits_loop 0 (emits_comp (emits_dec 1 1) (emits_clear 0)))
    (emits_comp (emits_inc 6 1)
    (emits_comp (emits_loop 1
        (emits_comp (emits_dec 6 1)
          (emits_comp (emits_dec 1 1) (emits_inc 0 1))))
    (emits_comp (emits_loop 6 hC0)
    (emits_comp (emits_inc 3 1)
      (emits_loop 0 hMain))))))))))
  exact emits_of_eq h (fun b => rfl) (fun p => rfl) (fun p => rfl)

theorem flatten_isa (a : Ast) : ∀ ch ∈ flatten a, ch ∈ isaChars := by
  induction a with
  | skip => intro ch h; simp [flatten] at h
  | seq a b iha ihb =>
    intro ch h
    simp only [flatten, List.mem_append] at h
    rcases h with h | h
    · exact iha ch h
    · exact ihb ch h
  | loop b ih =>
    intro ch h
    simp only [flatten, List.mem_cons, List.mem_append, List.mem_singleton,
      List.not_mem_nil, or_false] at h
    rcases h with h | h | h
    · subst h; simp [isaChars]
    · exact ih ch h
    · subst h; simp [isaChars]
  | right => intro ch h; simp only [flatten, List.mem_singleton] at h; subst h; simp [isaChars]
  | left => intro ch h; simp only [flatten, List.mem_singleton] at h; subst h; simp [isaChars]
  | inc => intro ch h; simp only [flatten, List.mem_singleton] at h; subst h; simp [isaChars]
  | dec => intro ch h; simp only [flatten, List.mem_singleton] at h; subst h; simp [isaChars]
  | write => intro ch h; simp only [flatten, List.mem_singleton] at h; subst h; simp [isaChars]
  | read => intro ch h; simp only [flatten, List.mem_singleton] at h; subst h; simp [isaChars]

theorem filter_flatten (a : Ast) :
    (flatten a).filter (fun c => c ∈ isaChars) = flatten a := by
  rw [List.filter_eq_self]
  intro ch h
  simpa using flatten_isa a ch h

/-- `generate` produces exactly the layout of `genAst`. -/
theorem generate_eq : generate = flatten genAst := by
  rw [generate_eq_chain]
  have h := (emits_generate BF.new).1
  rw [BF.output, h]
  show (([] : List Char) ++ flatten genAst).filter (fun c => c ∈ isaChars) = _
  rw [List.nil_append, filter_flatten]

/-! ## Big-step lemmas for the emitted fragments

All lemmas are for cell size 256 (the default the repository always uses).
Cell values are written as casts of natural numbers below 256. -/

theorem bs_rights (cs : Nat) (inp : List Int) :
    ∀ (n : Nat) (t : Nat → Int) (p i : Nat) (o : List Int),
      BigStep cs inp (repAst .right n) ⟨t, p, i, o⟩ ⟨t, p + n, i, o⟩ := by
  intro n
  induction n with
  | zero => intro t p i o; exact .skip _
  | succ n ih =>
    intro t p i o
    have harr : p + (n + 1) = (p + 1) + n := by omega
    rw [harr]
    exact .seq (.right _) (ih t (p + 1) i o)

theorem bs_lefts (cs : Nat) (inp : List Int) :
    ∀ (n : Nat) (t : Nat → Int) (p i : Nat) (o : List Int), n ≤ p →
      BigStep cs inp (repAst .left n) ⟨t, p, i, o⟩ ⟨t, p - n, i, o⟩ := by
  intro n
  induction n with
  | zero => intro t p i o _; exact .skip _
  | succ n ih =>
    intro t p i o hn
    have harr : p - (n + 1) = (p - 1) - n := by omega
    rw [harr]
    refine .seq (.left _ (by simp; omega)) ?_
    exact ih t (p - 1) i o (by omega)

theorem bs_moves (cs : Nat) (inp : List Int) (p c : Nat) (t : Nat → Int)
    (i : Nat) (o : List Int) :
    BigStep cs inp (aMoves p c) ⟨t, p, i, o⟩ ⟨t, c, i, o⟩ := by
  unfold aMoves
  split_ifs with h1 h2
  · have h := bs_rights cs inp (c - p) t p i o
    rwa [show p + (c - p) = c from by omega] at h
  · have h := bs_lefts cs inp (p - c) t p i o (by omega)
    rwa [show p - (p - c) = c from by omega] at h
  · have hpc : p = c := by omega
    subst hpc
    exact .skip _

theorem bs_incs (inp : List Int) :
    ∀ (n : Nat) (t : Nat → Int) (p i : Nat) (o : List Int), 0 < n →
      BigStep 256 inp (repAst .inc n) ⟨t, p, i, o⟩
        ⟨Function.update t p ((t p + (n : Int)) % 256), p, i, o⟩ := by
  intro n
  induction n with
  | zero => intro t p i o h; omega
  | succ n ih =>
    intro t p i o _
    by_cases hn : n = 0
    · subst hn
      refine BigStep.seq (.inc _) ?_
      have : ((t p + ((1 : Nat) : Int)) % 256) = (t p + 1) % 256 := by norm_num
      rw [this]
      exact .skip _
    · refine BigStep.seq (.inc _) ?_
      have h := ih (Function.update t p ((t p + 1) % 256)) p i o (by omega)
      rw [Function.update_idem, Function.update_same] at h
      have harr : ((t p + 1) % 256 + (n : Int)) % 256 = (t p + ((n + 1 : Nat) : Int)) % 256 := by
        push_cast
        omega
      rwa [harr] at h

theorem bs_decs (inp : List Int) :
    ∀ (n : Nat) (t : Nat → Int) (p i : Nat) (o : List Int), 0 < n →
      BigStep 256 inp (repAst .dec n) ⟨t, p, i, o⟩
        ⟨Function.update t p ((t p - (n : Int)) % 256), p, i, o⟩ := by
  intro n
  induction n with
  | zero => intro t p i o h; omega
  | succ n ih =>
    intro t p i o _
    by_cases hn : n = 0
    · subst hn
      refine BigStep.seq (.dec _) ?_
      have : ((t p - ((1 : Nat) : Int)) % 256) = (t p - 1) % 256 := by norm_num
      rw [this]
      exact .skip _
    · refine BigStep.seq (.dec _) ?_
      have h := ih (Function.update t p ((t p - 1) % 256)) p i o (by omega)
      rw [Function.update_idem, Function.update_same] at h
      have harr : ((t p - 1) % 256 - (n : Int)) % 256 = (t p - ((n + 1 : Nat) : Int)) % 256 := by
        push_cast
        omega
      rwa [harr] at h

/-- The clear loop `[-]` zeroes the current cell (value below 256). -/
theorem bs_clear_loop (inp : List Int) :
    ∀ (k : Nat), k < 256 → ∀ (t : Nat → Int) (p i : Nat) (o : List Int),
      t p = (k : Int) →
      BigStep 256 inp (.loop .dec) ⟨t, p, i, o⟩
        ⟨Function.update t p 0, p, i, o⟩ := by
  intro k
  induction k with
  | zero =>
    intro _ t p i o ht
    have ht' : t p = 0 := by exact_mod_cast ht
    have hupd : Function.update t p 0 = t := by
      rw [← ht']
      exact Function.update_eq_self p t
    rw [hupd]
    exact .loopZero _ (show t p = 0 from ht')
  | succ k ih =>
    intro hk t p i o ht
    refine BigStep.loopSucc (show t p ≠ 0 by rw [ht]; exact_mod_cast (by omega : ((k + 1 : Nat) : Int) ≠ 0)) (.dec _) ?_
    have harr : (t p - 1) % 256 = (k : Int) := by
      rw [ht]; push_cast; omega
    have h := ih (by omega) (Function.update t p ((t p - 1) % 256)) p i o
      (by rw [Function.update_same, harr])
    rwa [Function.update_idem] at h

theorem bs_incA (inp : List Int) (p cell n : Nat) (hn : 0 < n)
    (t : Nat → Int) (i : Nat) (o : List Int) :
    BigStep 256 inp (incA p cell n) ⟨t, p, i, o⟩
      ⟨Function.update t cell ((t cell + (n : Int)) % 256), cell, i, o⟩ :=
  .seq (bs_moves 256 inp p cell t i o) (bs_incs inp n t cell i o hn)

theorem bs_decA (inp : List Int) (p cell n : Nat) (hn : 0 < n)
    (t : Nat → Int) (i : Nat) (o : List Int) :
    BigStep 256 inp (decA p cell n) ⟨t, p, i, o⟩
      ⟨Function.update t cell ((t cell - (n : Int)) % 256), cell, i, o⟩ :=
  .seq (bs_moves 256 inp p cell t i o) (bs_decs inp n t cell i o hn)

theorem bs_clearA (inp : List Int) (p cell : Nat) (k : Nat) (hk : k < 256)
    (t : Nat → Int) (i : Nat) (o : List Int) (ht : t cell = (k : Int)) :
    BigStep 256 inp (clearA p cell) ⟨t, p, i, o⟩
      ⟨Function.update t cell 0, cell, i, o⟩ :=
  .seq (bs_moves 256 inp p cell t i o) (bs_clear_loop inp k hk t cell i o ht)

theorem bs_readA_more (inp : List Int) (p cell : Nat) (t : Nat → Int)
    (i : Nat) (o : List Int) (h : i < inp.length) :
    BigStep 256 inp (readA p cell) ⟨t, p, i, o⟩
      ⟨Function.update t cell (inp.get ⟨i, h⟩), cell, i + 1, o⟩ :=
  .seq (bs_moves 256 inp p cell t i o) (.readMore _ h)

theorem bs_readA_eof (inp : List Int) (p cell : Nat) (t : Nat → Int)
    (i : Nat) (o : List Int) (h : ¬ i < inp.length) :
    BigStep 256 inp (readA p cell) ⟨t, p, i, o⟩
      ⟨Function.update t cell 0, cell, i, o⟩ :=
  .seq (bs_moves 256 inp p cell t i o) (.readEof _ h)

theorem bs_writeA (inp : List Int) (p cell : Nat) (t : Nat → Int)
    (i : Nat) (o : List Int) :
    BigStep 256 inp (writeA p cell) ⟨t, p, i, o⟩
      ⟨t, cell, i, o ++ [t cell]⟩ :=
  .seq (bs_moves 256 inp p cell t i o) (.write _)

/-- The transfer loop of `move`: `[-` goto dst `+` goto src `]`. -/
theorem bs_move_loop (inp : List Int) (src dst : Nat) (hne : src ≠ dst) :
    ∀ (j w : Nat), j + w < 256 → ∀ (t : Nat → Int) (i : Nat) (o : List Int),
      t src = (j : Int) → t dst = (w : Int) →
      BigStep 256 inp
        (.loop (.seq .dec (.seq (aMoves src dst) (.seq .inc (aMoves dst src)))))
        ⟨t, src, i, o⟩
        ⟨Function.update (Function.update t dst ((w + j : Nat) : Int)) src 0,
          src, i, o⟩ := by
  intro j
  induction j with
  | zero =>
    intro w hw t i o hts htd
    have h1 : Function.update t dst ((w + 0 : Nat) : Int) = t := by
      rw [Nat.add_zero, ← htd]
      exact Function.update_eq_self _ _
    rw [h1]
    have h2 : Function.update t src 0 = t := by
      have hts' : t src = 0 := by exact_mod_cast hts
      rw [← hts']
      exact Function.update_eq_self _ _
    rw [h2]
    exact .loopZero _ (show t src = 0 by exact_mod_cast hts)
  | succ j ih =>
    intro w hw t i o hts htd
    have e1 : (t src - 1) % 256 = (j : Int) := by rw [hts]; push_cast; omega
    have e2 : Function.update t src ((j : Int)) dst = (w : Int) := by
      rw [Function.update_noteq (Ne.symm hne), htd]
    have hbody : BigStep 256 inp
        (.seq .dec (.seq (aMoves src dst) (.seq .inc (aMoves dst src))))
        ⟨t, src, i, o⟩
        ⟨Function.update (Function.update t src (j : Int)) dst
          ((w + 1 : Nat) : Int), src, i, o⟩ := by
      refine .seq (.dec _) ?_
      show BigStep 256 inp _
        ⟨Function.update t src ((t src - 1) % 256), src, i, o⟩ _
      rw [e1]
      refine .seq (bs_moves 256 inp src dst _ i o) ?_
      refine .seq (.inc _) ?_
      show BigStep 256 inp _
        ⟨Function.update (Function.update t src (j : Int)) dst
          ((Function.update t src (j : Int) dst + 1) % 256), dst, i, o⟩ _
      rw [e2, show ((w : Int) + 1) % 256 = ((w + 1 : Nat) : Int) by push_cast; omega]
      exact bs_moves 256 inp dst src _ i o
    have h := ih (w + 1) (by omega)
      (Function.update (Function.update t src (j : Int)) dst ((w + 1 : Nat) : Int))
      i o
      (by rw [Function.update_noteq hne, Function.update_same])
      (by rw [Function.update_same])
    have e4 :
        Function.update (Function.update
          (Function.update (Function.update t src (j : Int)) dst ((w + 1 : Nat) : Int))
          dst ((w + 1 + j : Nat) : Int)) src 0 =
        Function.update (Function.update t dst ((w + (j + 1) : Nat) : Int)) src 0 := by
      rw [Function.update_idem,
        Function.update_comm hne,
        Function.update_idem,
        show w + 1 + j = w + (j + 1) from by omega]
    rw [e4] at h
    exact BigStep.loopSucc
      (show t src ≠ 0 by
        rw [hts]; exact_mod_cast (by omega : ((j + 1 : Nat) : Int) ≠ 0))
      hbody h

theorem bs_moveA (inp : List Int) (p src dst : Nat) (hne : src ≠ dst)
    (j w : Nat) (hjw : j + w < 256) (t : Nat → Int) (i : Nat) (o : List Int)
    (hts : t src = (j : Int)) (htd : t dst = (w : Int)) :
    BigStep 256 inp (moveA p src dst) ⟨t, p, i, o⟩
      ⟨Function.update (Function.update t dst ((w + j : Nat) : Int)) src 0,
        src, i, o⟩ :=
  .seq (bs_moves 256 inp p src t i o)
    (bs_move_loop inp src dst hne j w hjw t i o hts htd)

/-- The double-target transfer loop used by `copy` and by the inner loop of
`multiply`: consume `s`, adding its value to both `c1` and `c2`. -/
theorem bs_transfer2_loop (inp : List Int) (s c1 c2 : Nat)
    (h1 : s ≠ c1) (h2 : s ≠ c2) (h3 : c1 ≠ c2) :
    ∀ (j w1 w2 : Nat), j + w1 < 256 → j + w2 < 256 →
      ∀ (t : Nat → Int) (i : Nat) (o : List Int),
      t s = (j : Int) → t c1 = (w1 : Int) → t c2 = (w2 : Int) →
      BigStep 256 inp
        (.loop (.seq .dec (.seq (aMoves s c1) (.seq .inc
          (.seq (aMoves c1 c2) (.seq .inc (aMoves c2 s)))))))
        ⟨t, s, i, o⟩
        ⟨Function.update (Function.update
            (Function.update t c1 ((w1 + j : Nat) : Int)) c2
            ((w2 + j : Nat) : Int)) s 0, s, i, o⟩ := by
  intro j
  induction j with
  | zero =>
    intro w1 w2 _ _ t i o hts h1v h2v
    have e : Function.update (Function.update
        (Function.update t c1 ((w1 + 0 : Nat) : Int)) c2
        ((w2 + 0 : Nat) : Int)) s 0 = t := by
      funext q
      simp only [Function.update_apply]
      split_ifs with q1 q2 q3
      · subst q1; exact_mod_cast hts.symm
      · subst q2; rw [h2v]; norm_num
      · subst q3; rw [h1v]; norm_num
      · rfl
    rw [e]
    exact .loopZero _ (show t s = 0 by exact_mod_cast hts)
  | succ j ih =>
    intro w1 w2 hw1 hw2 t i o hts h1v h2v
    have e1 : (t s - 1) % 256 = (j : Int) := by rw [hts]; push_cast; omega
    have hbody : BigStep 256 inp
        (.seq .dec (.seq (aMoves s c1) (.seq .inc
          (.seq (aMoves c1 c2) (.seq .inc (aMoves c2 s))))))
        ⟨t, s, i, o⟩
        ⟨Function.update (Function.update (Function.update t s (j : Int)) c1
          ((w1 + 1 : Nat) : Int)) c2 ((w2 + 1 : Nat) : Int), s, i, o⟩ := by
      refine .seq (.dec _) ?_
      show BigStep 256 inp _ ⟨Function.update t s ((t s - 1) % 256), s, i, o⟩ _
      rw [e1]
      refine .seq (bs_moves 256 inp s c1 _ i o) ?_
      refine .seq (.inc _) ?_
      have v1 : Function.update t s (j : Int) c1 = (w1 : Int) := by
        rw [Function.update_noteq (Ne.symm h1), h1v]
      show BigStep 256 inp _
        ⟨Function.update (Function.update t s (j : Int)) c1
          ((Function.update t s (j : Int) c1 + 1) % 256), c1, i, o⟩ _
      rw [v1, show ((w1 : Int) + 1) % 256 = ((w1 + 1 : Nat) : Int) by push_cast; omega]
      refine .seq (bs_moves 256 inp c1 c2 _ i o) ?_
      refine .seq (.inc _) ?_
      have v2 : Function.update (Function.update t s (j : Int)) c1
          ((w1 + 1 : Nat) : Int) c2 = (w2 : Int) := by
        rw [Function.update_noteq (Ne.symm h3),
          Function.update_noteq (Ne.symm h2), h2v]
      show BigStep 256 inp _
        ⟨Function.update (Function.update (Function.update t s (j : Int)) c1
          ((w1 + 1 : Nat) : Int)) c2
          ((Function.update (Function.update t s (j : Int)) c1
            ((w1 + 1 : Nat) : Int) c2 + 1) % 256), c2, i, o⟩ _
      rw [v2, show ((w2 : Int) + 1) % 256 = ((w2 + 1 : Nat) : Int) by push_cast; omega]
      exact bs_moves 256 inp c2 s _ i o
    have h := ih (w1 + 1) (w2 + 1) (by omega) (by omega)
      (Function.update (Function.update (Function.update t s (j : Int)) c1
        ((w1 + 1 : Nat) : Int)) c2 ((w2 + 1 : Nat) : Int)) i o
      (by rw [Function.update_noteq h2, Function.update_noteq h1,
        Function.update_same])
      (by rw [Function.update_noteq h3, Function.update_same])
      (by rw [Function.update_same])
    have e4 : Function.update (Function.update (Function.update
        (Function.update (Function.update (Function.update t s (j : Int)) c1
          ((w1 + 1 : Nat) : Int)) c2 ((w2 + 1 : Nat) : Int)) c1
          ((w1 + 1 + j : Nat) : Int)) c2 ((w2 + 1 + j : Nat) : Int)) s 0 =
        Function.update (Function.update
          (Function.update t c1 ((w1 + (j + 1) : Nat) : Int)) c2
          ((w2 + (j + 1) : Nat) : Int)) s 0 := by
      funext q
      simp only [Function.update_apply]
      split_ifs <;> first | rfl | omega | (push_cast; omega)
    rw [e4] at h
    exact BigStep.loopSucc
      (show t s ≠ 0 by
        rw [hts]; exact_mod_cast (by omega : ((j + 1 : Nat) : Int) ≠ 0))
      hbody h

theorem bs_mult_loop (inp : List Int) (a bc r tc : Nat)
    (hab : a ≠ bc) (har : a ≠ r) (hat : a ≠ tc)
    (hbr : bc ≠ r) (hbt : bc ≠ tc) (hrt : r ≠ tc) :
    ∀ (α : Nat), α < 256 → ∀ (m acc : Nat), α * m + acc < 256 →
      ∀ (t : Nat → Int) (i : Nat) (o : List Int),
      t a = (α : Int) → t bc = (m : Int) → t r = (acc : Int) → t tc = 0 →
      BigStep 256 inp
        (.loop (.seq .dec (.seq (aMoves a bc)
          (.seq (.loop (.seq .dec (.seq (aMoves bc r)
            (.seq .inc (.seq (aMoves r tc) (.seq .inc (aMoves tc bc)))))))
            (.seq (moveA bc tc bc) (aMoves tc a))))))
        ⟨t, a, i, o⟩
        ⟨Function.update (Function.update t r ((acc + α * m : Nat) : Int)) a 0,
          a, i, o⟩ := by
  have hba := Ne.symm hab
  have hra := Ne.symm har
  have hta := Ne.symm hat
  have hrb := Ne.symm hbr
  have htb := Ne.symm hbt
  have htr := Ne.symm hrt
  intro α
  induction α with
  | zero =>
    intro _ m acc hbound t i o hta' htb' htr' htt'
    have e : Function.update (Function.update t r ((acc + 0 * m : Nat) : Int))
        a 0 = t := by
      funext q
      simp only [Function.update_apply]
      split_ifs with q1 q2
      · subst q1; exact_mod_cast hta'.symm
      · subst q2; rw [htr']; norm_num
      · rfl
    rw [e]
    exact .loopZero _ (show t a = 0 by exact_mod_cast hta')
  | succ α ih =>
    intro hα m acc hbound t i o hva hvb hvr hvt
    have hma : m + acc < 256 := by nlinarith
    have hm : m < 256 := by nlinarith
    have e1 : (t a - 1) % 256 = (α : Int) := by rw [hva]; push_cast; omega
    -- the inner transfer2 run
    have hinner := bs_transfer2_loop inp bc r tc hbr hbt hrt m acc 0
      (by omega) (by omega)
      (Function.update t a (α : Int)) i o
      (by rw [Function.update_noteq hba, hvb])
      (by rw [Function.update_noteq hra, hvr])
      (by rw [Function.update_noteq hta, hvt]; norm_num)
    -- the restore move tmp -> bc
    have hmove := bs_moveA inp bc tc bc htb (0 + m) 0 (by omega)
      (Function.update (Function.update (Function.update
        (Function.update t a (α : Int)) r ((acc + m : Nat) : Int)) tc
        ((0 + m : Nat) : Int)) bc 0) i o
      (by rw [Function.update_noteq htb, Function.update_same])
      (by rw [Function.update_same]; norm_num)
    have hbody : BigStep 256 inp
        (.seq .dec (.seq (aMoves a bc)
          (.seq (.loop (.seq .dec (.seq (aMoves bc r)
            (.seq .inc (.seq (aMoves r tc) (.seq .inc (aMoves tc bc)))))))
            (.seq (moveA bc tc bc) (aMoves tc a)))))
        ⟨t, a, i, o⟩
        ⟨Function.update (Function.update (Function.update (Function.update
          (Function.update (Function.update t a (α : Int)) r
            ((acc + m : Nat) : Int)) tc ((0 + m : Nat) : Int)) bc 0) bc
          ((0 + (0 + m) : Nat) : Int)) tc 0, a, i, o⟩ := by
      refine .seq (.dec _) ?_
      show BigStep 256 inp _ ⟨Function.update t a ((t a - 1) % 256), a, i, o⟩ _
      rw [e1]
      refine .seq (bs_moves 256 inp a bc _ i o) ?_
      refine .seq hinner ?_
      refine .seq hmove ?_
      exact bs_moves 256 inp tc a _ i o
    have h := ih (by omega) m (acc + m) (by nlinarith)
      (Function.update (Function.update (Function.update (Function.update
        (Function.update (Function.update t a (α : Int)) r
          ((acc + m : Nat) : Int)) tc ((0 + m : Nat) : Int)) bc 0) bc
        ((0 + (0 + m) : Nat) : Int)) tc 0) i o
      (by rw [Function.update_noteq hat, Function.update_noteq hab,
        Function.update_noteq hab, Function.update_noteq hat,
        Function.update_noteq har, Function.update_same])
      (by rw [Function.update_noteq hbt, Function.update_same]; push_cast; ring)
      (by rw [Function.update_noteq hrt, Function.update_noteq hrb,
        Function.update_noteq hrb, Function.update_noteq hrt,
        Function.update_same])
      (by rw [Function.update_same])
    have e4 : Function.update (Function.update
        (Function.update (Function.update (Function.update (Function.update
          (Function.update (Function.update t a (α : Int)) r
            ((acc + m : Nat) : Int)) tc ((0 + m : Nat) : Int)) bc 0) bc
          ((0 + (0 + m) : Nat) : Int)) tc 0) r
          ((acc + m + α * m : Nat) : Int)) a 0 =
        Function.update (Function.update t r
          ((acc + (α + 1) * m : Nat) : Int)) a 0 := by
      funext q
      simp only [Function.update_apply]
      split_ifs
      all_goals try rfl
      all_goals try omega
      all_goals try (push_cast; ring)
      all_goals subst_vars
      all_goals try exact hvt.symm
      all_goals try exact hvb.symm
    rw [e4] at h
    exact BigStep.loopSucc
      (show t a ≠ 0 by
        rw [hva]; exact_mod_cast (by omega : ((α + 1 : Nat) : Int) ≠ 0))
      hbody h

theorem bs_multiplyA (inp : List Int) (p a bc r tc : Nat)
    (hab : a ≠ bc) (har : a ≠ r) (hat : a ≠ tc)
    (hbr : bc ≠ r) (hbt : bc ≠ tc) (hrt : r ≠ tc)
    (α m : Nat) (hα : α < 256) (hbound : α * m < 256)
    (t : Nat → Int) (i : Nat) (o : List Int)
    (hva : t a = (α : Int)) (hvb : t bc = (m : Int))
    (hvr : t r = 0) (hvt : t tc = 0) :
    BigStep 256 inp (multiplyA p a bc r tc) ⟨t, p, i, o⟩
      ⟨Function.update (Function.update t r ((α * m : Nat) : Int)) a 0,
        a, i, o⟩ := by
  have h := bs_mult_loop inp a bc r tc hab har hat hbr hbt hrt α hα m 0
    (by omega) t i o hva hvb (by rw [hvr]; norm_num) hvt
  rw [show (0 + α * m : Nat) = α * m from by omega] at h
  exact .seq (bs_moves 256 inp p a t i o) h

/-- The adjacent transfer loop `[-<+>]`: consume the cell under the
pointer, adding it to the cell on the left. -/
theorem bs_adj_move (inp : List Int) (d : Nat) :
    ∀ (j w : Nat), j + w < 256 → ∀ (t : Nat → Int) (i : Nat) (o : List Int),
      t (d + 1) = (j : Int) → t d = (w : Int) →
      BigStep 256 inp (.loop (.seq .dec (.seq .left (.seq .inc .right))))
        ⟨t, d + 1, i, o⟩
        ⟨Function.update (Function.update t d ((w + j : Nat) : Int)) (d + 1) 0,
          d + 1, i, o⟩ := by
  intro j
  induction j with
  | zero =>
    intro w _ t i o hts htd
    have e : Function.update (Function.update t d ((w + 0 : Nat) : Int))
        (d + 1) 0 = t := by
      funext q
      simp only [Function.update_apply]
      split_ifs with q1 q2
      · subst q1; exact_mod_cast hts.symm
      · subst q2; rw [htd]; norm_num
      · rfl
    rw [e]
    exact .loopZero _ (show t (d + 1) = 0 by exact_mod_cast hts)
  | succ j ih =>
    intro w hw t i o hts htd
    have hne : d + 1 ≠ d := by omega
    have e1 : (t (d + 1) - 1) % 256 = (j : Int) := by rw [hts]; push_cast; omega
    have hbody : BigStep 256 inp (.seq .dec (.seq .left (.seq .inc .right)))
        ⟨t, d + 1, i, o⟩
        ⟨Function.update (Function.update t (d + 1) (j : Int)) d
          ((w + 1 : Nat) : Int), d + 1, i, o⟩ := by
      refine .seq (.dec _) ?_
      show BigStep 256 inp _
        ⟨Function.update t (d + 1) ((t (d + 1) - 1) % 256), d + 1, i, o⟩ _
      rw [e1]
      refine .seq (.left _ (by simp)) ?_
      refine .seq (.inc _) ?_
      show BigStep 256 inp _
        ⟨Function.update (Function.update t (d + 1) (j : Int)) d
          ((Function.update t (d + 1) (j : Int) d + 1) % 256),
          d + 1 - 1, i, o⟩ _
      rw [Function.update_noteq (by omega : d ≠ d + 1), htd,
        show ((w : Int) + 1) % 256 = ((w + 1 : Nat) : Int) by push_cast; omega,
        show d + 1 - 1 = d from by omega]
      exact (BigStep.right
        ⟨Function.update (Function.update t (d + 1) (j : Int)) d
          ((w + 1 : Nat) : Int), d, i, o⟩ :
        BigStep 256 inp Ast.right _ _)
    have h := ih (w + 1) (by omega)
      (Function.update (Function.update t (d + 1) (j : Int)) d
        ((w + 1 : Nat) : Int)) i o
      (by rw [Function.update_noteq hne, Function.update_same])
      (by rw [Function.update_same])
    have e4 : Function.update (Function.update
        (Function.update (Function.update t (d + 1) (j : Int)) d
          ((w + 1 : Nat) : Int)) d ((w + 1 + j : Nat) : Int)) (d + 1) 0 =
        Function.update (Function.update t d ((w + (j + 1) : Nat) : Int))
          (d + 1) 0 := by
      funext q
      simp only [Function.update_apply]
      split_ifs
      all_goals try rfl
      all_goals try omega
      all_goals (push_cast; omega)
    rw [e4] at h
    exact BigStep.loopSucc
      (show t (d + 1) ≠ 0 by
        rw [hts]; exact_mod_cast (by omega : ((j + 1 : Nat) : Int) ≠ 0))
      hbody h

/-- The esolangs divmod loop: starting at `base+1` with dividend `v`,
countdown `d₂` (with `d₂ + rr = 10`), remainder tally `rr` and quotient
`q`, it terminates with remainder `(rr+v) % 10`, quotient
`q + (rr+v) / 10`, and `10 - (rr+v) % 10` left in the countdown cell. -/
theorem bs_dm_loop (inp : List Int) (base : Nat) :
    ∀ (v : Nat), v < 256 → ∀ (d₂ rr q : Nat), 1 ≤ d₂ → d₂ + rr = 10 →
      q + (rr + v) / 10 < 256 →
      ∀ (t : Nat → Int) (i : Nat) (o : List Int),
      t (base + 1) = (v : Int) → t (base + 2) = (d₂ : Int) →
      t (base + 3) = (rr : Int) → t (base + 4) = (q : Int) →
      t (base + 5) = 0 → t (base + 6) = 0 →
      BigStep 256 inp dmLoopAst ⟨t, base + 1, i, o⟩
        ⟨Function.update (Function.update (Function.update (Function.update t
            (base + 1) 0) (base + 2) ((10 - (rr + v) % 10 : Nat) : Int))
            (base + 3) (((rr + v) % 10 : Nat) : Int))
            (base + 4) ((q + (rr + v) / 10 : Nat) : Int),
          base + 1, i, o⟩ := by
  intro v
  induction v with
  | zero =>
    intro _ d₂ rr q hd hdr hq t i o hv1 hv2 hv3 hv4 hv5 hv6
    have e : Function.update (Function.update (Function.update
        (Function.update t (base + 1) 0) (base + 2)
        ((10 - (rr + 0) % 10 : Nat) : Int)) (base + 3)
        (((rr + 0) % 10 : Nat) : Int)) (base + 4)
        ((q + (rr + 0) / 10 : Nat) : Int) = t := by
      funext x
      simp only [Function.update_apply]
      split_ifs with x4 x3 x2 x1
      · subst x4; rw [hv4]; push_cast; omega
      · subst x3; rw [hv3]; push_cast; omega
      · subst x2; rw [hv2]; push_cast; omega
      · subst x1; rw [hv1]; norm_num
      · rfl
    rw [e]
    exact .loopZero _ (show t (base + 1) = 0 by exact_mod_cast hv1)
  | succ v ih =>
    intro hv256 d₂ rr q hd hdr hq t i o hv1 hv2 hv3 hv4 hv5 hv6
    have hguard : t (base + 1) ≠ 0 := by
      rw [hv1]; exact_mod_cast (by omega : ((v + 1 : Nat) : Int) ≠ 0)
    have e1 : (t (base + 1) - 1) % 256 = (v : Int) := by
      rw [hv1]; push_cast; omega
    by_cases hd1 : d₂ = 1
    · -- countdown exhausted: restore the divisor, bump the quotient
      subst hd1
      have hrr : rr = 9 := by omega
      subst hrr
      have hb3 : Function.update (Function.update t (base + 1) (v : Int))
          (base + 2) 0 (base + 3) = ((9 : Nat) : Int) := by
        rw [Function.update_noteq (by omega : base + 3 ≠ base + 2),
          Function.update_noteq (by omega : base + 3 ≠ base + 1), hv3]
      have hb4 : (Function.update (Function.update (Function.update (Function.update (Function.update t (base + 1) (v : Int)) (base + 2) 0) (base + 3) ((10 : Nat) : Int)) (base + 2) ((0 + 10 : Nat) : Int)) (base + 3) 0) (base + 4) = (q : Int) := by
        rw [Function.update_noteq (by omega : base + 4 ≠ base + 3),
          Function.update_noteq (by omega : base + 4 ≠ base + 2),
          Function.update_noteq (by omega : base + 4 ≠ base + 3),
          Function.update_noteq (by omega : base + 4 ≠ base + 2),
          Function.update_noteq (by omega : base + 4 ≠ base + 1), hv4]
      have hbody : BigStep 256 inp
          (.seq .dec (.seq .right (.seq .dec
            (.seq (.loop (.seq .right (.seq .inc (.seq .right .right))))
              (.seq .right
                (.seq (.loop (.seq .inc (.seq (.loop (.seq .dec (.seq .left
                    (.seq .inc .right))))
                  (.seq .right (.seq .inc (.seq .right .right))))))
                  (.seq .left (.seq .left (.seq .left (.seq .left .left))))))))))
          ⟨t, base + 1, i, o⟩
          ⟨Function.update (Function.update (Function.update (Function.update (Function.update (Function.update t (base + 1) (v : Int)) (base + 2) 0) (base + 3) ((10 : Nat) : Int)) (base + 2) ((0 + 10 : Nat) : Int)) (base + 3) 0) (base + 4) ((q + 1 : Nat) : Int), base + 1, i, o⟩ := by
        refine .seq (.dec _) ?_
        show BigStep 256 inp _
          ⟨Function.update t (base + 1) ((t (base + 1) - 1) % 256),
            base + 1, i, o⟩ _
        rw [e1]
        refine .seq (.right _) ?_
        refine .seq (.dec _) ?_
        show BigStep 256 inp _
          ⟨Function.update (Function.update t (base + 1) (v : Int)) (base + 2)
            ((Function.update t (base + 1) (v : Int) (base + 2) - 1) % 256),
            base + 2, i, o⟩ _
        rw [Function.update_noteq (by omega : base + 2 ≠ base + 1), hv2,
          show (((1 : Nat) : Int) - 1) % 256 = 0 from by norm_num]
        refine .seq (.loopZero _ (by
          show Function.update (Function.update t (base + 1) (v : Int))
            (base + 2) 0 (base + 2) = 0
          rw [Function.update_same])) ?_
        refine .seq (.right _) ?_
        have hInner2 : BigStep 256 inp
            (.loop (.seq .inc (.seq (.loop (.seq .dec (.seq .left
              (.seq .inc .right))))
              (.seq .right (.seq .inc (.seq .right .right))))))
            ⟨Function.update (Function.update t (base + 1) (v : Int))
              (base + 2) 0, base + 3, i, o⟩
            ⟨Function.update (Function.update (Function.update (Function.update (Function.update (Function.update t (base + 1) (v : Int)) (base + 2) 0) (base + 3) ((10 : Nat) : Int)) (base + 2) ((0 + 10 : Nat) : Int)) (base + 3) 0) (base + 4) ((q + 1 : Nat) : Int), base + 6, i, o⟩ := by
          refine BigStep.loopSucc (by
            show Function.update (Function.update t (base + 1) (v : Int))
              (base + 2) 0 (base + 3) ≠ 0
            rw [hb3]; norm_num) ?_ (.loopZero _ ?_)
          · -- its body
            refine .seq (.inc _) ?_
            show BigStep 256 inp _
              ⟨Function.update (Function.update (Function.update t (base + 1)
                (v : Int)) (base + 2) 0) (base + 3)
                ((Function.update (Function.update t (base + 1) (v : Int))
                  (base + 2) 0 (base + 3) + 1) % 256), base + 3, i, o⟩ _
            rw [hb3, show (((9 : Nat) : Int) + 1) % 256 = ((10 : Nat) : Int)
              from by norm_num]
            have hmv := bs_adj_move inp (base + 2) 10 0 (by omega)
              (Function.update (Function.update (Function.update t (base + 1)
                (v : Int)) (base + 2) 0) (base + 3) ((10 : Nat) : Int)) i o
              (by rw [Function.update_same])
              (by rw [Function.update_noteq (by omega : base + 2 ≠ base + 3),
                Function.update_same]; norm_num)
            refine .seq hmv ?_
            refine .seq (.right _) ?_
            refine .seq (.inc _) ?_
            show BigStep 256 inp _
              ⟨Function.update (Function.update (Function.update (Function.update (Function.update (Function.update t (base + 1) (v : Int)) (base + 2) 0) (base + 3) ((10 : Nat) : Int)) (base + 2) ((0 + 10 : Nat) : Int)) (base + 3) 0) (base + 4)
                ((Function.update (Function.update (Function.update (Function.update (Function.update t (base + 1) (v : Int)) (base + 2) 0) (base + 3) ((10 : Nat) : Int)) (base + 2) ((0 + 10 : Nat) : Int)) (base + 3) 0 (base + 4) + 1) % 256), base + 4, i, o⟩ _
            rw [hb4, show ((q : Int) + 1) % 256 = ((q + 1 : Nat) : Int)
              from by push_cast; omega]
            exact .seq (.right _) (.right _)
          · -- the guard cell `base+6` is still zero
            simp only [Function.update_apply]
            split_ifs <;> first | omega | assumption
        refine .seq hInner2 ?_
        exact .seq (.left _ (by simp))
          (.seq (.left _ (by simp)) (.seq (.left _ (by simp))
            (.seq (.left _ (by simp)) (.left _ (by simp)))))
      have h := ih (by omega) 10 0 (q + 1) (by omega) (by omega) (by omega)
        (Function.update (Function.update (Function.update (Function.update (Function.update (Function.update t (base + 1) (v : Int)) (base + 2) 0) (base + 3) ((10 : Nat) : Int)) (base + 2) ((0 + 10 : Nat) : Int)) (base + 3) 0) (base + 4) ((q + 1 : Nat) : Int)) i o
        (by simp only [Function.update_apply]; split_ifs <;>
          first | omega | assumption)
        (by simp only [Function.update_apply]; split_ifs <;>
          first | omega | assumption | (push_cast; omega))
        (by simp only [Function.update_apply]; split_ifs <;>
          first | omega | assumption)
        (by simp only [Function.update_apply]; split_ifs <;>
          first | omega | assumption | (push_cast; omega))
        (by simp only [Function.update_apply]; split_ifs <;>
          first | omega | assumption)
        (by simp only [Function.update_apply]; split_ifs <;>
          first | omega | assumption)
      have e4 : Function.update (Function.update (Function.update
          (Function.update (Function.update (Function.update (Function.update (Function.update (Function.update (Function.update t (base + 1) (v : Int)) (base + 2) 0) (base + 3) ((10 : Nat) : Int)) (base + 2) ((0 + 10 : Nat) : Int)) (base + 3) 0) (base + 4) ((q + 1 : Nat) : Int))
            (base + 1) 0) (base + 2) ((10 - (0 + v) % 10 : Nat) : Int))
            (base + 3) (((0 + v) % 10 : Nat) : Int))
            (base + 4) (((q + 1) + (0 + v) / 10 : Nat) : Int) =
          Function.update (Function.update (Function.update
            (Function.update t (base + 1) 0) (base + 2)
            ((10 - (9 + (v + 1)) % 10 : Nat) : Int)) (base + 3)
            (((9 + (v + 1)) % 10 : Nat) : Int)) (base + 4)
            ((q + (9 + (v + 1)) / 10 : Nat) : Int) := by
        funext x
        simp only [Function.update_apply]
        split_ifs
        all_goals try rfl
        all_goals try omega
        all_goals (push_cast; omega)
      rw [e4] at h
      exact BigStep.loopSucc hguard hbody h
    · -- countdown still positive: tally the remainder
      have hd2 : 2 ≤ d₂ := by omega
      have hbody : BigStep 256 inp
          (.seq .dec (.seq .right (.seq .dec
            (.seq (.loop (.seq .right (.seq .inc (.seq .right .right))))
              (.seq .right
                (.seq (.loop (.seq .inc (.seq (.loop (.seq .dec (.seq .left
                    (.seq .inc .right))))
                  (.seq .right (.seq .inc (.seq .right .right))))))
                  (.seq .left (.seq .left (.seq .left (.seq .left .left))))))))))
          ⟨t, base + 1, i, o⟩
          ⟨Function.update (Function.update (Function.update t (base + 1)
            (v : Int)) (base + 2) ((d₂ - 1 : Nat) : Int)) (base + 3)
            ((rr + 1 : Nat) : Int), base + 1, i, o⟩ := by
        refine .seq (.dec _) ?_
        show BigStep 256 inp _
          ⟨Function.update t (base + 1) ((t (base + 1) - 1) % 256),
            base + 1, i, o⟩ _
        rw [e1]
        refine .seq (.right _) ?_
        refine .seq (.dec _) ?_
        show BigStep 256 inp _
          ⟨Function.update (Function.update t (base + 1) (v : Int)) (base + 2)
            ((Function.update t (base + 1) (v : Int) (base + 2) - 1) % 256),
            base + 2, i, o⟩ _
        rw [Function.update_noteq (by omega : base + 2 ≠ base + 1), hv2,
          show ((d₂ : Int) - 1) % 256 = ((d₂ - 1 : Nat) : Int)
            from by push_cast; omega]
        have hInner1 : BigStep 256 inp
            (.loop (.seq .right (.seq .inc (.seq .right .right))))
            ⟨Function.update (Function.update t (base + 1) (v : Int))
              (base + 2) ((d₂ - 1 : Nat) : Int), base + 2, i, o⟩
            ⟨Function.update (Function.update (Function.update t (base + 1)
              (v : Int)) (base + 2) ((d₂ - 1 : Nat) : Int)) (base + 3)
              ((rr + 1 : Nat) : Int), base + 5, i, o⟩ := by
          refine BigStep.loopSucc (by
            show Function.update (Function.update t (base + 1) (v : Int))
              (base + 2) ((d₂ - 1 : Nat) : Int) (base + 2) ≠ 0
            rw [Function.update_same]
            exact_mod_cast (by omega : ((d₂ - 1 : Nat) : Int) ≠ 0)) ?_
            (.loopZero _ ?_)
          · refine .seq (.right _) ?_
            refine .seq (.inc _) ?_
            show BigStep 256 inp _
              ⟨Function.update (Function.update (Function.update t (base + 1)
                (v : Int)) (base + 2) ((d₂ - 1 : Nat) : Int)) (base + 3)
                ((Function.update (Function.update t (base + 1) (v : Int))
                  (base + 2) ((d₂ - 1 : Nat) : Int) (base + 3) + 1) % 256),
                base + 3, i, o⟩ _
            rw [Function.update_noteq (by omega : base + 3 ≠ base + 2),
              Function.update_noteq (by omega : base + 3 ≠ base + 1), hv3,
              show ((rr : Int) + 1) % 256 = ((rr + 1 : Nat) : Int)
                from by push_cast; omega]
            exact .seq (.right _) (.right _)
          · simp only [Function.update_apply]
            split_ifs <;> first | omega | assumption
        refine .seq hInner1 ?_
        refine .seq (.right _) ?_
        refine .seq (.loopZero _ ?_) ?_
        · simp only [Function.update_apply]
          split_ifs <;> first | omega | assumption
        · exact .seq (.left _ (by simp))
            (.seq (.left _ (by simp)) (.seq (.left _ (by simp))
              (.seq (.left _ (by simp)) (.left _ (by simp)))))
      have h := ih (by omega) (d₂ - 1) (rr + 1) q (by omega) (by omega)
        (by omega)
        (Function.update (Function.update (Function.update t (base + 1)
          (v : Int)) (base + 2) ((d₂ - 1 : Nat) : Int)) (base + 3)
          ((rr + 1 : Nat) : Int)) i o
        (by simp only [Function.update_apply]; split_ifs <;>
          first | omega | assumption)
        (by simp only [Function.update_apply]; split_ifs <;>
          first | omega | assumption)
        (by simp only [Function.update_apply]; split_ifs <;>
          first | omega | assumption)
        (by simp only [Function.update_apply]; split_ifs <;>
          first | omega | assumption)
        (by simp only [Function.update_apply]; split_ifs <;>
          first | omega | assumption)
        (by simp only [Function.update_apply]; split_ifs <;>
          first | omega | assumption)
      have e4 : Function.update (Function.update (Function.update
          (Function.update (Function.update (Function.update
            (Function.update t (base + 1) (v : Int)) (base + 2)
            ((d₂ - 1 : Nat) : Int)) (base + 3) ((rr + 1 : Nat) : Int))
            (base + 1) 0) (base + 2) ((10 - (rr + 1 + v) % 10 : Nat) : Int))
            (base + 3) (((rr + 1 + v) % 10 : Nat) : Int))
            (base + 4) ((q + (rr + 1 + v) / 10 : Nat) : Int) =
          Function.update (Function.update (Function.update
            (Function.update t (base + 1) 0) (base + 2)
            ((10 - (rr + (v + 1)) % 10 : Nat) : Int)) (base + 3)
            (((rr + (v + 1)) % 10 : Nat) : Int)) (base + 4)
            ((q + (rr + (v + 1)) / 10 : Nat) : Int) := by
        funext x
        simp only [Function.update_apply]
        split_ifs
        all_goals try rfl
        all_goals try omega
        all_goals (push_cast; omega)
      rw [e4] at h
      exact BigStep.loopSucc hguard hbody h

/-- `divmod_10`: with `n` in `base+1` and `base+2 .. base+6` zero, it leaves
`n % 10` in `base+3` and `n / 10` in `base+4`, zeroes `base+1` and `base+2`,
and ends with the cursor at `base+2`. -/
theorem bs_divmodA (inp : List Int) (p base : Nat) (n : Nat) (hn : n < 256)
    (t : Nat → Int) (i : Nat) (o : List Int)
    (h1 : t (base + 1) = (n : Int)) (h2 : t (base + 2) = 0)
    (h3 : t (base + 3) = 0) (h4 : t (base + 4) = 0)
    (h5 : t (base + 5) = 0) (h6 : t (base + 6) = 0) :
    BigStep 256 inp (divmodA p base) ⟨t, p, i, o⟩
      ⟨Function.update (Function.update (Function.update (Function.update t
          (base + 1) 0) (base + 3) ((n % 10 : Nat) : Int))
          (base + 4) ((n / 10 : Nat) : Int)) (base + 2) 0,
        base + 2, i, o⟩ := by
  have hstep1 : BigStep 256 inp (incA p (base + 2) 10) ⟨t, p, i, o⟩
      ⟨Function.update t (base + 2) ((10 : Nat) : Int), base + 2, i, o⟩ := by
    have h := bs_incA inp p (base + 2) 10 (by omega) t i o
    rw [h2, show ((0 : Int) + ((10 : Nat) : Int)) % 256 = ((10 : Nat) : Int)
      from by norm_num] at h
    exact h
  have hT1 : BigStep 256 inp dmLoopAst
      ⟨Function.update t (base + 2) ((10 : Nat) : Int), base + 1, i, o⟩
      ⟨Function.update (Function.update (Function.update (Function.update
          (Function.update t (base + 2) ((10 : Nat) : Int))
          (base + 1) 0) (base + 2) ((10 - (0 + n) % 10 : Nat) : Int))
          (base + 3) (((0 + n) % 10 : Nat) : Int))
          (base + 4) ((0 + (0 + n) / 10 : Nat) : Int),
        base + 1, i, o⟩ := by
    refine bs_dm_loop inp base n hn 10 0 0 (by omega) (by omega) (by omega)
      _ i o ?_ ?_ ?_ ?_ ?_ ?_
    · rw [Function.update_noteq (by omega : base + 1 ≠ base + 2)]; exact h1
    · rw [Function.update_same]
    · rw [Function.update_noteq (by omega : base + 3 ≠ base + 2), h3]; norm_num
    · rw [Function.update_noteq (by omega : base + 4 ≠ base + 2), h4]; norm_num
    · rw [Function.update_noteq (by omega : base + 5 ≠ base + 2)]; exact h5
    · rw [Function.update_noteq (by omega : base + 6 ≠ base + 2)]; exact h6
  have hD2 : (Function.update (Function.update (Function.update
      (Function.update (Function.update t (base + 2) ((10 : Nat) : Int))
      (base + 1) 0) (base + 2) ((10 - (0 + n) % 10 : Nat) : Int))
      (base + 3) (((0 + n) % 10 : Nat) : Int))
      (base + 4) ((0 + (0 + n) / 10 : Nat) : Int)) (base + 2)
      = ((10 - (0 + n) % 10 : Nat) : Int) := by
    rw [Function.update_noteq (by omega : base + 2 ≠ base + 4),
      Function.update_noteq (by omega : base + 2 ≠ base + 3),
      Function.update_same]
  have hclear := bs_clearA inp (base + 1) (base + 2) (10 - (0 + n) % 10)
    (by omega) _ i o hD2
  have e : Function.update (Function.update (Function.update (Function.update
      (Function.update (Function.update t (base + 2) ((10 : Nat) : Int))
      (base + 1) 0) (base + 2) ((10 - (0 + n) % 10 : Nat) : Int))
      (base + 3) (((0 + n) % 10 : Nat) : Int))
      (base + 4) ((0 + (0 + n) / 10 : Nat) : Int)) (base + 2) 0
      = Function.update (Function.update (Function.update (Function.update t
          (base + 1) 0) (base + 3) ((n % 10 : Nat) : Int))
          (base + 4) ((n / 10 : Nat) : Int)) (base + 2) 0 := by
    funext x
    simp only [Function.update_apply]
    split_ifs
    all_goals try rfl
    all_goals omega
  refine .seq hstep1 ?_
  refine .seq (bs_moves 256 inp (base + 2) base _ i o) ?_
  refine .seq (.right _) ?_
  refine .seq hT1 ?_
  exact e ▸ hclear

/-- The decimal ASCII rendering of a byte, as `print_number` emits it:
three digits for values ≥ 100, two for 10–99, one otherwise. -/
def decAscii (v : Nat) : List Int :=
  if 100 ≤ v then
    [((48 + v / 100 : Nat) : Int), ((48 + v / 10 % 10 : Nat) : Int),
      ((48 + v % 10 : Nat) : Int)]
  else if 10 ≤ v then
    [((48 + v / 10 % 10 : Nat) : Int), ((48 + v % 10 : Nat) : Int)]
  else [((48 + v % 10 : Nat) : Int)]

/-- `digitA`: prints the digit stored in `cell` (as `48 + d`) and clears it. -/
theorem bs_digit (inp : List Int) (c cell d : Nat) (hd : d < 208)
    (t : Nat → Int) (i : Nat) (o : List Int) (ht : t cell = (d : Int)) :
    BigStep 256 inp (digitA c cell) ⟨t, c, i, o⟩
      ⟨Function.update t cell 0, cell, i, o ++ [((48 + d : Nat) : Int)]⟩ := by
  have h1 := bs_incA inp c cell 48 (by omega) t i o
  rw [ht, show ((d : Int) + ((48 : Nat) : Int)) % 256 = ((48 + d : Nat) : Int)
    from by push_cast; omega] at h1
  refine .seq h1 ?_
  have h2 := bs_writeA inp cell cell
    (Function.update t cell ((48 + d : Nat) : Int)) i o
  rw [Function.update_same] at h2
  refine .seq h2 ?_
  have h3 := bs_clearA inp cell cell (48 + d) (by omega)
    (Function.update t cell ((48 + d : Nat) : Int)) i
    (o ++ [((48 + d : Nat) : Int)]) (by rw [Function.update_same])
  rwa [Function.update_idem] at h3

/-- Branch 1 of `print_number` prints all three digits and clears the
flags and the digit cells. -/
theorem bs_printB1 (inp : List Int) (ws : Nat) (dh dt du : Nat)
    (hdh : dh < 208) (hdt : dt < 208) (hdu : du < 208)
    (t : Nat → Int) (i : Nat) (o : List Int)
    (h12 : t (ws + 12) = 1) (h13 : t (ws + 13) = 1)
    (h10 : t (ws + 10) = (dh : Int)) (h9 : t (ws + 9) = (dt : Int))
    (h3 : t (ws + 3) = (du : Int)) :
    BigStep 256 inp (printB1 ws) ⟨t, ws + 10, i, o⟩
      ⟨Function.update (Function.update (Function.update (Function.update
          (Function.update t (ws + 12) 0) (ws + 13) 0) (ws + 10) 0)
          (ws + 9) 0) (ws + 3) 0,
        ws + 3, i,
        o ++ [((48 + dh : Nat) : Int), ((48 + dt : Nat) : Int),
          ((48 + du : Nat) : Int)]⟩ := by
  have h1 := bs_decA inp (ws + 10) (ws + 12) 1 (by omega) t i o
  rw [h12, show ((1 : Int) - ((1 : Nat) : Int)) % 256 = 0 from by norm_num]
    at h1
  refine .seq h1 ?_
  have h2 := bs_decA inp (ws + 12) (ws + 13) 1 (by omega)
    (Function.update t (ws + 12) 0) i o
  rw [show Function.update t (ws + 12) 0 (ws + 13) = 1 from by
      rw [Function.update_noteq (by omega : ws + 13 ≠ ws + 12)]; exact h13,
    show ((1 : Int) - ((1 : Nat) : Int)) % 256 = 0 from by norm_num] at h2
  refine .seq h2 ?_
  rw [show o ++ [((48 + dh : Nat) : Int), ((48 + dt : Nat) : Int),
      ((48 + du : Nat) : Int)]
    = ((o ++ [((48 + dh : Nat) : Int)]) ++ [((48 + dt : Nat) : Int)])
        ++ [((48 + du : Nat) : Int)] from by simp]
  have h3a := bs_digit inp (ws + 13) (ws + 10) dh hdh
    (Function.update (Function.update t (ws + 12) 0) (ws + 13) 0) i o
    (by rw [Function.update_noteq (by omega : ws + 10 ≠ ws + 13),
      Function.update_noteq (by omega : ws + 10 ≠ ws + 12)]; exact h10)
  refine .seq h3a ?_
  have h4 := bs_digit inp (ws + 10) (ws + 9) dt hdt
    (Function.update (Function.update (Function.update t (ws + 12) 0)
      (ws + 13) 0) (ws + 10) 0) i (o ++ [((48 + dh : Nat) : Int)])
    (by rw [Function.update_noteq (by omega : ws + 9 ≠ ws + 10),
      Function.update_noteq (by omega : ws + 9 ≠ ws + 13),
      Function.update_noteq (by omega : ws + 9 ≠ ws + 12)]; exact h9)
  refine .seq h4 ?_
  exact bs_digit inp (ws + 9) (ws + 3) du hdu _ i
    ((o ++ [((48 + dh : Nat) : Int)]) ++ [((48 + dt : Nat) : Int)])
    (by rw [Function.update_noteq (by omega : ws + 3 ≠ ws + 9),
      Function.update_noteq (by omega : ws + 3 ≠ ws + 10),
      Function.update_noteq (by omega : ws + 3 ≠ ws + 13),
      Function.update_noteq (by omega : ws + 3 ≠ ws + 12)]; exact h3)

/-- Sub-branch 2a of `print_number` prints the tens and units digits. -/
theorem bs_printB2a_run (inp : List Int) (ws : Nat) (dt du : Nat)
    (hdt : dt < 208) (hdu : du < 208)
    (t : Nat → Int) (i : Nat) (o : List Int)
    (h13 : t (ws + 13) = 1) (h9 : t (ws + 9) = (dt : Int))
    (h3 : t (ws + 3) = (du : Int)) :
    BigStep 256 inp (printB2a ws) ⟨t, ws + 9, i, o⟩
      ⟨Function.update (Function.update (Function.update t (ws + 13) 0)
          (ws + 9) 0) (ws + 3) 0,
        ws + 3, i,
        o ++ [((48 + dt : Nat) : Int), ((48 + du : Nat) : Int)]⟩ := by
  have h1 := bs_decA inp (ws + 9) (ws + 13) 1 (by omega) t i o
  rw [h13, show ((1 : Int) - ((1 : Nat) : Int)) % 256 = 0 from by norm_num]
    at h1
  refine .seq h1 ?_
  rw [show o ++ [((48 + dt : Nat) : Int), ((48 + du : Nat) : Int)]
    = (o ++ [((48 + dt : Nat) : Int)]) ++ [((48 + du : Nat) : Int)]
    from by simp]
  have h2 := bs_digit inp (ws + 13) (ws + 9) dt hdt
    (Function.update t (ws + 13) 0) i o
    (by rw [Function.update_noteq (by omega : ws + 9 ≠ ws + 13)]; exact h9)
  refine .seq h2 ?_
  exact bs_digit inp (ws + 9) (ws + 3) du hdu _ i
    (o ++ [((48 + dt : Nat) : Int)])
    (by rw [Function.update_noteq (by omega : ws + 3 ≠ ws + 9),
      Function.update_noteq (by omega : ws + 3 ≠ ws + 13)]; exact h3)

/-- Sub-branch 2b of `print_number` prints just the units digit. -/
theorem bs_printB2b_run (inp : List Int) (ws : Nat) (du : Nat)
    (hdu : du < 208) (t : Nat → Int) (i : Nat) (o : List Int)
    (h13 : t (ws + 13) = 1) (h3 : t (ws + 3) = (du : Int)) :
    BigStep 256 inp (printB2b ws) ⟨t, ws + 13, i, o⟩
      ⟨Function.update (Function.update t (ws + 13) 0) (ws + 3) 0,
        ws + 3, i, o ++ [((48 + du : Nat) : Int)]⟩ := by
  have h1 := bs_decA inp (ws + 13) (ws + 13) 1 (by omega) t i o
  rw [h13, show ((1 : Int) - ((1 : Nat) : Int)) % 256 = 0 from by norm_num]
    at h1
  refine .seq h1 ?_
  exact bs_digit inp (ws + 13) (ws + 3) du hdu _ i o
    (by rw [Function.update_noteq (by omega : ws + 3 ≠ ws + 13)]; exact h3)

/-- Branch 2 of `print_number` when the tens digit is nonzero: prints two
digits. -/
theorem bs_printB2_tens (inp : List Int) (ws : Nat) (dt du : Nat)
    (hdt0 : 0 < dt) (hdt : dt < 208) (hdu : du < 208)
    (t : Nat → Int) (i : Nat) (o : List Int)
    (h12 : t (ws + 12) = 1) (h13 : t (ws + 13) = 1)
    (h9 : t (ws + 9) = (dt : Int)) (h3 : t (ws + 3) = (du : Int)) :
    BigStep 256 inp (printB2 ws) ⟨t, ws + 12, i, o⟩
      ⟨Function.update (Function.update (Function.update (Function.update t
          (ws + 12) 0) (ws + 13) 0) (ws + 9) 0) (ws + 3) 0,
        ws + 13, i,
        o ++ [((48 + dt : Nat) : Int), ((48 + du : Nat) : Int)]⟩ := by
  have h1 := bs_decA inp (ws + 12) (ws + 12) 1 (by omega) t i o
  rw [h12, show ((1 : Int) - ((1 : Nat) : Int)) % 256 = 0 from by norm_num]
    at h1
  refine .seq h1 ?_
  have hL1 : BigStep 256 inp
      (.seq (aMoves (ws + 12) (ws + 9)) (loopA (ws + 9) (printB2a ws) (ws + 3)))
      ⟨Function.update t (ws + 12) 0, ws + 12, i, o⟩
      ⟨Function.update (Function.update (Function.update
          (Function.update t (ws + 12) 0) (ws + 13) 0) (ws + 9) 0)
          (ws + 3) 0,
        ws + 9, i,
        o ++ [((48 + dt : Nat) : Int), ((48 + du : Nat) : Int)]⟩ := by
    refine .seq (bs_moves 256 inp (ws + 12) (ws + 9) _ i o) ?_
    refine BigStep.loopSucc (by
      show Function.update t (ws + 12) 0 (ws + 9) ≠ 0
      rw [Function.update_noteq (by omega : ws + 9 ≠ ws + 12), h9]
      exact_mod_cast (by omega : ((dt : Nat) : Int) ≠ 0)) ?_ (.loopZero _ ?_)
    · refine .seq (bs_printB2a_run inp ws dt du hdt hdu
        (Function.update t (ws + 12) 0) i o
        (by rw [Function.update_noteq (by omega : ws + 13 ≠ ws + 12)]
            exact h13)
        (by rw [Function.update_noteq (by omega : ws + 9 ≠ ws + 12)]
            exact h9)
        (by rw [Function.update_noteq (by omega : ws + 3 ≠ ws + 12)]
            exact h3)) ?_
      exact bs_moves 256 inp (ws + 3) (ws + 9) _ i _
    · show Function.update (Function.update (Function.update
        (Function.update t (ws + 12) 0) (ws + 13) 0) (ws + 9) 0)
        (ws + 3) 0 (ws + 9) = 0
      rw [Function.update_noteq (by omega : ws + 9 ≠ ws + 3),
        Function.update_same]
  refine .seq hL1 ?_
  refine .seq (bs_moves 256 inp (ws + 9) (ws + 13) _ i _) ?_
  refine BigStep.loopZero _ ?_
  show Function.update (Function.update (Function.update
    (Function.update t (ws + 12) 0) (ws + 13) 0) (ws + 9) 0)
    (ws + 3) 0 (ws + 13) = 0
  rw [Function.update_noteq (by omega : ws + 13 ≠ ws + 3),
    Function.update_noteq (by omega : ws + 13 ≠ ws + 9),
    Function.update_same]

/-- Branch 2 of `print_number` when the tens digit is zero: prints a single
digit. -/
theorem bs_printB2_ones (inp : List Int) (ws : Nat) (du : Nat)
    (hdu : du < 208) (t : Nat → Int) (i : Nat) (o : List Int)
    (h12 : t (ws + 12) = 1) (h13 : t (ws + 13) = 1)
    (h9 : t (ws + 9) = 0) (h3 : t (ws + 3) = (du : Int)) :
    BigStep 256 inp (printB2 ws) ⟨t, ws + 12, i, o⟩
      ⟨Function.update (Function.update (Function.update t
          (ws + 12) 0) (ws + 13) 0) (ws + 3) 0,
        ws + 13, i, o ++ [((48 + du : Nat) : Int)]⟩ := by
  have h1 := bs_decA inp (ws + 12) (ws + 12) 1 (by omega) t i o
  rw [h12, show ((1 : Int) - ((1 : Nat) : Int)) % 256 = 0 from by norm_num]
    at h1
  refine .seq h1 ?_
  have hL1 : BigStep 256 inp
      (.seq (aMoves (ws + 12) (ws + 9)) (loopA (ws + 9) (printB2a ws) (ws + 3)))
      ⟨Function.update t (ws + 12) 0, ws + 12, i, o⟩
      ⟨Function.update t (ws + 12) 0, ws + 9, i, o⟩ := by
    refine .seq (bs_moves 256 inp (ws + 12) (ws + 9) _ i o) ?_
    exact BigStep.loopZero _ (by
      show Function.update t (ws + 12) 0 (ws + 9) = 0
      rw [Function.update_noteq (by omega : ws + 9 ≠ ws + 12)]; exact h9)
  refine .seq hL1 ?_
  refine .seq (bs_moves 256 inp (ws + 9) (ws + 13) _ i o) ?_
  refine BigStep.loopSucc (by
      show Function.update t (ws + 12) 0 (ws + 13) ≠ 0
      rw [Function.update_noteq (by omega : ws + 13 ≠ ws + 12), h13]
      norm_num) ?_ (.loopZero _ ?_)
  · refine .seq (bs_printB2b_run inp ws du hdu
      (Function.update t (ws + 12) 0) i o
      (by rw [Function.update_noteq (by omega : ws + 13 ≠ ws + 12)]
          exact h13)
      (by rw [Function.update_noteq (by omega : ws + 3 ≠ ws + 12)]
          exact h3)) ?_
    exact bs_moves 256 inp (ws + 3) (ws + 13) _ i _
  · show Function.update (Function.update (Function.update t (ws + 12) 0)
      (ws + 13) 0) (ws + 3) 0 (ws + 13) = 0
    rw [Function.update_noteq (by omega : ws + 13 ≠ ws + 3),
      Function.update_same]


/-- The printing tail of `print_number`: branch selection on the hundreds
and tens digits, emitting `decAscii` and clearing the flag/digit cells. -/
theorem bs_printTail (inp : List Int) (ws v : Nat) (hv : v < 256)
    (T : Nat → Int) (i : Nat) (o : List Int)
    (h3 : T (ws + 3) = ((v % 10 : Nat) : Int))
    (h9 : T (ws + 9) = ((v / 10 % 10 : Nat) : Int))
    (h10 : T (ws + 10) = ((v / 100 : Nat) : Int))
    (h12 : T (ws + 12) = 1) (h13 : T (ws + 13) = 1) :
    BigStep 256 inp
      (.seq (.seq (aMoves (ws + 13) (ws + 10))
          (loopA (ws + 10) (printB1 ws) (ws + 3)))
        (.seq (aMoves (ws + 10) (ws + 12))
          (loopA (ws + 12) (printB2 ws) (ws + 13))))
      ⟨T, ws + 13, i, o⟩
      ⟨fun x => if x = ws + 3 ∨ x = ws + 9 ∨ x = ws + 10 ∨ x = ws + 12
          ∨ x = ws + 13 then 0 else T x,
        ws + 12, i, o ++ decAscii v⟩ := by
  by_cases hA : 100 ≤ v
  · -- three digits
    have ed : decAscii v = [((48 + v / 100 : Nat) : Int),
        ((48 + v / 10 % 10 : Nat) : Int), ((48 + v % 10 : Nat) : Int)] := by
      unfold decAscii; rw [if_pos hA]
    rw [ed]
    have hL1 : BigStep 256 inp
        (.seq (aMoves (ws + 13) (ws + 10))
          (loopA (ws + 10) (printB1 ws) (ws + 3)))
        ⟨T, ws + 13, i, o⟩
        ⟨Function.update (Function.update (Function.update (Function.update
            (Function.update T (ws + 12) 0) (ws + 13) 0) (ws + 10) 0)
            (ws + 9) 0) (ws + 3) 0, ws + 10, i,
          o ++ [((48 + v / 100 : Nat) : Int), ((48 + v / 10 % 10 : Nat) : Int),
            ((48 + v % 10 : Nat) : Int)]⟩ := by
      refine .seq (bs_moves 256 inp (ws + 13) (ws + 10) T i o) ?_
      refine BigStep.loopSucc (by
        show T (ws + 10) ≠ 0
        rw [h10]; exact_mod_cast (by omega : v / 100 ≠ 0)) ?_ (.loopZero _ ?_)
      · refine .seq (bs_printB1 inp ws (v / 100) (v / 10 % 10) (v % 10)
          (by omega) (by omega) (by omega) T i o h12 h13 h10 h9 h3) ?_
        exact bs_moves 256 inp (ws + 3) (ws + 10) _ i _
      · show Function.update (Function.update (Function.update
          (Function.update (Function.update T (ws + 12) 0) (ws + 13) 0)
          (ws + 10) 0) (ws + 9) 0) (ws + 3) 0 (ws + 10) = 0
        rw [Function.update_noteq (by omega : ws + 10 ≠ ws + 3),
          Function.update_noteq (by omega : ws + 10 ≠ ws + 9),
          Function.update_same]
    refine .seq hL1 ?_
    refine .seq (bs_moves 256 inp (ws + 10) (ws + 12) _ i _) ?_
    rw [show (fun x => if x = ws + 3 ∨ x = ws + 9 ∨ x = ws + 10 ∨ x = ws + 12
          ∨ x = ws + 13 then (0 : Int) else T x)
        = Function.update (Function.update (Function.update (Function.update
            (Function.update T (ws + 12) 0) (ws + 13) 0) (ws + 10) 0)
            (ws + 9) 0) (ws + 3) 0 from by
      funext x
      simp only [Function.update_apply]
      split_ifs <;> first | rfl | omega]
    refine BigStep.loopZero _ ?_
    show Function.update (Function.update (Function.update
      (Function.update (Function.update T (ws + 12) 0) (ws + 13) 0)
      (ws + 10) 0) (ws + 9) 0) (ws + 3) 0 (ws + 12) = 0
    rw [Function.update_noteq (by omega : ws + 12 ≠ ws + 3),
      Function.update_noteq (by omega : ws + 12 ≠ ws + 9),
      Function.update_noteq (by omega : ws + 12 ≠ ws + 10),
      Function.update_noteq (by omega : ws + 12 ≠ ws + 13),
      Function.update_same]
  by_cases hB : 10 ≤ v
  · -- two digits
    have ed : decAscii v = [((48 + v / 10 % 10 : Nat) : Int),
        ((48 + v % 10 : Nat) : Int)] := by
      unfold decAscii; rw [if_neg hA, if_pos hB]
    rw [ed]
    have hL1 : BigStep 256 inp
        (.seq (aMoves (ws + 13) (ws + 10))
          (loopA (ws + 10) (printB1 ws) (ws + 3)))
        ⟨T, ws + 13, i, o⟩ ⟨T, ws + 10, i, o⟩ := by
      refine .seq (bs_moves 256 inp (ws + 13) (ws + 10) T i o) ?_
      exact BigStep.loopZero _ (by show T (ws + 10) = 0; rw [h10]; omega)
    refine .seq hL1 ?_
    refine .seq (bs_moves 256 inp (ws + 10) (ws + 12) T i o) ?_
    rw [show (fun x => if x = ws + 3 ∨ x = ws + 9 ∨ x = ws + 10 ∨ x = ws + 12
          ∨ x = ws + 13 then (0 : Int) else T x)
        = Function.update (Function.update (Function.update
            (Function.update T (ws + 12) 0) (ws + 13) 0) (ws + 9) 0)
            (ws + 3) 0 from by
      funext x
      simp only [Function.update_apply]
      split_ifs <;>
        first
        | rfl
        | omega
        | (have hx : x = ws + 10 := by omega
           rw [hx, h10]; omega)]
    refine BigStep.loopSucc (by
      show T (ws + 12) ≠ 0
      rw [h12]; norm_num) ?_ (.loopZero _ ?_)
    · refine .seq (bs_printB2_tens inp ws (v / 10 % 10) (v % 10)
        (by omega) (by omega) (by omega) T i o h12 h13 h9 h3) ?_
      exact bs_moves 256 inp (ws + 13) (ws + 12) _ i _
    · show Function.update (Function.update (Function.update
        (Function.update T (ws + 12) 0) (ws + 13) 0) (ws + 9) 0)
        (ws + 3) 0 (ws + 12) = 0
      rw [Function.update_noteq (by omega : ws + 12 ≠ ws + 3),
        Function.update_noteq (by omega : ws + 12 ≠ ws + 9),
        Function.update_noteq (by omega : ws + 12 ≠ ws + 13),
        Function.update_same]
  · -- one digit
    have ed : decAscii v = [((48 + v % 10 : Nat) : Int)] := by
      unfold decAscii; rw [if_neg hA, if_neg hB]
    rw [ed]
    have hL1 : BigStep 256 inp
        (.seq (aMoves (ws + 13) (ws + 10))
          (loopA (ws + 10) (printB1 ws) (ws + 3)))
        ⟨T, ws + 13, i, o⟩ ⟨T, ws + 10, i, o⟩ := by
      refine .seq (bs_moves 256 inp (ws + 13) (ws + 10) T i o) ?_
      exact BigStep.loopZero _ (by show T (ws + 10) = 0; rw [h10]; omega)
    refine .seq hL1 ?_
    refine .seq (bs_moves 256 inp (ws + 10) (ws + 12) T i o) ?_
    rw [show (fun x => if x = ws + 3 ∨ x = ws + 9 ∨ x = ws + 10 ∨ x = ws + 12
          ∨ x = ws + 13 then (0 : Int) else T x)
        = Function.update (Function.update (Function.update T
            (ws + 12) 0) (ws + 13) 0) (ws + 3) 0 from by
      funext x
      simp only [Function.update_apply]
      split_ifs <;>
        first
        | rfl
        | omega
        | (obtain hx | hx := (by omega : x = ws + 9 ∨ x = ws + 10) <;>
            rw [hx] <;> first | (rw [h9]; omega) | (rw [h10]; omega))]
    refine BigStep.loopSucc (by
      show T (ws + 12) ≠ 0
      rw [h12]; norm_num) ?_ (.loopZero _ ?_)
    · refine .seq (bs_printB2_ones inp ws (v % 10) (by omega) T i o h12 h13
        (by rw [h9]; omega) h3) ?_
      exact bs_moves 256 inp (ws + 13) (ws + 12) _ i _
    · show Function.update (Function.update (Function.update T (ws + 12) 0)
        (ws + 13) 0) (ws + 3) 0 (ws + 12) = 0
      rw [Function.update_noteq (by omega : ws + 12 ≠ ws + 3),
        Function.update_noteq (by omega : ws + 12 ≠ ws + 13),
        Function.update_same]

/-- `inc cell 1` on a zero cell sets it to `1`. -/
theorem bs_incA_one (inp : List Int) (p cell : Nat) (t : Nat → Int)
    (i : Nat) (o : List Int) (ht : t cell = 0) :
    BigStep 256 inp (incA p cell 1) ⟨t, p, i, o⟩
      ⟨Function.update t cell 1, cell, i, o⟩ := by
  have h := bs_incA inp p cell 1 (by omega) t i o
  rwa [ht, show ((0 : Int) + ((1 : Nat) : Int)) % 256 = 1 from by norm_num]
    at h

/-- `print_number(val, ws)`: prints the decimal ASCII of the byte in `val`,
consuming it, zeroing the workspace, and ending with the cursor at
`ws + 12`. -/
theorem bs_printA (inp : List Int) (p val ws : Nat) (v : Nat) (hv : v < 256)
    (hval : val < ws ∨ ws + 13 < val)
    (t : Nat → Int) (i : Nat) (o : List Int)
    (htv : t val = (v : Int))
    (hw : ∀ k, k ≤ 13 → t (ws + k) = 0) :
    BigStep 256 inp (printA p val ws) ⟨t, p, i, o⟩
      ⟨fun x => if x = val ∨ (ws ≤ x ∧ x ≤ ws + 13) then 0 else t x,
        ws + 12, i, o ++ decAscii v⟩ := by
  have hm1 := bs_moveA inp p val (ws + 1) (by omega) v 0 (by omega) t i o htv
    (by rw [hw 1 (by omega)]; norm_num)
  rw [show ((0 + v : Nat) : Int) = ((v : Nat) : Int) from by norm_num] at hm1
  have hd1 := bs_divmodA inp val ws v hv
    (Function.update (Function.update t (ws + 1) ((v : Nat) : Int)) val 0) i o
    (by rw [Function.update_noteq (by omega : ws + 1 ≠ val),
      Function.update_same])
    (by rw [Function.update_noteq (by omega : ws + 2 ≠ val),
      Function.update_noteq (by omega : ws + 2 ≠ ws + 1)]
        exact hw 2 (by omega))
    (by rw [Function.update_noteq (by omega : ws + 3 ≠ val),
      Function.update_noteq (by omega : ws + 3 ≠ ws + 1)]
        exact hw 3 (by omega))
    (by rw [Function.update_noteq (by omega : ws + 4 ≠ val),
      Function.update_noteq (by omega : ws + 4 ≠ ws + 1)]
        exact hw 4 (by omega))
    (by rw [Function.update_noteq (by omega : ws + 5 ≠ val),
      Function.update_noteq (by omega : ws + 5 ≠ ws + 1)]
        exact hw 5 (by omega))
    (by rw [Function.update_noteq (by omega : ws + 6 ≠ val),
      Function.update_noteq (by omega : ws + 6 ≠ ws + 1)]
        exact hw 6 (by omega))
  rw [show Function.update (Function.update (Function.update (Function.update
      (Function.update (Function.update t (ws + 1) ((v : Nat) : Int)) val 0)
      (ws + 1) 0) (ws + 3) ((v % 10 : Nat) : Int))
      (ws + 4) ((v / 10 : Nat) : Int)) (ws + 2) 0
    = (fun x => if x = ws + 3 then ((v % 10 : Nat) : Int)
      else if x = ws + 4 then ((v / 10 : Nat) : Int)
      else if x = val ∨ (ws ≤ x ∧ x ≤ ws + 13) then 0 else t x) from by
      funext x
      simp only [Function.update_apply]
      split_ifs <;>
      first
      | rfl
      | omega
      | (have hx := hw (x - ws) (by omega)
         rw [show ws + (x - ws) = x from by omega] at hx
         omega)] at hd1
  have hm2 := bs_moveA inp (ws + 2) (ws + 4) (ws + 7) (by omega) (v / 10) 0
    (by omega)
    (fun x => if x = ws + 3 then ((v % 10 : Nat) : Int)
      else if x = ws + 4 then ((v / 10 : Nat) : Int)
      else if x = val ∨ (ws ≤ x ∧ x ≤ ws + 13) then 0 else t x) i o
    (by simp only []
        split_ifs <;> first | rfl | omega)
    (by simp only []
        split_ifs <;> first | omega | norm_num)
  rw [show ((0 + v / 10 : Nat) : Int) = ((v / 10 : Nat) : Int)
    from by norm_num] at hm2
  have hd2 := bs_divmodA inp (ws + 4) (ws + 6) (v / 10) (by omega)
    (Function.update (Function.update
      (fun x => if x = ws + 3 then ((v % 10 : Nat) : Int)
      else if x = ws + 4 then ((v / 10 : Nat) : Int)
      else if x = val ∨ (ws ≤ x ∧ x ≤ ws + 13) then 0 else t x)
      (ws + 7) ((v / 10 : Nat) : Int)) (ws + 4) 0) i o
    (by rw [show ws + 6 + 1 = ws + 7 from by omega,
      Function.update_noteq (by omega : ws + 7 ≠ ws + 4),
      Function.update_same])
    (by rw [show ws + 6 + 2 = ws + 8 from by omega]
        simp only [Function.update_apply]
        split_ifs <;> first | rfl | omega)
    (by rw [show ws + 6 + 3 = ws + 9 from by omega]
        simp only [Function.update_apply]
        split_ifs <;> first | rfl | omega)
    (by rw [show ws + 6 + 4 = ws + 10 from by omega]
        simp only [Function.update_apply]
        split_ifs <;> first | rfl | omega)
    (by rw [show ws + 6 + 5 = ws + 11 from by omega]
        simp only [Function.update_apply]
        split_ifs <;> first | rfl | omega)
    (by rw [show ws + 6 + 6 = ws + 12 from by omega]
        simp only [Function.update_apply]
        split_ifs <;> first | rfl | omega)
  rw [show ws + 6 + 1 = ws + 7 from by omega,
    show ws + 6 + 2 = ws + 8 from by omega,
    show ws + 6 + 3 = ws + 9 from by omega,
    show ws + 6 + 4 = ws + 10 from by omega,
    show v / 10 / 10 = v / 100 from by omega] at hd2
  rw [show Function.update (Function.update (Function.update (Function.update
      (Function.update (Function.update
        (fun x => if x = ws + 3 then ((v % 10 : Nat) : Int)
      else if x = ws + 4 then ((v / 10 : Nat) : Int)
      else if x = val ∨ (ws ≤ x ∧ x ≤ ws + 13) then 0 else t x)
        (ws + 7) ((v / 10 : Nat) : Int)) (ws + 4) 0)
      (ws + 7) 0) (ws + 9) ((v / 10 % 10 : Nat) : Int))
      (ws + 10) ((v / 100 : Nat) : Int)) (ws + 8) 0
    = (fun x => if x = ws + 3 then ((v % 10 : Nat) : Int)
      else if x = ws + 9 then ((v / 10 % 10 : Nat) : Int)
      else if x = ws + 10 then ((v / 100 : Nat) : Int)
      else if x = val ∨ (ws ≤ x ∧ x ≤ ws + 13) then 0 else t x) from by
      funext x
      simp only [Function.update_apply]
      split_ifs <;> first | rfl | omega] at hd2
  refine .seq hm1 (.seq hd1 (.seq hm2 (.seq hd2
    (.seq (bs_incA_one inp (ws + 8) (ws + 12) _ i o ?_)
      (.seq (bs_incA_one inp (ws + 12) (ws + 13) _ i o ?_) ?_)))))
  · beta_reduce
    split_ifs <;> omega
  · simp only [Function.update_apply]
    split_ifs <;> omega
  · rw [show (fun x => if x = val ∨ (ws ≤ x ∧ x ≤ ws + 13) then (0 : Int)
        else t x)
      = (fun x => if x = ws + 3 ∨ x = ws + 9 ∨ x = ws + 10 ∨ x = ws + 12
          ∨ x = ws + 13 then (0 : Int) else
          (Function.update (Function.update
            (fun x => if x = ws + 3 then ((v % 10 : Nat) : Int)
      else if x = ws + 9 then ((v / 10 % 10 : Nat) : Int)
      else if x = ws + 10 then ((v / 100 : Nat) : Int)
      else if x = val ∨ (ws ≤ x ∧ x ≤ ws + 13) then 0 else t x)
            (ws + 12) 1) (ws + 13) 1) x) from by
      funext x
      simp only [Function.update_apply]
      split_ifs <;> first | rfl | omega]
    refine bs_printTail inp ws v hv _ i o ?_ ?_ ?_ ?_ ?_
    · simp only [Function.update_apply]
      split_ifs <;> first | rfl | omega
    · simp only [Function.update_apply]
      split_ifs <;> first | rfl | omega
    · simp only [Function.update_apply]
      split_ifs <;> first | rfl | omega
    · simp only [Function.update_apply]
      split_ifs <;> first | rfl | omega
    · simp only [Function.update_apply]
      split_ifs <;> first | rfl | omega

/-- `dec cell 1` on a cell holding `1` zeroes it. -/
theorem bs_decA_one (inp : List Int) (p cell : Nat) (t : Nat → Int)
    (i : Nat) (o : List Int) (ht : t cell = 1) :
    BigStep 256 inp (decA p cell 1) ⟨t, p, i, o⟩
      ⟨Function.update t cell 0, cell, i, o⟩ := by
  have h := bs_decA inp p cell 1 (by omega) t i o
  rwa [ht, show ((1 : Int) - ((1 : Nat) : Int)) % 256 = 0 from by norm_num]
    at h

/-- The tape at the top of a main-loop iteration with multiplier `m`. -/
def mainTape (m : Nat) : Nat → Int :=
  fun x => if x = 0 then 1 else if x = 3 then ((m % 256 : Nat) : Int) else 0

/-- The tape between iterations (and at exit): only the multiplier cell is
set. -/
def exitTape (m : Nat) : Nat → Int :=
  fun x => if x = 3 then ((m % 256 : Nat) : Int) else 0

/-- The byte encoding of the input after the constant term: ASCII digits
separated by spaces, terminated by a newline. -/
def encTail : List Nat → List Int
  | [] => []
  | [c] => [((48 + c : Nat) : Int), 10]
  | c :: c' :: rest => ((48 + c : Nat) : Int) :: 32 :: encTail (c' :: rest)

/-- The output the main loop produces from multiplier `m` on the remaining
digits: each product in decimal, space-separated, newline-terminated. -/
def outTail : List Nat → Nat → List Int
  | [], _ => []
  | [c], m => decAscii (c * (m % 256)) ++ [10]
  | c :: c' :: rest, m =>
      decAscii (c * (m % 256)) ++ 32 :: outTail (c' :: rest) (m + 1)

theorem encTail_length (ds : List Nat) :
    (encTail ds).length = 2 * ds.length := by
  induction ds with
  | nil => rfl
  | cons c rest ih =>
    rcases rest with _ | ⟨c', r⟩
    · rfl
    · simp only [encTail, List.length_cons] at ih ⊢
      omega

/-- One main-loop iteration followed by a space separator: prints the
product and re-arms the loop flag with the multiplier incremented. -/
theorem bs_iter_cont (inp : List Int) (m c ip : Nat) (o : List Int)
    (hc : c ≤ 9) (hprod : c * (m % 256) ≤ 255)
    (hip : ip + 1 < inp.length)
    (hb1 : inp.get ⟨ip, Nat.lt_of_succ_lt hip⟩ = ((48 + c : Nat) : Int))
    (hb2 : inp.get ⟨ip + 1, hip⟩ = (32 : Int)) :
    BigStep 256 inp (.seq genLoopBody (aMoves 6 0))
      ⟨mainTape m, 0, ip, o⟩
      ⟨mainTape (m + 1), 0, ip + 2,
        (o ++ decAscii (c * (m % 256))) ++ [(32 : Int)]⟩ := by
  have h1 := bs_decA_one inp 0 0 (mainTape m) ip o (by simp [mainTape])
  have h2 : BigStep 256 inp (readA 0 2)
      ⟨Function.update (mainTape m) 0 0, 0, ip, o⟩
      ⟨Function.update (Function.update (mainTape m) 0 0) 2
        ((48 + c : Nat) : Int), 2, ip + 1, o⟩ := by
    have h := bs_readA_more inp 0 2 (Function.update (mainTape m) 0 0) ip o
      (Nat.lt_of_succ_lt hip)
    rwa [hb1] at h
  have h3 := bs_decA inp 2 2 48 (by omega)
    (Function.update (Function.update (mainTape m) 0 0) 2
      ((48 + c : Nat) : Int)) (ip + 1) o
  rw [Function.update_same,
    show (((48 + c : Nat) : Int) - ((48 : Nat) : Int)) % 256
      = ((c : Nat) : Int) from by push_cast; omega] at h3
  have h4 := bs_multiplyA inp 2 2 3 4 5 (by omega) (by omega) (by omega)
    (by omega) (by omega) (by omega) c (m % 256) (by omega) (by omega)
    (Function.update (Function.update (Function.update (mainTape m) 0 0) 2
      ((48 + c : Nat) : Int)) 2 ((c : Nat) : Int)) (ip + 1) o
    (by rw [Function.update_same])
    (by rw [Function.update_noteq (by omega : (3 : Nat) ≠ 2),
      Function.update_noteq (by omega : (3 : Nat) ≠ 2),
      Function.update_noteq (by omega : (3 : Nat) ≠ 0)]
        simp [mainTape])
    (by rw [Function.update_noteq (by omega : (4 : Nat) ≠ 2),
      Function.update_noteq (by omega : (4 : Nat) ≠ 2),
      Function.update_noteq (by omega : (4 : Nat) ≠ 0)]
        simp [mainTape])
    (by rw [Function.update_noteq (by omega : (5 : Nat) ≠ 2),
      Function.update_noteq (by omega : (5 : Nat) ≠ 2),
      Function.update_noteq (by omega : (5 : Nat) ≠ 0)]
        simp [mainTape])
  have h5 := bs_printA inp 2 4 7 (c * (m % 256)) (by omega)
    (Or.inl (by omega))
    (Function.update (Function.update (Function.update (Function.update
      (Function.update (mainTape m) 0 0) 2 ((48 + c : Nat) : Int)) 2
      ((c : Nat) : Int)) 4 ((c * (m % 256) : Nat) : Int)) 2 0) (ip + 1) o
    (by rw [Function.update_noteq (by omega : (4 : Nat) ≠ 2),
      Function.update_same])
    (by intro k hk
        rw [Function.update_noteq (by omega : 7 + k ≠ 2),
          Function.update_noteq (by omega : 7 + k ≠ 4),
          Function.update_noteq (by omega : 7 + k ≠ 2),
          Function.update_noteq (by omega : 7 + k ≠ 2),
          Function.update_noteq (by omega : 7 + k ≠ 0)]
        simp only [mainTape]
        split_ifs <;> first | rfl | omega)
  rw [show (fun x => if x = 4 ∨ (7 ≤ x ∧ x ≤ 7 + 13) then (0 : Int) else
      (Function.update (Function.update (Function.update (Function.update
        (Function.update (mainTape m) 0 0) 2 ((48 + c : Nat) : Int)) 2
        ((c : Nat) : Int)) 4 ((c * (m % 256) : Nat) : Int)) 2 0) x)
    = exitTape m from by
      funext x
      simp only [exitTape, mainTape, Function.update_apply]
      split_ifs <;> first | rfl | omega] at h5
  have h6 := bs_incA inp 19 3 1 (by omega) (exitTape m) (ip + 1)
    (o ++ decAscii (c * (m % 256)))
  rw [show exitTape m 3 = ((m % 256 : Nat) : Int) from by simp [exitTape],
    show (((m % 256 : Nat) : Int) + ((1 : Nat) : Int)) % 256
      = (((m + 1) % 256 : Nat) : Int) from by push_cast; omega,
    show Function.update (exitTape m) 3 (((m + 1) % 256 : Nat) : Int)
      = exitTape (m + 1) from by
      funext x
      simp only [exitTape, Function.update_apply]
      split_ifs <;> first | rfl | omega] at h6
  have h7 : BigStep 256 inp (readA 3 1)
      ⟨exitTape (m + 1), 3, ip + 1, o ++ decAscii (c * (m % 256))⟩
      ⟨Function.update (exitTape (m + 1)) 1 (32 : Int), 1, ip + 2,
        o ++ decAscii (c * (m % 256))⟩ := by
    have h := bs_readA_more inp 3 1 (exitTape (m + 1)) (ip + 1)
      (o ++ decAscii (c * (m % 256))) hip
    rwa [hb2] at h
  have h8 := bs_decA inp 1 1 32 (by omega)
    (Function.update (exitTape (m + 1)) 1 (32 : Int)) (ip + 2)
    (o ++ decAscii (c * (m % 256)))
  rw [Function.update_same,
    show ((32 : Int) - ((32 : Nat) : Int)) % 256 = 0 from by norm_num] at h8
  have h9 := bs_incA_one inp 1 6
    (Function.update (Function.update (exitTape (m + 1)) 1 (32 : Int)) 1 0)
    (ip + 2) (o ++ decAscii (c * (m % 256)))
    (by rw [Function.update_noteq (by omega : (6 : Nat) ≠ 1),
      Function.update_noteq (by omega : (6 : Nat) ≠ 1)]
        simp [exitTape])
  have h10 : BigStep 256 inp (.seq (aMoves 6 1) (loopA 1 genSep1 1))
      ⟨Function.update (Function.update (Function.update (exitTape (m + 1))
        1 (32 : Int)) 1 0) 6 1, 6, ip + 2, o ++ decAscii (c * (m % 256))⟩
      ⟨Function.update (Function.update (Function.update (exitTape (m + 1))
        1 (32 : Int)) 1 0) 6 1, 1, ip + 2, o ++ decAscii (c * (m % 256))⟩ := by
    refine .seq (bs_moves 256 inp 6 1 _ (ip + 2) _) ?_
    exact BigStep.loopZero _ (by
      show Function.update (Function.update (Function.update
        (exitTape (m + 1)) 1 (32 : Int)) 1 0) 6 1 1 = 0
      rw [Function.update_noteq (by omega : (1 : Nat) ≠ 6),
        Function.update_same])
  have hsep2 : BigStep 256 inp genSep2
      ⟨Function.update (Function.update (Function.update (exitTape (m + 1))
        1 (32 : Int)) 1 0) 6 1, 6, ip + 2, o ++ decAscii (c * (m % 256))⟩
      ⟨Function.update (Function.update (Function.update (Function.update
        (Function.update (Function.update (Function.update (exitTape (m + 1))
        1 (32 : Int)) 1 0) 6 1) 6 0) 0 1) 1 (32 : Int)) 1 0, 1, ip + 2,
        (o ++ decAscii (c * (m % 256))) ++ [(32 : Int)]⟩ := by
    have g1 := bs_decA_one inp 6 6
      (Function.update (Function.update (Function.update (exitTape (m + 1))
        1 (32 : Int)) 1 0) 6 1) (ip + 2) (o ++ decAscii (c * (m % 256)))
      (by rw [Function.update_same])
    have g2 := bs_incA_one inp 6 0
      (Function.update (Function.update (Function.update (Function.update
        (exitTape (m + 1)) 1 (32 : Int)) 1 0) 6 1) 6 0) (ip + 2)
      (o ++ decAscii (c * (m % 256)))
      (by rw [Function.update_noteq (by omega : (0 : Nat) ≠ 6),
        Function.update_noteq (by omega : (0 : Nat) ≠ 6),
        Function.update_noteq (by omega : (0 : Nat) ≠ 1),
        Function.update_noteq (by omega : (0 : Nat) ≠ 1)]
          simp [exitTape])
    have g3 := bs_incA inp 0 1 32 (by omega)
      (Function.update (Function.update (Function.update (Function.update
        (Function.update (exitTape (m + 1)) 1 (32 : Int)) 1 0) 6 1) 6 0)
        0 1) (ip + 2) (o ++ decAscii (c * (m % 256)))
    rw [show (Function.update (Function.update (Function.update
        (Function.update (Function.update (exitTape (m + 1)) 1 (32 : Int))
        1 0) 6 1) 6 0) 0 1) 1 = 0 from by
        rw [Function.update_noteq (by omega : (1 : Nat) ≠ 0),
          Function.update_noteq (by omega : (1 : Nat) ≠ 6),
          Function.update_noteq (by omega : (1 : Nat) ≠ 6),
          Function.update_same],
      show ((0 : Int) + ((32 : Nat) : Int)) % 256 = (32 : Int)
        from by norm_num] at g3
    have g4 := bs_writeA inp 1 1
      (Function.update (Function.update (Function.update (Function.update
        (Function.update (Function.update (exitTape (m + 1)) 1 (32 : Int))
        1 0) 6 1) 6 0) 0 1) 1 (32 : Int)) (ip + 2)
      (o ++ decAscii (c * (m % 256)))
    rw [Function.update_same] at g4
    have g5 := bs_clearA inp 1 1 32 (by omega)
      (Function.update (Function.update (Function.update (Function.update
        (Function.update (Function.update (exitTape (m + 1)) 1 (32 : Int))
        1 0) 6 1) 6 0) 0 1) 1 (32 : Int)) (ip + 2)
      ((o ++ decAscii (c * (m % 256))) ++ [(32 : Int)])
      (by rw [Function.update_same]; norm_num)
    exact .seq g1 (.seq g2 (.seq g3 (.seq g4 g5)))
  have h11 : BigStep 256 inp (.seq (aMoves 1 6) (loopA 6 genSep2 1))
      ⟨Function.update (Function.update (Function.update (exitTape (m + 1))
        1 (32 : Int)) 1 0) 6 1, 1, ip + 2, o ++ decAscii (c * (m % 256))⟩
      ⟨mainTape (m + 1), 6, ip + 2,
        (o ++ decAscii (c * (m % 256))) ++ [(32 : Int)]⟩ := by
    refine .seq (bs_moves 256 inp 1 6 _ (ip + 2) _) ?_
    rw [show mainTape (m + 1)
      = Function.update (Function.update (Function.update (Function.update
        (Function.update (Function.update (Function.update (exitTape (m + 1))
        1 (32 : Int)) 1 0) 6 1) 6 0) 0 1) 1 (32 : Int)) 1 0 from by
      funext x
      simp only [mainTape, exitTape, Function.update_apply]
      split_ifs <;> first | rfl | omega]
    refine BigStep.loopSucc (by
      show Function.update (Function.update (Function.update
        (exitTape (m + 1)) 1 (32 : Int)) 1 0) 6 1 6 ≠ 0
      rw [Function.update_same]; norm_num) ?_ (.loopZero _ ?_)
    · exact .seq hsep2 (bs_moves 256 inp 1 6 _ (ip + 2) _)
    · show Function.update (Function.update (Function.update (Function.update
        (Function.update (Function.update (Function.update (exitTape (m + 1))
        1 (32 : Int)) 1 0) 6 1) 6 0) 0 1) 1 (32 : Int)) 1 0 6 = 0
      rw [Function.update_noteq (by omega : (6 : Nat) ≠ 1),
        Function.update_noteq (by omega : (6 : Nat) ≠ 1),
        Function.update_noteq (by omega : (6 : Nat) ≠ 0),
        Function.update_same]
  exact .seq
    (.seq h1 (.seq h2 (.seq h3 (.seq h4 (.seq h5 (.seq h6 (.seq h7
      (.seq h8 (.seq h9 (.seq h10 h11))))))))))
    (bs_moves 256 inp 6 0 _ (ip + 2) _)

/-- The final main-loop iteration (newline separator): prints the product
and the newline and leaves the loop flag cleared. -/
theorem bs_iter_last (inp : List Int) (m c ip : Nat) (o : List Int)
    (hc : c ≤ 9) (hprod : c * (m % 256) ≤ 255)
    (hip : ip + 1 < inp.length)
    (hb1 : inp.get ⟨ip, Nat.lt_of_succ_lt hip⟩ = ((48 + c : Nat) : Int))
    (hb2 : inp.get ⟨ip + 1, hip⟩ = (10 : Int)) :
    BigStep 256 inp (.seq genLoopBody (aMoves 6 0))
      ⟨mainTape m, 0, ip, o⟩
      ⟨exitTape (m + 1), 0, ip + 2,
        (o ++ decAscii (c * (m % 256))) ++ [(10 : Int)]⟩ := by
  have h1 := bs_decA_one inp 0 0 (mainTape m) ip o (by simp [mainTape])
  have h2 : BigStep 256 inp (readA 0 2)
      ⟨Function.update (mainTape m) 0 0, 0, ip, o⟩
      ⟨Function.update (Function.update (mainTape m) 0 0) 2
        ((48 + c : Nat) : Int), 2, ip + 1, o⟩ := by
    have h := bs_readA_more inp 0 2 (Function.update (mainTape m) 0 0) ip o
      (Nat.lt_of_succ_lt hip)
    rwa [hb1] at h
  have h3 := bs_decA inp 2 2 48 (by omega)
    (Function.update (Function.update (mainTape m) 0 0) 2
      ((48 + c : Nat) : Int)) (ip + 1) o
  rw [Function.update_same,
    show (((48 + c : Nat) : Int) - ((48 : Nat) : Int)) % 256
      = ((c : Nat) : Int) from by push_cast; omega] at h3
  have h4 := bs_multiplyA inp 2 2 3 4 5 (by omega) (by omega) (by omega)
    (by omega) (by omega) (by omega) c (m % 256) (by omega) (by omega)
    (Function.update (Function.update (Function.update (mainTape m) 0 0) 2
      ((48 + c : Nat) : Int)) 2 ((c : Nat) : Int)) (ip + 1) o
    (by rw [Function.update_same])
    (by rw [Function.update_noteq (by omega : (3 : Nat) ≠ 2),
      Function.update_noteq (by omega : (3 : Nat) ≠ 2),
      Function.update_noteq (by omega : (3 : Nat) ≠ 0)]
        simp [mainTape])
    (by rw [Function.update_noteq (by omega : (4 : Nat) ≠ 2),
      Function.update_noteq (by omega : (4 : Nat) ≠ 2),
      Function.update_noteq (by omega : (4 : Nat) ≠ 0)]
        simp [mainTape])
    (by rw [Function.update_noteq (by omega : (5 : Nat) ≠ 2),
      Function.update_noteq (by omega : (5 : Nat) ≠ 2),
      Function.update_noteq (by omega : (5 : Nat) ≠ 0)]
        simp [mainTape])
  have h5 := bs_printA inp 2 4 7 (c * (m % 256)) (by omega)
    (Or.inl (by omega))
    (Function.update (Function.update (Function.update (Function.update
      (Function.update (mainTape m) 0 0) 2 ((48 + c : Nat) : Int)) 2
      ((c : Nat) : Int)) 4 ((c * (m % 256) : Nat) : Int)) 2 0) (ip + 1) o
    (by rw [Function.update_noteq (by omega : (4 : Nat) ≠ 2),
      Function.update_same])
    (by intro k hk
        rw [Function.update_noteq (by omega : 7 + k ≠ 2),
          Function.update_noteq (by omega : 7 + k ≠ 4),
          Function.update_noteq (by omega : 7 + k ≠ 2),
          Function.update_noteq (by omega : 7 + k ≠ 2),
          Function.update_noteq (by omega : 7 + k ≠ 0)]
        simp only [mainTape]
        split_ifs <;> first | rfl | omega)
  rw [show (fun x => if x = 4 ∨ (7 ≤ x ∧ x ≤ 7 + 13) then (0 : Int) else
      (Function.update (Function.update (Function.update (Function.update
        (Function.update (mainTape m) 0 0) 2 ((48 + c : Nat) : Int)) 2
        ((c : Nat) : Int)) 4 ((c * (m % 256) : Nat) : Int)) 2 0) x)
    = exitTape m from by
      funext x
      simp only [exitTape, mainTape, Function.update_apply]
      split_ifs <;> first | rfl | omega] at h5
  have h6 := bs_incA inp 19 3 1 (by omega) (exitTape m) (ip + 1)
    (o ++ decAscii (c * (m % 256)))
  rw [show exitTape m 3 = ((m % 256 : Nat) : Int) from by simp [exitTape],
    show (((m % 256 : Nat) : Int) + ((1 : Nat) : Int)) % 256
      = (((m + 1) % 256 : Nat) : Int) from by push_cast; omega,
    show Function.update (exitTape m) 3 (((m + 1) % 256 : Nat) : Int)
      = exitTape (m + 1) from by
      funext x
      simp only [exitTape, Function.update_apply]
      split_ifs <;> first | rfl | omega] at h6
  have h7 : BigStep 256 inp (readA 3 1)
      ⟨exitTape (m + 1), 3, ip + 1, o ++ decAscii (c * (m % 256))⟩
      ⟨Function.update (exitTape (m + 1)) 1 (10 : Int), 1, ip + 2,
        o ++ decAscii (c * (m % 256))⟩ := by
    have h := bs_readA_more inp 3 1 (exitTape (m + 1)) (ip + 1)
      (o ++ decAscii (c * (m % 256))) hip
    rwa [hb2] at h
  have h8 := bs_decA inp 1 1 32 (by omega)
    (Function.update (exitTape (m + 1)) 1 (10 : Int)) (ip + 2)
    (o ++ decAscii (c * (m % 256)))
  rw [Function.update_same,
    show ((10 : Int) - ((32 : Nat) : Int)) % 256 = (234 : Int)
      from by norm_num] at h8
  have h9 := bs_incA_one inp 1 6
    (Function.update (Function.update (exitTape (m + 1)) 1 (10 : Int)) 1
      (234 : Int)) (ip + 2) (o ++ decAscii (c * (m % 256)))
    (by rw [Function.update_noteq (by omega : (6 : Nat) ≠ 1),
      Function.update_noteq (by omega : (6 : Nat) ≠ 1)]
        simp [exitTape])
  have hsep1 : BigStep 256 inp genSep1
      ⟨Function.update (Function.update (Function.update (exitTape (m + 1))
        1 (10 : Int)) 1 (234 : Int)) 6 1, 1, ip + 2,
        o ++ decAscii (c * (m % 256))⟩
      ⟨Function.update (Function.update (Function.update (Function.update
        (Function.update (Function.update (Function.update (exitTape (m + 1))
        1 (10 : Int)) 1 (234 : Int)) 6 1) 6 0) 1 0) 1 (10 : Int)) 1 0, 1,
        ip + 2, (o ++ decAscii (c * (m % 256))) ++ [(10 : Int)]⟩ := by
    have g1 := bs_decA_one inp 1 6
      (Function.update (Function.update (Function.update (exitTape (m + 1))
        1 (10 : Int)) 1 (234 : Int)) 6 1) (ip + 2)
      (o ++ decAscii (c * (m % 256))) (by rw [Function.update_same])
    have g2 := bs_clearA inp 6 1 234 (by omega)
      (Function.update (Function.update (Function.update (Function.update
        (exitTape (m + 1)) 1 (10 : Int)) 1 (234 : Int)) 6 1) 6 0) (ip + 2)
      (o ++ decAscii (c * (m % 256)))
      (by rw [Function.update_noteq (by omega : (1 : Nat) ≠ 6),
        Function.update_noteq (by omega : (1 : Nat) ≠ 6),
        Function.update_same]
          norm_num)
    have g3 := bs_incA inp 1 1 10 (by omega)
      (Function.update (Function.update (Function.update (Function.update
        (Function.update (exitTape (m + 1)) 1 (10 : Int)) 1 (234 : Int))
        6 1) 6 0) 1 0) (ip + 2) (o ++ decAscii (c * (m % 256)))
    rw [Function.update_same,
      show ((0 : Int) + ((10 : Nat) : Int)) % 256 = (10 : Int)
        from by norm_num] at g3
    have g4 := bs_writeA inp 1 1
      (Function.update (Function.update (Function.update (Function.update
        (Function.update (Function.update (exitTape (m + 1)) 1 (10 : Int))
        1 (234 : Int)) 6 1) 6 0) 1 0) 1 (10 : Int)) (ip + 2)
      (o ++ decAscii (c * (m % 256)))
    rw [Function.update_same] at g4
    have g5 := bs_clearA inp 1 1 10 (by omega)
      (Function.update (Function.update (Function.update (Function.update
        (Function.update (Function.update (exitTape (m + 1)) 1 (10 : Int))
        1 (234 : Int)) 6 1) 6 0) 1 0) 1 (10 : Int)) (ip + 2)
      ((o ++ decAscii (c * (m % 256))) ++ [(10 : Int)])
      (by rw [Function.update_same]; norm_num)
    exact .seq g1 (.seq g2 (.seq g3 (.seq g4 g5)))
  have h10 : BigStep 256 inp (.seq (aMoves 6 1) (loopA 1 genSep1 1))
      ⟨Function.update (Function.update (Function.update (exitTape (m + 1))
        1 (10 : Int)) 1 (234 : Int)) 6 1, 6, ip + 2,
        o ++ decAscii (c * (m % 256))⟩
      ⟨Function.update (Function.update (Function.update (Function.update
        (Function.update (Function.update (Function.update (exitTape (m + 1))
        1 (10 : Int)) 1 (234 : Int)) 6 1) 6 0) 1 0) 1 (10 : Int)) 1 0, 1,
        ip + 2, (o ++ decAscii (c * (m % 256))) ++ [(10 : Int)]⟩ := by
    refine .seq (bs_moves 256 inp 6 1 _ (ip + 2) _) ?_
    refine BigStep.loopSucc (by
      show Function.update (Function.update (Function.update
        (exitTape (m + 1)) 1 (10 : Int)) 1 (234 : Int)) 6 1 1 ≠ 0
      rw [Function.update_noteq (by omega : (1 : Nat) ≠ 6),
        Function.update_same]
      norm_num) ?_ (.loopZero _ ?_)
    · exact .seq hsep1 (bs_moves 256 inp 1 1 _ (ip + 2) _)
    · show Function.update (Function.update (Function.update (Function.update
        (Function.update (Function.update (Function.update (exitTape (m + 1))
        1 (10 : Int)) 1 (234 : Int)) 6 1) 6 0) 1 0) 1 (10 : Int)) 1 0 1 = 0
      rw [Function.update_same]
  have h11 : BigStep 256 inp (.seq (aMoves 1 6) (loopA 6 genSep2 1))
      ⟨Function.update (Function.update (Function.update (Function.update
        (Function.update (Function.update (Function.update (exitTape (m + 1))
        1 (10 : Int)) 1 (234 : Int)) 6 1) 6 0) 1 0) 1 (10 : Int)) 1 0, 1,
        ip + 2, (o ++ decAscii (c * (m % 256))) ++ [(10 : Int)]⟩
      ⟨exitTape (m + 1), 6, ip + 2,
        (o ++ decAscii (c * (m % 256))) ++ [(10 : Int)]⟩ := by
    refine .seq (bs_moves 256 inp 1 6 _ (ip + 2) _) ?_
    rw [show Function.update (Function.update (Function.update
        (Function.update (Function.update (Function.update (Function.update
        (exitTape (m + 1))
        1 (10 : Int)) 1 (234 : Int)) 6 1) 6 0) 1 0) 1 (10 : Int)) 1 0
      = exitTape (m + 1) from by
      funext x
      simp only [exitTape, Function.update_apply]
      split_ifs <;> first | rfl | omega]
    exact BigStep.loopZero _ (by simp [exitTape])
  exact .seq
    (.seq h1 (.seq h2 (.seq h3 (.seq h4 (.seq h5 (.seq h6 (.seq h7
      (.seq h8 (.seq h9 (.seq h10 h11))))))))))
    (bs_moves 256 inp 6 0 _ (ip + 2) _)

theorem get_of_drop (l t : List Int) (ip : Nat) (h : l.drop ip = t) (j : Nat)
    (hnj : ip + j < l.length) (hj : j < t.length) :
    l.get ⟨ip + j, hnj⟩ = t.get ⟨j, hj⟩ := by
  subst h
  rw [List.get_eq_getElem, List.get_eq_getElem, List.getElem_drop]

/-- The main derivative loop: one iteration per remaining digit, printing
the products separated by spaces and finishing with a newline. -/
theorem bs_mainLoop (inp : List Int) :
    ∀ (ds : List Nat) (m ip : Nat) (o : List Int), ds ≠ [] →
      (∀ j, j < ds.length → ds.getD j 0 ≤ 9) →
      (∀ j, j < ds.length → ds.getD j 0 * ((m + j) % 256) ≤ 255) →
      inp.drop ip = encTail ds →
      BigStep 256 inp (loopA 0 genLoopBody 6)
        ⟨mainTape m, 0, ip, o⟩
        ⟨exitTape (m + ds.length), 0, ip + 2 * ds.length,
          o ++ outTail ds m⟩ := by
  intro ds
  induction ds with
  | nil => intro m ip o hne _ _ _; exact absurd rfl hne
  | cons c rest ih =>
    intro m ip o _ hd hp hdrop
    have hlen : inp.length - ip = (encTail (c :: rest)).length := by
      rw [← hdrop, List.length_drop]
    rw [encTail_length] at hlen
    have hc : c ≤ 9 := by have := hd 0 (by simp); simpa using this
    have hprod : c * (m % 256) ≤ 255 := by
      have := hp 0 (by simp); simpa using this
    rcases rest with _ | ⟨c', r⟩
    · -- last digit
      have hip : ip + 1 < inp.length := by simp at hlen; omega
      have hb1 : inp.get ⟨ip, Nat.lt_of_succ_lt hip⟩
          = ((48 + c : Nat) : Int) := by
        have h := get_of_drop inp (encTail [c]) ip hdrop 0 (by omega)
          (by rw [encTail_length]; omega)
        exact h
      have hb2 : inp.get ⟨ip + 1, hip⟩ = (10 : Int) := by
        have h := get_of_drop inp (encTail [c]) ip hdrop 1 (by omega)
          (by rw [encTail_length]; omega)
        exact h
      rw [show o ++ outTail [c] m
        = (o ++ decAscii (c * (m % 256))) ++ [(10 : Int)] from by
          simp [outTail]]
      exact BigStep.loopSucc (by show mainTape m 0 ≠ 0; simp [mainTape])
        (bs_iter_last inp m c ip o hc hprod hip hb1 hb2)
        (.loopZero _ (by show exitTape (m + 1) 0 = 0; simp [exitTape]))
    · -- more digits follow
      have hip : ip + 1 < inp.length := by simp at hlen; omega
      have hb1 : inp.get ⟨ip, Nat.lt_of_succ_lt hip⟩
          = ((48 + c : Nat) : Int) := by
        have h := get_of_drop inp (encTail (c :: c' :: r)) ip hdrop 0
          (by omega) (by rw [encTail_length]; simp)
        exact h
      have hb2 : inp.get ⟨ip + 1, hip⟩ = (32 : Int) := by
        have h := get_of_drop inp (encTail (c :: c' :: r)) ip hdrop 1
          (by omega) (by rw [encTail_length]; simp; omega)
        exact h
      have hdrop' : inp.drop (ip + 2) = encTail (c' :: r) := by
        rw [← List.drop_drop, hdrop]
        rfl
      have hd' : ∀ j, j < (c' :: r).length → (c' :: r).getD j 0 ≤ 9 := by
        intro j hj
        have := hd (j + 1) (by simp at hj ⊢; omega)
        simpa using this
      have hp' : ∀ j, j < (c' :: r).length →
          (c' :: r).getD j 0 * ((m + 1 + j) % 256) ≤ 255 := by
        intro j hj
        have := hp (j + 1) (by simp at hj ⊢; omega)
        rw [show m + 1 + j = m + (j + 1) from by omega]
        simpa using this
      rw [show m + (c :: c' :: r).length = m + 1 + (c' :: r).length from by
          simp; omega,
        show ip + 2 * (c :: c' :: r).length
          = ip + 2 + 2 * (c' :: r).length from by simp; omega,
        show o ++ outTail (c :: c' :: r) m
          = ((o ++ decAscii (c * (m % 256))) ++ [(32 : Int)])
              ++ outTail (c' :: r) (m + 1) from by
          simp [outTail, List.append_assoc]]
      exact BigStep.loopSucc (by show mainTape m 0 ≠ 0; simp [mainTape])
        (bs_iter_cont inp m c ip o hc hprod hip hb1 hb2)
        (ih (m + 1) (ip + 2) ((o ++ decAscii (c * (m % 256))) ++ [(32 : Int)])
          (by simp) hd' hp' hdrop')

/-- The generated program on a polynomial input with at least one
non-constant coefficient: discards the constant, then runs the main loop. -/
theorem bs_gen_poly (c0 : Nat) (hc0 : c0 ≤ 9) (ds : List Nat) (hne : ds ≠ [])
    (hd : ∀ j, j < ds.length → ds.getD j 0 ≤ 9)
    (hp : ∀ j, j < ds.length → ds.getD j 0 * ((1 + j) % 256) ≤ 255) :
    BigStep 256 (encTail (c0 :: ds)) genAst ⟨fun _ => 0, 0, 0, []⟩
      ⟨exitTape (1 + ds.length), 0, 2 + 2 * ds.length, outTail ds 1⟩ := by
  rcases ds with _ | ⟨d, ds'⟩
  · exact absurd rfl hne
  have hlen : 4 ≤ (encTail (c0 :: d :: ds')).length := by
    rw [encTail_length]; simp; omega
  have h0 : (0 : Nat) < (encTail (c0 :: d :: ds')).length := by omega
  have h1 : (1 : Nat) < (encTail (c0 :: d :: ds')).length := by omega
  have hb0 : (encTail (c0 :: d :: ds')).get ⟨0, h0⟩
      = ((48 + c0 : Nat) : Int) := rfl
  have hb1 : (encTail (c0 :: d :: ds')).get ⟨1, h1⟩ = (32 : Int) := rfl
  have s1 : BigStep 256 (encTail (c0 :: d :: ds')) (readA 0 0)
      ⟨fun _ => 0, 0, 0, []⟩
      ⟨Function.update (fun _ => (0 : Int)) 0 ((48 + c0 : Nat) : Int),
        0, 1, []⟩ := by
    have h := bs_readA_more (encTail (c0 :: d :: ds')) 0 0
      (fun _ => (0 : Int)) 0 [] h0
    rwa [hb0] at h
  have s2 := bs_clearA (encTail (c0 :: d :: ds')) 0 0 (48 + c0) (by omega)
    (Function.update (fun _ => (0 : Int)) 0 ((48 + c0 : Nat) : Int)) 1 []
    (by rw [Function.update_same])
  have s3 : BigStep 256 (encTail (c0 :: d :: ds')) (readA 0 0)
      ⟨Function.update (Function.update (fun _ => (0 : Int)) 0
        ((48 + c0 : Nat) : Int)) 0 0, 0, 1, []⟩
      ⟨Function.update (Function.update (Function.update (fun _ => (0 : Int))
        0 ((48 + c0 : Nat) : Int)) 0 0) 0 (32 : Int), 0, 2, []⟩ := by
    have h := bs_readA_more (encTail (c0 :: d :: ds')) 0 0
      (Function.update (Function.update (fun _ => (0 : Int)) 0
        ((48 + c0 : Nat) : Int)) 0 0) 1 [] h1
    rwa [hb1] at h
  have s4 := bs_decA (encTail (c0 :: d :: ds')) 0 0 32 (by omega)
    (Function.update (Function.update (Function.update (fun _ => (0 : Int))
      0 ((48 + c0 : Nat) : Int)) 0 0) 0 (32 : Int)) 2 []
  rw [Function.update_same,
    show ((32 : Int) - ((32 : Nat) : Int)) % 256 = 0 from by norm_num] at s4
  have s5 := bs_incA_one (encTail (c0 :: d :: ds')) 0 1
    (Function.update (Function.update (Function.update (Function.update
      (fun _ => (0 : Int)) 0 ((48 + c0 : Nat) : Int)) 0 0) 0 (32 : Int))
      0 0) 2 []
    (by rw [Function.update_noteq (by omega : (1 : Nat) ≠ 0),
      Function.update_noteq (by omega : (1 : Nat) ≠ 0),
      Function.update_noteq (by omega : (1 : Nat) ≠ 0),
      Function.update_noteq (by omega : (1 : Nat) ≠ 0)])
  have s6 : BigStep 256 (encTail (c0 :: d :: ds'))
      (.seq (aMoves 1 0) (loopA 0 (.seq (decA 0 1 1) (clearA 1 0)) 0))
      ⟨Function.update (Function.update (Function.update (Function.update
        (Function.update (fun _ => (0 : Int)) 0 ((48 + c0 : Nat) : Int))
        0 0) 0 (32 : Int)) 0 0) 1 1, 1, 2, []⟩
      ⟨Function.update (Function.update (Function.update (Function.update
        (Function.update (fun _ => (0 : Int)) 0 ((48 + c0 : Nat) : Int))
        0 0) 0 (32 : Int)) 0 0) 1 1, 0, 2, []⟩ := by
    refine .seq (bs_moves 256 (encTail (c0 :: d :: ds')) 1 0 _ 2 []) ?_
    exact BigStep.loopZero _ (by
      show Function.update (Function.update (Function.update (Function.update
        (Function.update (fun _ => (0 : Int)) 0 ((48 + c0 : Nat) : Int))
        0 0) 0 (32 : Int)) 0 0) 1 1 0 = 0
      rw [Function.update_noteq (by omega : (0 : Nat) ≠ 1),
        Function.update_same])
  have s7 := bs_incA_one (encTail (c0 :: d :: ds')) 0 6
    (Function.update (Function.update (Function.update (Function.update
      (Function.update (fun _ => (0 : Int)) 0 ((48 + c0 : Nat) : Int))
      0 0) 0 (32 : Int)) 0 0) 1 1) 2 []
    (by simp only [Function.update_apply]
        split_ifs <;> first | rfl | omega)
  have s8 : BigStep 256 (encTail (c0 :: d :: ds'))
      (.seq (aMoves 6 1)
        (loopA 1 (.seq (decA 1 6 1) (.seq (decA 6 1 1) (incA 1 0 1))) 0))
      ⟨Function.update (Function.update (Function.update (Function.update
        (Function.update (Function.update (fun _ => (0 : Int)) 0
        ((48 + c0 : Nat) : Int)) 0 0) 0 (32 : Int)) 0 0) 1 1) 6 1,
        6, 2, []⟩
      ⟨fun x => if x = 0 then 1 else 0, 1, 2, []⟩ := by
    refine .seq (bs_moves 256 (encTail (c0 :: d :: ds')) 6 1 _ 2 []) ?_
    have b1 := bs_decA_one (encTail (c0 :: d :: ds')) 1 6
      (Function.update (Function.update (Function.update (Function.update
        (Function.update (Function.update (fun _ => (0 : Int)) 0
        ((48 + c0 : Nat) : Int)) 0 0) 0 (32 : Int)) 0 0) 1 1) 6 1) 2 []
      (by rw [Function.update_same])
    have b2 := bs_decA_one (encTail (c0 :: d :: ds')) 6 1
      (Function.update (Function.update (Function.update (Function.update
        (Function.update (Function.update (Function.update
        (fun _ => (0 : Int)) 0 ((48 + c0 : Nat) : Int)) 0 0) 0 (32 : Int))
        0 0) 1 1) 6 1) 6 0) 2 []
      (by rw [Function.update_noteq (by omega : (1 : Nat) ≠ 6),
        Function.update_noteq (by omega : (1 : Nat) ≠ 6),
        Function.update_same])
    have b3 := bs_incA_one (encTail (c0 :: d :: ds')) 1 0
      (Function.update (Function.update (Function.update (Function.update
        (Function.update (Function.update (Function.update (Function.update
        (fun _ => (0 : Int)) 0 ((48 + c0 : Nat) : Int)) 0 0) 0 (32 : Int))
        0 0) 1 1) 6 1) 6 0) 1 0) 2 []
      (by simp only [Function.update_apply]
          split_ifs <;> first | rfl | omega)
    have hbody : BigStep 256 (encTail (c0 :: d :: ds'))
        (.seq (.seq (decA 1 6 1) (.seq (decA 6 1 1) (incA 1 0 1)))
          (aMoves 0 1))
        ⟨Function.update (Function.update (Function.update (Function.update
          (Function.update (Function.update (fun _ => (0 : Int)) 0
          ((48 + c0 : Nat) : Int)) 0 0) 0 (32 : Int)) 0 0) 1 1) 6 1,
          1, 2, []⟩
        ⟨Function.update (Function.update (Function.update (Function.update
          (Function.update (Function.update (Function.update (Function.update
          (Function.update (fun _ => (0 : Int)) 0
          ((48 + c0 : Nat) : Int)) 0 0) 0 (32 : Int)) 0 0) 1 1) 6 1) 6 0)
          1 0) 0 1, 1, 2, []⟩ :=
      .seq (.seq b1 (.seq b2 b3))
        (bs_moves 256 (encTail (c0 :: d :: ds')) 0 1 _ 2 [])
    refine BigStep.loopSucc (by
      show Function.update (Function.update (Function.update (Function.update
        (Function.update (Function.update (fun _ => (0 : Int)) 0
        ((48 + c0 : Nat) : Int)) 0 0) 0 (32 : Int)) 0 0) 1 1) 6 1 1 ≠ 0
      rw [Function.update_noteq (by omega : (1 : Nat) ≠ 6),
        Function.update_same]
      norm_num) hbody ?_
    rw [show (Function.update (Function.update (Function.update
      (Function.update (Function.update (Function.update (Function.update
      (Function.update (Function.update (fun _ => (0 : Int)) 0
      ((48 + c0 : Nat) : Int)) 0 0) 0 (32 : Int)) 0 0) 1 1) 6 1) 6 0)
      1 0) 0 1)
      = (fun x => if x = 0 then (1 : Int) else 0) from by
      funext x
      simp only [Function.update_apply]
      split_ifs <;> first | rfl | omega]
    exact BigStep.loopZero _ (by simp)
  have s9 : BigStep 256 (encTail (c0 :: d :: ds'))
      (.seq (aMoves 1 6) (loopA 6 genConstOut 1))
      ⟨fun x => if x = 0 then 1 else 0, 1, 2, []⟩
      ⟨fun x => if x = 0 then 1 else 0, 6, 2, []⟩ := by
    refine .seq (bs_moves 256 (encTail (c0 :: d :: ds')) 1 6 _ 2 []) ?_
    exact BigStep.loopZero _ (by simp)
  have s10 := bs_incA_one (encTail (c0 :: d :: ds')) 6 3
    (fun x => if x = 0 then (1 : Int) else 0) 2 [] (by simp)
  rw [show Function.update (fun x => if x = 0 then (1 : Int) else 0) 3 1
    = mainTape 1 from by
      funext x
      simp only [mainTape, Function.update_apply]
      split_ifs <;> first | rfl | omega] at s10
  have s11 : BigStep 256 (encTail (c0 :: d :: ds'))
      (.seq (aMoves 3 0) (loopA 0 genLoopBody 6))
      ⟨mainTape 1, 3, 2, []⟩
      ⟨exitTape (1 + (d :: ds').length), 0, 2 + 2 * (d :: ds').length,
        outTail (d :: ds') 1⟩ := by
    refine .seq (bs_moves 256 (encTail (c0 :: d :: ds')) 3 0 _ 2 []) ?_
    have h := bs_mainLoop (encTail (c0 :: d :: ds')) (d :: ds') 1 2 []
      (by simp) hd hp (by rfl)
    simpa using h
  exact .seq s1 (.seq s2 (.seq s3 (.seq s4 (.seq s5 (.seq s6 (.seq s7
    (.seq s8 (.seq s9 (.seq s10 s11)))))))))

/-- The generated program on a bare-constant input: prints `"0\n"` after
consuming only the constant digit and its terminator, and never enters the
main loop. -/
theorem bs_gen_const (c0 : Nat) (hc0 : c0 ≤ 9) (rest : List Int) :
    BigStep 256 (((48 + c0 : Nat) : Int) :: (10 : Int) :: rest) genAst
      ⟨fun _ => 0, 0, 0, []⟩
      ⟨exitTape 1, 0, 2, [(48 : Int), (10 : Int)]⟩ := by
  have hlen : (2 : Nat) ≤ (((48 + c0 : Nat) : Int) :: (10 : Int)
      :: rest).length := by simp
  have h0 : (0 : Nat) < (((48 + c0 : Nat) : Int) :: (10 : Int)
      :: rest).length := by omega
  have h1 : (1 : Nat) < (((48 + c0 : Nat) : Int) :: (10 : Int)
      :: rest).length := by omega
  have s1 : BigStep 256 (((48 + c0 : Nat) : Int) :: (10 : Int) :: rest)
      (readA 0 0) ⟨fun _ => 0, 0, 0, []⟩
      ⟨Function.update (fun _ => (0 : Int)) 0 ((48 + c0 : Nat) : Int),
        0, 1, []⟩ := by
    have h := bs_readA_more (((48 + c0 : Nat) : Int) :: (10 : Int) :: rest)
      0 0 (fun _ => (0 : Int)) 0 [] h0
    exact h
  have s2 := bs_clearA (((48 + c0 : Nat) : Int) :: (10 : Int) :: rest)
    0 0 (48 + c0) (by omega)
    (Function.update (fun _ => (0 : Int)) 0 ((48 + c0 : Nat) : Int)) 1 []
    (by rw [Function.update_same])
  have s3 : BigStep 256 (((48 + c0 : Nat) : Int) :: (10 : Int) :: rest)
      (readA 0 0)
      ⟨Function.update (Function.update (fun _ => (0 : Int)) 0
        ((48 + c0 : Nat) : Int)) 0 0, 0, 1, []⟩
      ⟨Function.update (Function.update (Function.update (fun _ => (0 : Int))
        0 ((48 + c0 : Nat) : Int)) 0 0) 0 (10 : Int), 0, 2, []⟩ := by
    have h := bs_readA_more (((48 + c0 : Nat) : Int) :: (10 : Int) :: rest)
      0 0 (Function.update (Function.update (fun _ => (0 : Int)) 0
        ((48 + c0 : Nat) : Int)) 0 0) 1 [] h1
    exact h
  have s4 := bs_decA (((48 + c0 : Nat) : Int) :: (10 : Int) :: rest)
    0 0 32 (by omega)
    (Function.update (Function.update (Function.update (fun _ => (0 : Int))
      0 ((48 + c0 : Nat) : Int)) 0 0) 0 (10 : Int)) 2 []
  rw [Function.update_same,
    show ((10 : Int) - ((32 : Nat) : Int)) % 256 = (234 : Int)
      from by norm_num] at s4
  have s5 := bs_incA_one (((48 + c0 : Nat) : Int) :: (10 : Int) :: rest) 0 1
    (Function.update (Function.update (Function.update (Function.update
      (fun _ => (0 : Int)) 0 ((48 + c0 : Nat) : Int)) 0 0) 0 (10 : Int))
      0 (234 : Int)) 2 []
    (by rw [Function.update_noteq (by omega : (1 : Nat) ≠ 0),
      Function.update_noteq (by omega : (1 : Nat) ≠ 0),
      Function.update_noteq (by omega : (1 : Nat) ≠ 0),
      Function.update_noteq (by omega : (1 : Nat) ≠ 0)])
  have s6 : BigStep 256 (((48 + c0 : Nat) : Int) :: (10 : Int) :: rest)
      (.seq (aMoves 1 0) (loopA 0 (.seq (decA 0 1 1) (clearA 1 0)) 0))
      ⟨Function.update (Function.update (Function.update (Function.update
        (Function.update (fun _ => (0 : Int)) 0 ((48 + c0 : Nat) : Int))
        0 0) 0 (10 : Int)) 0 (234 : Int)) 1 1, 1, 2, []⟩
      ⟨fun _ => 0, 0, 2, []⟩ := by
    refine .seq (bs_moves 256 (((48 + c0 : Nat) : Int) :: (10 : Int) :: rest)
      1 0 _ 2 []) ?_
    have b1 := bs_decA_one (((48 + c0 : Nat) : Int) :: (10 : Int) :: rest)
      0 1
      (Function.update (Function.update (Function.update (Function.update
        (Function.update (fun _ => (0 : Int)) 0 ((48 + c0 : Nat) : Int))
        0 0) 0 (10 : Int)) 0 (234 : Int)) 1 1) 2 []
      (by rw [Function.update_same])
    have b2 := bs_clearA (((48 + c0 : Nat) : Int) :: (10 : Int) :: rest)
      1 0 234 (by omega)
      (Function.update (Function.update (Function.update (Function.update
        (Function.update (Function.update (fun _ => (0 : Int)) 0
        ((48 + c0 : Nat) : Int)) 0 0) 0 (10 : Int)) 0 (234 : Int)) 1 1)
        1 0) 2 []
      (by rw [Function.update_noteq (by omega : (0 : Nat) ≠ 1),
        Function.update_noteq (by omega : (0 : Nat) ≠ 1),
        Function.update_same]
          norm_num)
    have hbody : BigStep 256 (((48 + c0 : Nat) : Int) :: (10 : Int) :: rest)
        (.seq (.seq (decA 0 1 1) (clearA 1 0)) (aMoves 0 0))
        ⟨Function.update (Function.update (Function.update (Function.update
          (Function.update (fun _ => (0 : Int)) 0 ((48 + c0 : Nat) : Int))
          0 0) 0 (10 : Int)) 0 (234 : Int)) 1 1, 0, 2, []⟩
        ⟨Function.update (Function.update (Function.update (Function.update
          (Function.update (Function.update (Function.update
          (fun _ => (0 : Int)) 0 ((48 + c0 : Nat) : Int)) 0 0) 0 (10 : Int))
          0 (234 : Int)) 1 1) 1 0) 0 0, 0, 2, []⟩ :=
      .seq (.seq b1 b2)
        (bs_moves 256 (((48 + c0 : Nat) : Int) :: (10 : Int) :: rest)
          0 0 _ 2 [])
    refine BigStep.loopSucc (by
      show Function.update (Function.update (Function.update (Function.update
        (Function.update (fun _ => (0 : Int)) 0 ((48 + c0 : Nat) : Int))
        0 0) 0 (10 : Int)) 0 (234 : Int)) 1 1 0 ≠ 0
      rw [Function.update_noteq (by omega : (0 : Nat) ≠ 1),
        Function.update_same]
      norm_num) hbody ?_
    rw [show (Function.update (Function.update (Function.update
      (Function.update (Function.update (Function.update (Function.update
      (fun _ => (0 : Int)) 0 ((48 + c0 : Nat) : Int)) 0 0) 0 (10 : Int))
      0 (234 : Int)) 1 1) 1 0) 0 0)
      = (fun _ => (0 : Int)) from by
      funext x
      simp only [Function.update_apply]
      split_ifs <;> rfl]
    exact BigStep.loopZero _ (by simp)
  have s7 := bs_incA_one (((48 + c0 : Nat) : Int) :: (10 : Int) :: rest) 0 6
    (fun _ => (0 : Int)) 2 [] rfl
  have s8 : BigStep 256 (((48 + c0 : Nat) : Int) :: (10 : Int) :: rest)
      (.seq (aMoves 6 1)
        (loopA 1 (.seq (decA 1 6 1) (.seq (decA 6 1 1) (incA 1 0 1))) 0))
      ⟨Function.update (fun _ => (0 : Int)) 6 1, 6, 2, []⟩
      ⟨Function.update (fun _ => (0 : Int)) 6 1, 1, 2, []⟩ := by
    refine .seq (bs_moves 256 (((48 + c0 : Nat) : Int) :: (10 : Int) :: rest)
      6 1 _ 2 []) ?_
    exact BigStep.loopZero _ (by
      show Function.update (fun _ => (0 : Int)) 6 1 1 = 0
      rw [Function.update_noteq (by omega : (1 : Nat) ≠ 6)])
  have s9 : BigStep 256 (((48 + c0 : Nat) : Int) :: (10 : Int) :: rest)
      (.seq (aMoves 1 6) (loopA 6 genConstOut 1))
      ⟨Function.update (fun _ => (0 : Int)) 6 1, 1, 2, []⟩
      ⟨fun _ => 0, 6, 2, [(48 : Int), (10 : Int)]⟩ := by
    refine .seq (bs_moves 256 (((48 + c0 : Nat) : Int) :: (10 : Int) :: rest)
      1 6 _ 2 []) ?_
    have c1 := bs_decA_one (((48 + c0 : Nat) : Int) :: (10 : Int) :: rest)
      6 6 (Function.update (fun _ => (0 : Int)) 6 1) 2 []
      (by rw [Function.update_same])
    have c2 := bs_incA (((48 + c0 : Nat) : Int) :: (10 : Int) :: rest)
      6 1 48 (by omega)
      (Function.update (Function.update (fun _ => (0 : Int)) 6 1) 6 0) 2 []
    rw [show (Function.update (Function.update (fun _ => (0 : Int)) 6 1)
        6 0) 1 = 0 from by
        rw [Function.update_noteq (by omega : (1 : Nat) ≠ 6),
          Function.update_noteq (by omega : (1 : Nat) ≠ 6)],
      show ((0 : Int) + ((48 : Nat) : Int)) % 256 = (48 : Int)
        from by norm_num] at c2
    have c3 := bs_writeA (((48 + c0 : Nat) : Int) :: (10 : Int) :: rest) 1 1
      (Function.update (Function.update (Function.update (fun _ => (0 : Int))
        6 1) 6 0) 1 (48 : Int)) 2 []
    rw [Function.update_same] at c3
    have c4 := bs_clearA (((48 + c0 : Nat) : Int) :: (10 : Int) :: rest)
      1 1 48 (by omega)
      (Function.update (Function.update (Function.update (fun _ => (0 : Int))
        6 1) 6 0) 1 (48 : Int)) 2 [(48 : Int)]
      (by rw [Function.update_same]; norm_num)
    have c5 := bs_incA (((48 + c0 : Nat) : Int) :: (10 : Int) :: rest)
      1 1 10 (by omega)
      (Function.update (Function.update (Function.update (Function.update
        (fun _ => (0 : Int)) 6 1) 6 0) 1 (48 : Int)) 1 0) 2 [(48 : Int)]
    rw [Function.update_same,
      show ((0 : Int) + ((10 : Nat) : Int)) % 256 = (10 : Int)
        from by norm_num] at c5
    have c6 := bs_writeA (((48 + c0 : Nat) : Int) :: (10 : Int) :: rest) 1 1
      (Function.update (Function.update (Function.update (Function.update
        (Function.update (fun _ => (0 : Int)) 6 1) 6 0) 1 (48 : Int)) 1 0)
        1 (10 : Int)) 2 [(48 : Int)]
    rw [Function.update_same] at c6
    have c7 := bs_clearA (((48 + c0 : Nat) : Int) :: (10 : Int) :: rest)
      1 1 10 (by omega)
      (Function.update (Function.update (Function.update (Function.update
        (Function.update (fun _ => (0 : Int)) 6 1) 6 0) 1 (48 : Int)) 1 0)
        1 (10 : Int)) 2 [(48 : Int), (10 : Int)]
      (by rw [Function.update_same]; norm_num)
    have hbody : BigStep 256 (((48 + c0 : Nat) : Int) :: (10 : Int) :: rest)
        (.seq genConstOut (aMoves 1 6))
        ⟨Function.update (fun _ => (0 : Int)) 6 1, 6, 2, []⟩
        ⟨Function.update (Function.update (Function.update (Function.update
          (Function.update (Function.update (fun _ => (0 : Int)) 6 1) 6 0)
          1 (48 : Int)) 1 0) 1 (10 : Int)) 1 0, 6, 2,
          [(48 : Int), (10 : Int)]⟩ :=
      .seq (.seq c1 (.seq c2 (.seq c3 (.seq c4 (.seq c5 (.seq c6 c7))))))
        (bs_moves 256 (((48 + c0 : Nat) : Int) :: (10 : Int) :: rest)
          1 6 _ 2 [(48 : Int), (10 : Int)])
    refine BigStep.loopSucc (by
      show Function.update (fun _ => (0 : Int)) 6 1 6 ≠ 0
      rw [Function.update_same]; norm_num) hbody ?_
    rw [show (Function.update (Function.update (Function.update
      (Function.update (Function.update (Function.update
      (fun _ => (0 : Int)) 6 1) 6 0) 1 (48 : Int)) 1 0) 1 (10 : Int)) 1 0)
      = (fun _ => (0 : Int)) from by
      funext x
      simp only [Function.update_apply]
      split_ifs <;> rfl]
    exact BigStep.loopZero _ (by simp)
  have s10 := bs_incA_one (((48 + c0 : Nat) : Int) :: (10 : Int) :: rest) 6 3
    (fun _ => (0 : Int)) 2 [(48 : Int), (10 : Int)] rfl
  rw [show Function.update (fun _ => (0 : Int)) 3 1 = exitTape 1 from by
      funext x
      simp only [exitTape, Function.update_apply]
      split_ifs <;> first | rfl | omega] at s10
  have s11 : BigStep 256 (((48 + c0 : Nat) : Int) :: (10 : Int) :: rest)
      (.seq (aMoves 3 0) (loopA 0 genLoopBody 6))
      ⟨exitTape 1, 3, 2, [(48 : Int), (10 : Int)]⟩
      ⟨exitTape 1, 0, 2, [(48 : Int), (10 : Int)]⟩ := by
    refine .seq (bs_moves 256 (((48 + c0 : Nat) : Int) :: (10 : Int) :: rest)
      3 0 _ 2 [(48 : Int), (10 : Int)]) ?_
    exact BigStep.loopZero _ (by
      show exitTape 1 0 = 0
      simp [exitTape])
  exact .seq s1 (.seq s2 (.seq s3 (.seq s4 (.seq s5 (.seq s6 (.seq s7
    (.seq s8 (.seq s9 (.seq s10 s11)))))))))

/-- A non-ISA character is a no-op: only the instruction pointer moves. -/
theorem machineStep_skip {ops : List Char} {tbl : Nat → Nat} {cs : Nat}
    {inp : List Int} {s : ExecState}
    (h1 : ops.getD s.ip ' ' ≠ '>') (h2 : ops.getD s.ip ' ' ≠ '<')
    (h3 : ops.getD s.ip ' ' ≠ '+') (h4 : ops.getD s.ip ' ' ≠ '-')
    (h5 : ops.getD s.ip ' ' ≠ '.') (h6 : ops.getD s.ip ' ' ≠ ',')
    (h7 : ops.getD s.ip ' ' ≠ '[') (h8 : ops.getD s.ip ' ' ≠ ']') :
    machineStep ops tbl cs inp s = .cont { s with ip := s.ip + 1 } := by
  simp only [List.getD_eq_getElem?_getD] at h1 h2 h3 h4 h5 h6 h7 h8
  simp [machineStep, h1, h2, h3, h4, h5, h6, h7, h8]

/-- One successful dispatch keeps every cell inside `[0, cellSize)`,
provided the cell size is positive and every input byte is in range
(`,` stores the raw byte). -/
theorem machineStep_range (ops : List Char) (tbl : Nat → Nat) (cs : Nat)
    (inp : List Int) (hcs : 0 < cs)
    (hinp : ∀ b ∈ inp, 0 ≤ b ∧ b < (cs : Int)) (s s' : ExecState)
    (hs : ∀ x, 0 ≤ s.tape x ∧ s.tape x < (cs : Int))
    (h : machineStep ops tbl cs inp s = .cont s') :
    ∀ x, 0 ≤ s'.tape x ∧ s'.tape x < (cs : Int) := by
  have hcs' : (0 : Int) < (cs : Int) := by exact_mod_cast hcs
  by_cases h1 : ops.getD s.ip ' ' = '>'
  · rw [machineStep_right h1] at h
    injection h with h; subst h; exact hs
  by_cases h2 : ops.getD s.ip ' ' = '<'
  · by_cases hp : s.ptr = 0
    · rw [machineStep_left_err h2 hp] at h
      exact absurd h (by simp)
    · rw [machineStep_left h2 hp] at h
      injection h with h; subst h; exact hs
  by_cases h3 : ops.getD s.ip ' ' = '+'
  · rw [machineStep_inc h3] at h
    injection h with h; subst h
    intro x
    simp only [Function.update_apply]
    split_ifs
    · exact ⟨Int.emod_nonneg _ (by omega), Int.emod_lt_of_pos _ hcs'⟩
    · exact hs x
  by_cases h4 : ops.getD s.ip ' ' = '-'
  · rw [machineStep_dec h4] at h
    injection h with h; subst h
    intro x
    simp only [Function.update_apply]
    split_ifs
    · exact ⟨Int.emod_nonneg _ (by omega), Int.emod_lt_of_pos _ hcs'⟩
    · exact hs x
  by_cases h5 : ops.getD s.ip ' ' = '.'
  · rw [machineStep_write h5] at h
    injection h with h; subst h; exact hs
  by_cases h6 : ops.getD s.ip ' ' = ','
  · by_cases hlt : s.inputPos < inp.length
    · rw [machineStep_read_more h6 hlt] at h
      injection h with h; subst h
      intro x
      simp only [Function.update_apply]
      split_ifs
      · exact hinp _ (List.get_mem inp _ _)
      · exact hs x
    · rw [machineStep_read_eof h6 hlt] at h
      injection h with h; subst h
      intro x
      simp only [Function.update_apply]
      split_ifs
      · exact ⟨le_refl 0, hcs'⟩
      · exact hs x
  by_cases h7 : ops.getD s.ip ' ' = '['
  · rw [machineStep_open h7] at h
    injection h with h; subst h; exact hs
  by_cases h8 : ops.getD s.ip ' ' = ']'
  · rw [machineStep_close h8] at h
    injection h with h; subst h; exact hs
  rw [machineStep_skip h1 h2 h3 h4 h5 h6 h7 h8] at h
  injection h with h; subst h; exact hs

theorem stepN_range (ops : List Char) (tbl : Nat → Nat) (cs : Nat)
    (inp : List Int) (hcs : 0 < cs)
    (hinp : ∀ b ∈ inp, 0 ≤ b ∧ b < (cs : Int)) :
    ∀ (n : Nat) (s s' : ExecState),
      (∀ x, 0 ≤ s.tape x ∧ s.tape x < (cs : Int)) →
      stepN ops tbl cs inp n s = some s' →
      ∀ x, 0 ≤ s'.tape x ∧ s'.tape x < (cs : Int) := by
  intro n
  induction n with
  | zero =>
    intro s s' hs h
    simp only [stepN] at h
    injection h with h
    subst h
    exact hs
  | succ n ih =>
    intro s s' hs h
    simp only [stepN] at h
    split_ifs at h
    rcases hms : machineStep ops tbl cs inp s with s₁ | _ <;> rw [hms] at h
    · exact ih s₁ s' (machineStep_range ops tbl cs inp hcs hinp s s₁ hs hms) h
    · exact absurd h (by simp)

/-- Specification-side bracket balance: a counter scan, `true` iff every
`]` has a matching earlier `[` and no `[` is left open. -/
def balAux : List Char → Nat → Bool
  | [], k => k == 0
  | c :: rest, k =>
    if c = '[' then balAux rest (k + 1)
    else if c = ']' then
      match k with
      | 0 => false
      | k' + 1 => balAux rest k'
    else balAux rest k

def BracketBalanced (ops : List Char) : Prop := balAux ops 0 = true

/-- The scan succeeds with an empty final stack exactly on balanced
streams; on unbalanced ones it either reports an unmatched `]` or leaves
an open position on the stack. -/
theorem scanAux_balAux :
    ∀ (ops : List Char) (i : Nat) (st : List Nat) (tbl : Nat → Nat),
      (balAux ops st.length = true →
        ∃ tbl', scanAux ops i st tbl = .ok (tbl', []))
      ∧ (balAux ops st.length = false →
        (∃ p, scanAux ops i st tbl = .error p)
        ∨ ∃ tbl' j st', scanAux ops i st tbl = .ok (tbl', j :: st')) := by
  intro ops
  induction ops with
  | nil =>
    intro i st tbl
    constructor
    · intro hb
      rcases st with _ | ⟨j, st'⟩
      · exact ⟨tbl, rfl⟩
      · simp [balAux] at hb
    · intro hb
      rcases st with _ | ⟨j, st'⟩
      · simp [balAux] at hb
      · exact Or.inr ⟨tbl, j, st', rfl⟩
  | cons c rest ih =>
    intro i st tbl
    by_cases hc1 : c = '['
    · subst hc1
      constructor
      · intro hb
        rw [show balAux ('[' :: rest) st.length
          = balAux rest (st.length + 1) from by simp [balAux]] at hb
        have h := (ih (i + 1) (i :: st) tbl).1
          (by simpa using hb)
        rw [show scanAux ('[' :: rest) i st tbl
          = scanAux rest (i + 1) (i :: st) tbl from by simp [scanAux]]
        exact h
      · intro hb
        rw [show balAux ('[' :: rest) st.length
          = balAux rest (st.length + 1) from by simp [balAux]] at hb
        have h := (ih (i + 1) (i :: st) tbl).2
          (by simpa using hb)
        rw [show scanAux ('[' :: rest) i st tbl
          = scanAux rest (i + 1) (i :: st) tbl from by simp [scanAux]]
        exact h
    · by_cases hc2 : c = ']'
      · subst hc2
        rcases st with _ | ⟨j, st'⟩
        · constructor
          · intro hb; simp [balAux] at hb
          · intro _
            exact Or.inl ⟨i, by simp [scanAux]⟩
        · have hscan : scanAux (']' :: rest) i (j :: st') tbl
            = scanAux rest (i + 1) st'
                (Function.update (Function.update tbl j i) i j) := by
            simp [scanAux]
          have hbal : balAux (']' :: rest) (j :: st').length
              = balAux rest st'.length := by
            simp [balAux]
          constructor
          · intro hb
            rw [hscan]
            exact (ih (i + 1) st' _).1 (by rw [← hbal]; exact hb)
          · intro hb
            rw [hscan]
            exact (ih (i + 1) st' _).2 (by rw [← hbal]; exact hb)
      · have hscan : scanAux (c :: rest) i st tbl
            = scanAux rest (i + 1) st tbl := by
          simp [scanAux, hc1, hc2]
        have hbal : balAux (c :: rest) st.length = balAux rest st.length := by
          simp [balAux, hc1, hc2]
        constructor
        · intro hb
          rw [hscan]
          exact (ih (i + 1) st tbl).1 (by rw [← hbal]; exact hb)
        · intro hb
          rw [hscan]
          exact (ih (i + 1) st tbl).2 (by rw [← hbal]; exact hb)

/-- An unbalanced stream makes `scanBrackets` fail with one of the two
structural errors. -/
theorem scanBrackets_unbalanced (ops : List Char)
    (h : ¬ BracketBalanced ops) :
    ∃ pos, scanBrackets ops = .error (.unmatchedClose pos)
      ∨ scanBrackets ops = .error (.unmatchedOpen pos) := by
  have hb : balAux ops 0 = false := by
    unfold BracketBalanced at h
    rcases hv : balAux ops 0 with _ | _
    · rfl
    · exact absurd hv h
  have h2 := (scanAux_balAux ops 0 [] (fun k => k)).2
    (by simpa using hb)
  rcases h2 with ⟨p, hp⟩ | ⟨tbl', j, st', hok⟩
  · exact ⟨p, Or.inl (by unfold scanBrackets; rw [hp])⟩
  · exact ⟨j, Or.inr (by unfold scanBrackets; rw [hok])⟩

/-- The execution loop never reports a structural error: those are issued
only by the load phase. -/
theorem execLoop_no_structural (ops : List Char) (tbl : Nat → Nat)
    (cs : Nat) (inp : List Int) (ms : Nat) :
    ∀ (fuel steps : Nat) (s : ExecState) (p : Nat),
      execLoop ops tbl cs inp ms fuel steps s
          ≠ .error (.unmatchedClose p)
      ∧ execLoop ops tbl cs inp ms fuel steps s
          ≠ .error (.unmatchedOpen p) := by
  intro fuel
  induction fuel with
  | zero => intro steps s p; exact ⟨by simp [execLoop], by simp [execLoop]⟩
  | succ fuel ih =>
    intro steps s p
    simp only [execLoop]
    split_ifs
    · exact ⟨by simp, by simp⟩
    · rcases machineStep ops tbl cs inp s with s' | _
      · exact ih (steps + 1) s' p
      · exact ⟨by simp, by simp⟩
    · exact ⟨by simp, by simp⟩

/-- With the fuel `run_bf` supplies, a budget failure carries the output
after exactly `ms` dispatches (all in range), and a pointer failure
aborts at the first `<` on cell 0, carrying only the 1-based step index. -/
theorem execLoop_run (ops : List Char) (tbl : Nat → Nat) (cs : Nat)
    (inp : List Int) (ms : Nat) :
    ∀ (fuel steps : Nat) (s : ExecState), fuel + steps = ms + 1 →
      steps ≤ ms →
      (∀ m' out, execLoop ops tbl cs inp ms fuel steps s
          = .error (.budgetExceeded m' out) →
        m' = ms ∧ ∃ s', stepN ops tbl cs inp (ms - steps) s = some s'
          ∧ s'.ip < ops.length ∧ out = s'.output)
      ∧ (∀ k, execLoop ops tbl cs inp ms fuel steps s
          = .error (.pointerBelowZero k) →
        ∃ j s', j + steps + 1 = k ∧ stepN ops tbl cs inp j s = some s'
          ∧ s'.ip < ops.length
          ∧ machineStep ops tbl cs inp s' = .ptrErr ∧ k ≤ ms) := by
  intro fuel
  induction fuel with
  | zero => intro steps s hf hs; omega
  | succ fuel ih =>
    intro steps s hf hs
    constructor
    · intro m' out h
      simp only [execLoop] at h
      split_ifs at h with hip hbud
      · -- budget fires: steps = ms
        injection h with h
        injection h with h1 h2
        subst h1
        refine ⟨rfl, s, ?_, hip, h2.symm⟩
        rw [show ms - steps = 0 from by omega]
        rfl
      · -- dispatch and recurse
        rcases hms : machineStep ops tbl cs inp s with s' | _ <;>
          rw [hms] at h
        · have := (ih (steps + 1) s' (by omega) (by omega)).1 m' out h
          obtain ⟨hm, s'', hrun, hip2, hout⟩ := this
          refine ⟨hm, s'', ?_, hip2, hout⟩
          rw [show ms - steps = (ms - (steps + 1)) + 1 from by omega]
          simp only [stepN]
          rw [if_pos hip, hms]
          exact hrun
        · exact absurd h (by simp)
    · intro k h
      simp only [execLoop] at h
      split_ifs at h with hip hbud
      · exact absurd h (by simp)
      · rcases hms : machineStep ops tbl cs inp s with s' | _ <;>
          rw [hms] at h
        · have := (ih (steps + 1) s' (by omega) (by omega)).2 k h
          obtain ⟨j, s'', hj, hrun, hip2, herr, hk⟩ := this
          refine ⟨j + 1, s'', by omega, ?_, hip2, herr, hk⟩
          simp only [stepN]
          rw [if_pos hip, hms]
          exact hrun
        · injection h with h
          injection h with h1
          exact ⟨0, s, by omega, rfl, hip, hms, by omega⟩

/-- The decimal rendering of `Nat.digits`, used to state that `decAscii`
is the standard decimal representation. -/
theorem decAscii_digits (v : Nat) (hv : v < 256) :
    decAscii v = if v = 0 then [(48 : Int)]
      else (Nat.digits 10 v).reverse.map (fun d => ((48 + d : Nat) : Int)) := by
  by_cases h0 : v = 0
  · subst h0; rfl
  rw [if_neg h0]
  by_cases h100 : 100 ≤ v
  · have e : Nat.digits 10 v = [v % 10, v / 10 % 10, v / 10 / 10] := by
      rw [Nat.digits_def' (by norm_num : (1:Nat) < 10) (by omega : 0 < v),
        Nat.digits_def' (by norm_num : (1:Nat) < 10) (by omega : 0 < v / 10),
        Nat.digits_def' (by norm_num : (1:Nat) < 10)
          (by omega : 0 < v / 10 / 10),
        show v / 10 / 10 / 10 = 0 from by omega,
        show v / 10 / 10 % 10 = v / 10 / 10 from by omega]
      simp
    rw [e, show v / 10 / 10 = v / 100 from by omega]
    unfold decAscii
    rw [if_pos h100]
    simp
  by_cases h10 : 10 ≤ v
  · have e : Nat.digits 10 v = [v % 10, v / 10] := by
      rw [Nat.digits_def' (by norm_num : (1:Nat) < 10) (by omega : 0 < v),
        Nat.digits_def' (by norm_num : (1:Nat) < 10) (by omega : 0 < v / 10),
        show v / 10 / 10 = 0 from by omega,
        show v / 10 % 10 = v / 10 from by omega]
      simp
    rw [e]
    unfold decAscii
    rw [if_neg h100, if_pos h10, show v / 10 % 10 = v / 10 from by omega]
    simp
  · have e : Nat.digits 10 v = [v] := by
      rw [Nat.digits_def' (by norm_num : (1:Nat) < 10) (by omega : 0 < v),
        show v / 10 = 0 from by omega]
      simp [Nat.mod_eq_of_lt (by omega : v < 10)]
    rw [e]
    unfold decAscii
    rw [if_neg h100, if_neg h10, show v % 10 = v from by omega]
    simp

/-- A nonzero value never prints a leading `'0'`. -/
theorem decAscii_headI (v : Nat) (hv : v < 256) (h0 : v ≠ 0) :
    (decAscii v).headI ≠ (48 : Int) := by
  unfold decAscii
  split_ifs with h100 h10
  · show ((48 + v / 100 : Nat) : Int) ≠ 48
    omega
  · show ((48 + v / 10 % 10 : Nat) : Int) ≠ 48
    omega
  · show ((48 + v % 10 : Nat) : Int) ≠ 48
    omega

/-- `copy`: duplicates `src` into `dst` (via `tmp`), restoring `src` and
ending with the cursor at `tmp`. -/
theorem bs_copyA (inp : List Int) (p src dst tmp : Nat)
    (h1 : src ≠ dst) (h2 : src ≠ tmp) (h3 : dst ≠ tmp)
    (j : Nat) (hj : j < 256) (t : Nat → Int) (i : Nat) (o : List Int)
    (hts : t src = (j : Int)) (htd : t dst = 0) (htt : t tmp = 0) :
    BigStep 256 inp (copyA p src dst tmp) ⟨t, p, i, o⟩
      ⟨Function.update (Function.update (Function.update (Function.update
          (Function.update t dst (j : Int)) tmp (j : Int)) src 0) src
          (j : Int)) tmp 0,
        tmp, i, o⟩ := by
  have ht2 := bs_transfer2_loop inp src dst tmp h1 h2 h3 j 0 0 (by omega)
    (by omega) t i o hts (by rw [htd]; norm_num) (by rw [htt]; norm_num)
  rw [show (0 + j : Nat) = j from by omega] at ht2
  refine .seq (.seq (bs_moves 256 inp p src t i o) ht2) ?_
  have hm := bs_moveA inp src tmp src (Ne.symm h2) j 0 (by omega)
    (Function.update (Function.update (Function.update t dst (j : Int))
      tmp (j : Int)) src 0) i o
    (by rw [Function.update_noteq (Ne.symm h2), Function.update_same])
    (by rw [Function.update_same]; norm_num)
  rw [show (0 + j : Nat) = j from by omega] at hm
  exact hm

/-- The specified derivative output: products `c_i · i` rendered in
decimal, space-separated, newline-terminated. -/
def derivAscii : List Nat → Nat → List Int
  | [], _ => []
  | [c], i => decAscii (c * i) ++ [10]
  | c :: c' :: rest, i =>
      decAscii (c * i) ++ 32 :: derivAscii (c' :: rest) (i + 1)

theorem outTail_eq_derivAscii :
    ∀ (ds : List Nat) (m : Nat),
      (∀ j, j < ds.length → ds.getD j 0 * (m + j) ≤ 255) →
      outTail ds m = derivAscii ds m := by
  intro ds
  induction ds with
  | nil => intro m _; rfl
  | cons c rest ih =>
    intro m hp
    have hm : c * (m % 256) = c * m := by
      rcases Nat.eq_zero_or_pos c with h | h
      · simp [h]
      · have h1 := hp 0 (by simp)
        simp at h1
        have h2 : m ≤ 255 := le_trans (Nat.le_mul_of_pos_left m h)
          (by simpa using h1)
        rw [Nat.mod_eq_of_lt (by omega)]
    rcases rest with _ | ⟨c', r⟩
    · simp only [outTail, derivAscii, hm]
    · simp only [outTail, derivAscii, hm]
      rw [ih (m + 1) (fun j hj => by
        have := hp (j + 1) (by simp at hj ⊢; omega)
        rw [show m + 1 + j = m + (j + 1) from by omega]
        simpa using this)]

theorem prodBound_mod (ds : List Nat) (m : Nat)
    (hp : ∀ j, j < ds.length → ds.getD j 0 * (m + j) ≤ 255) :
    ∀ j, j < ds.length → ds.getD j 0 * ((m + j) % 256) ≤ 255 := by
  intro j hj
  rcases Nat.eq_zero_or_pos (ds.getD j 0) with h | h
  · simp only [List.getD_eq_getElem?_getD] at h
    simp [h]
  · have h1 := hp j hj
    have h2 : m + j ≤ 255 :=
      le_trans (Nat.le_mul_of_pos_left (m + j) h) h1
    rw [Nat.mod_eq_of_lt (by omega)]
    exact h1

/-- C1: on the input `"c0 c1 … ck\n"` (digits, space-separated,
newline-terminated, every product `ci·i ≤ 255`), the generated program
run through `run_bf` outputs exactly `"(c1·1) (c2·2) … (ck·k)\n"` once
the step budget is large enough. -/
theorem claim_C1 (c0 : Nat) (ds : List Nat) (hne : ds ≠ [])
    (hc0 : c0 ≤ 9) (hd : ∀ j, j < ds.length → ds.getD j 0 ≤ 9)
    (hp : ∀ j, j < ds.length → ds.getD j 0 * (1 + j) ≤ 255) :
    ∃ N, ∀ maxSteps, N ≤ maxSteps →
      run_bf generate (encTail (c0 :: ds)) 256 maxSteps
        = .ok (derivAscii ds 1) := by
  have hbs := bs_gen_poly c0 hc0 ds hne hd (prodBound_mod ds 1 hp)
  have h := run_bf_of_bigStep generate
    (by rw [generate_eq]; exact filter_flatten genAst) hbs
  rwa [show (⟨exitTape (1 + ds.length), 0, 2 + 2 * ds.length,
      outTail ds 1⟩ : Cfg).output = derivAscii ds 1 from by
    show outTail ds 1 = derivAscii ds 1
    exact outTail_eq_derivAscii ds 1 hp] at h

theorem claim_C1_witness :
    ∃ N, ∀ maxSteps, N ≤ maxSteps →
      run_bf generate (encTail (1 :: [5])) 256 maxSteps
        = .ok (derivAscii [5] 1) :=
  claim_C1 1 [5] (by simp) (by omega)
    (by intro j hj
        simp at hj
        subst hj
        decide)
    (by intro j hj
        simp at hj
        subst hj
        decide)

/-- C2: a bare constant (digit then newline, whatever follows) prints
exactly `"0\n"`, and the run consumes exactly the two bytes: the final
input position of the machine is 2. -/
theorem claim_C2 (c0 : Nat) (hc0 : c0 ≤ 9) (rest : List Int) :
    (∃ N, ∀ maxSteps, N ≤ maxSteps →
      run_bf generate (((48 + c0 : Nat) : Int) :: (10 : Int) :: rest)
        256 maxSteps = .ok [(48 : Int), (10 : Int)])
    ∧ BigStep 256 (((48 + c0 : Nat) : Int) :: (10 : Int) :: rest) genAst
        ⟨fun _ => 0, 0, 0, []⟩
        ⟨exitTape 1, 0, 2, [(48 : Int), (10 : Int)]⟩ := by
  have hbs := bs_gen_const c0 hc0 rest
  exact ⟨run_bf_of_bigStep generate
    (by rw [generate_eq]; exact filter_flatten genAst) hbs, hbs⟩

theorem claim_C2_witness :
    (∃ N, ∀ maxSteps, N ≤ maxSteps →
      run_bf generate [((48 + 0 : Nat) : Int), (10 : Int)]
        256 maxSteps = .ok [(48 : Int), (10 : Int)])
    ∧ BigStep 256 [((48 + 0 : Nat) : Int), (10 : Int)] genAst
        ⟨fun _ => 0, 0, 0, []⟩
        ⟨exitTape 1, 0, 2, [(48 : Int), (10 : Int)]⟩ :=
  claim_C2 0 (by omega) []

/-- C3 (amended): with a positive cell size and every input byte inside
`[0, cellSize)`, every reachable tape cell stays inside `[0, cellSize)`
after every step.  (The original claim holds for arbitrary input only for
`+`/`-`; `,` stores the raw byte, see the counterexample.) -/
theorem claim_C3 (ops : List Char) (tbl : Nat → Nat) (cs : Nat)
    (inp : List Int) (hcs : 0 < cs)
    (hinp : ∀ b ∈ inp, 0 ≤ b ∧ b < (cs : Int)) (n : Nat) (s : ExecState)
    (hrun : stepN ops tbl cs inp n initState = some s) (x : Nat) :
    0 ≤ s.tape x ∧ s.tape x < (cs : Int) :=
  stepN_range ops tbl cs inp hcs hinp n initState s
    (fun y => ⟨le_refl 0, by
      show (0 : Int) < (cs : Int)
      exact_mod_cast hcs⟩) hrun x

theorem claim_C3_witness :
    0 ≤ (⟨Function.update (fun _ => 0) 0 ((0 + 1) % 2 : Int), 0, 1, 0,
        []⟩ : ExecState).tape 0
    ∧ (⟨Function.update (fun _ => 0) 0 ((0 + 1) % 2 : Int), 0, 1, 0,
        []⟩ : ExecState).tape 0 < ((2 : Nat) : Int) :=
  claim_C3 ['+'] (fun k => k) 2 [] (by omega) (by simp) 1 _ rfl 0

/-- The original C3 is false as stated: `,` stores the raw input byte with
no reduction, so a byte ≥ cellSize leaves the cell out of range after one
step (here cellSize 2, byte 65). -/
theorem claim_C3_counterexample :
    ∃ s, stepN [','] (fun k => k) 2 [65] 1 initState = some s
      ∧ ¬ s.tape 0 < 2 := by
  refine ⟨⟨Function.update (fun _ => 0) 0 (65 : Int), 0, 1, 1, []⟩,
    rfl, ?_⟩
  show ¬ Function.update (fun _ => (0 : Int)) 0 (65 : Int) 0 < 2
  rw [Function.update_same]
  norm_num

/-- C4 (amended): `divmod_10(base)` emits exactly the fragment
`divmodA`, and executing it with dividend `n` at `base+1` and cells
`base+2 … base+6` all zero (the window is seven cells wide, one more
than claimed) leaves `n % 10` at `base+3`, `n / 10` at `base+4`, and
clears `base+1` and `base+2`. -/
theorem claim_C4 :
    (∀ (b : BF) (base : Nat),
      (b.divmod_10 base).code = b.code ++ flatten (divmodA b.pos base))
    ∧ ∀ (inp : List Int) (p base n : Nat), n < 256 →
      ∀ (t : Nat → Int) (i : Nat) (o : List Int),
        t (base + 1) = (n : Int) → t (base + 2) = 0 → t (base + 3) = 0 →
        t (base + 4) = 0 → t (base + 5) = 0 → t (base + 6) = 0 →
        BigStep 256 inp (divmodA p base) ⟨t, p, i, o⟩
          ⟨Function.update (Function.update (Function.update
              (Function.update t (base + 1) 0) (base + 3)
              ((n % 10 : Nat) : Int)) (base + 4) ((n / 10 : Nat) : Int))
              (base + 2) 0,
            base + 2, i, o⟩ :=
  ⟨divmod_code, fun inp p base n hn t i o h1 h2 h3 h4 h5 h6 =>
    bs_divmodA inp p base n hn t i o h1 h2 h3 h4 h5 h6⟩

set_option maxRecDepth 20000 in
/-- The original C4 is false as stated: with the claimed six-cell window
`[base, base+5]` clean but `base+6 = 5` (outside the claimed window), the
fragment of `divmod_10(0)` on dividend 23 terminates after 84 steps with
`base+3 = 1 ≠ 23 % 10` and `base+4 = 0 ≠ 23 / 10`. -/
theorem claim_C4_counterexample :
    (match scanBrackets (flatten (divmodA 0 0)) with
      | .ok tbl =>
        (stepN (flatten (divmodA 0 0)) tbl 256 [] 84
          ⟨fun x => if x = 1 then 23 else if x = 6 then 5 else 0,
            0, 0, 0, []⟩).map (fun s => (s.ip, s.tape 3, s.tape 4))
      | .error _ => none)
      = some ((flatten (divmodA 0 0)).length, (1 : Int), (0 : Int))
    ∧ (1 : Int) ≠ ((23 % 10 : Nat) : Int)
    ∧ (0 : Int) ≠ ((23 / 10 : Nat) : Int) := by
  refine ⟨rfl, by decide, by decide⟩

/-- C5: `print_number(val, ws)` writes exactly the decimal ASCII of the
value in `val` (the standard digit string, with a lone `'0'` only for 0
and never a leading `'0'` otherwise), consumes `val` to 0 and zeroes the
14-cell workspace, ending at `ws+12`. -/
theorem claim_C5 (inp : List Int) (p val ws : Nat) (v : Nat) (hv : v ≤ 255)
    (hval : val < ws ∨ ws + 13 < val)
    (t : Nat → Int) (i : Nat) (o : List Int)
    (htv : t val = (v : Int))
    (hw : ∀ k, k ≤ 13 → t (ws + k) = 0) :
    BigStep 256 inp (printA p val ws) ⟨t, p, i, o⟩
      ⟨fun x => if x = val ∨ (ws ≤ x ∧ x ≤ ws + 13) then 0 else t x,
        ws + 12, i, o ++ decAscii v⟩
    ∧ decAscii v = (if v = 0 then [(48 : Int)]
        else (Nat.digits 10 v).reverse.map (fun d => ((48 + d : Nat) : Int)))
    ∧ (v = 0 ∨ (decAscii v).headI ≠ (48 : Int)) := by
  refine ⟨bs_printA inp p val ws v (by omega) hval t i o htv hw,
    decAscii_digits v (by omega), ?_⟩
  rcases Nat.eq_zero_or_pos v with h | h
  · exact Or.inl h
  · exact Or.inr (decAscii_headI v (by omega) (by omega))

theorem claim_C5_witness :
    BigStep 256 [] (printA 0 0 1)
      ⟨fun x => if x = 0 then 105 else 0, 0, 0, []⟩
      ⟨fun x => if x = 0 ∨ (1 ≤ x ∧ x ≤ 1 + 13) then 0
          else (fun x => if x = 0 then (105 : Int) else 0) x,
        1 + 12, 0, [] ++ decAscii 105⟩
    ∧ decAscii 105 = (if (105 : Nat) = 0 then [(48 : Int)]
        else (Nat.digits 10 105).reverse.map (fun d => ((48 + d : Nat) : Int)))
    ∧ ((105 : Nat) = 0 ∨ (decAscii 105).headI ≠ (48 : Int)) :=
  claim_C5 [] 0 0 1 105 (by omega) (Or.inl (by omega))
    (fun x => if x = 0 then 105 else 0) 0 []
    (by norm_num) (by intro k hk; norm_num)

/-- C6: an instruction stream with unbalanced brackets makes `run_bf`
fail during the load phase with a structural error naming the offending
position; no execution happens (the error is issued before the loop and
carries no output). -/
theorem claim_C6 (code : List Char) (inp : List Int) (cs ms : Nat)
    (h : ¬ BracketBalanced (code.filter (fun c => c ∈ isaChars))) :
    ∃ pos, run_bf code inp cs ms = .error (.unmatchedClose pos)
      ∨ run_bf code inp cs ms = .error (.unmatchedOpen pos) := by
  obtain ⟨pos, hp⟩ := scanBrackets_unbalanced _ h
  refine ⟨pos, ?_⟩
  simp only [run_bf]
  rcases hp with hp | hp
  · rw [hp]
    exact Or.inl rfl
  · rw [hp]
    exact Or.inr rfl

theorem claim_C6_witness :
    ∃ pos, run_bf ['['] [] 256 5 = .error (.unmatchedClose pos)
      ∨ run_bf ['['] [] 256 5 = .error (.unmatchedOpen pos) :=
  claim_C6 ['['] [] 256 5 (by unfold BracketBalanced; decide)

/-- C7: the budget check fires at an instruction with the step counter at
`maxSteps`, so a `budgetExceeded` failure carries exactly the output after
`maxSteps` dispatches; a `pointerBelowZero` failure happens at the first
`<` on pointer 0 and carries only the 1-based step index (no output). -/
theorem claim_C7 (code : List Char) (inp : List Int) (cs ms : Nat)
    (tbl : Nat → Nat)
    (hscan : scanBrackets (code.filter (fun c => c ∈ isaChars)) = .ok tbl) :
    (∀ m' out, run_bf code inp cs ms = .error (.budgetExceeded m' out) →
      m' = ms ∧ ∃ s, stepN (code.filter (fun c => c ∈ isaChars)) tbl cs inp
        ms initState = some s
        ∧ s.ip < (code.filter (fun c => c ∈ isaChars)).length
        ∧ out = s.output)
    ∧ (∀ k, run_bf code inp cs ms = .error (.pointerBelowZero k) →
      ∃ s, stepN (code.filter (fun c => c ∈ isaChars)) tbl cs inp (k - 1)
        initState = some s
        ∧ machineStep (code.filter (fun c => c ∈ isaChars)) tbl cs inp s
            = .ptrErr
        ∧ 1 ≤ k ∧ k ≤ ms) := by
  have hrb : run_bf code inp cs ms
      = execLoop (code.filter (fun c => c ∈ isaChars)) tbl cs inp ms
          (ms + 1) 0 initState := by
    simp only [run_bf]
    rw [hscan]
  have h := execLoop_run (code.filter (fun c => c ∈ isaChars)) tbl cs inp ms
    (ms + 1) 0 initState (by omega) (by omega)
  constructor
  · intro m' out hr
    rw [hrb] at hr
    obtain ⟨hm, s, hrun, hip, hout⟩ := h.1 m' out hr
    exact ⟨hm, s, by simpa using hrun, hip, hout⟩
  · intro k hr
    rw [hrb] at hr
    obtain ⟨j, s, hj, hrun, hip, herr, hk⟩ := h.2 k hr
    refine ⟨s, ?_, herr, by omega, hk⟩
    rw [show k - 1 = j from by omega]
    simpa using hrun

theorem claim_C7_witness :
    (∀ m' out, run_bf ['+'] [] 256 3 = .error (.budgetExceeded m' out) →
      m' = 3 ∧ ∃ s, stepN (['+'].filter (fun c => c ∈ isaChars))
        (fun k => k) 256 [] 3 initState = some s
        ∧ s.ip < (['+'].filter (fun c => c ∈ isaChars)).length
        ∧ out = s.output)
    ∧ (∀ k, run_bf ['+'] [] 256 3 = .error (.pointerBelowZero k) →
      ∃ s, stepN (['+'].filter (fun c => c ∈ isaChars)) (fun k => k) 256 []
        (k - 1) initState = some s
        ∧ machineStep (['+'].filter (fun c => c ∈ isaChars)) (fun k => k)
            256 [] s = .ptrErr
        ∧ 1 ≤ k ∧ k ≤ 3) :=
  claim_C7 ['+'] [] 256 3 (fun k => k) rfl

/-- C8: the interpreter is deterministic — two runs on identical
program, input, cell size and budget produce the same result (output or
identical failure).  In this functional model the result is a function of
those four arguments, so the property is definitional. -/
theorem claim_C8 (code : List Char) (inp : List Int) (cs ms : Nat)
    (r₁ r₂ : Except BFError (List Int))
    (h₁ : run_bf code inp cs ms = r₁) (h₂ : run_bf code inp cs ms = r₂) :
    r₁ = r₂ :=
  h₁.symm.trans h₂

theorem claim_C8_witness :
    (Except.ok [] : Except BFError (List Int)) = Except.ok [] :=
  claim_C8 [] [] 2 5 (.ok []) (.ok []) rfl rfl

/-- C9: the emitter's cursor invariant.  `_goto` emits exactly
`|c - pos|` motion characters in one direction (none when already
there); every operation's tracked `pos` equals its documented target;
and the tracked cursor coincides with the data pointer of the machine:
executing the fragment of each operation from the cursor before it ends
with the pointer exactly at the recorded cursor (brackets never move the
pointer). -/
theorem claim_C9 :
    (∀ (b : BF) (c : Nat), c > b.pos →
      (b.goto c).code = b.code ++ List.replicate (c - b.pos) '>')
    ∧ (∀ (b : BF) (c : Nat), c < b.pos →
      (b.goto c).code = b.code ++ List.replicate (b.pos - c) '<')
    ∧ (∀ (b : BF) (c : Nat), c = b.pos → (b.goto c).code = b.code)
    ∧ (∀ (b : BF) (c : Nat), (b.goto c).pos = c)
    ∧ (∀ (b : BF) (c n : Nat), (b.inc c n).pos = c)
    ∧ (∀ (b : BF) (c n : Nat), (b.dec c n).pos = c)
    ∧ (∀ (b : BF) (c : Nat), (b.clear c).pos = c)
    ∧ (∀ (b : BF) (c : Nat), (b.read c).pos = c)
    ∧ (∀ (b : BF) (c : Nat), (b.write c).pos = c)
    ∧ (∀ (b : BF) (c : Nat), (b.loop_open c).pos = c)
    ∧ (∀ (b : BF) (c : Nat), (b.loop_close c).pos = c)
    ∧ (∀ (b : BF) (s d : Nat), (b.move s d).pos = s)
    ∧ (∀ (b : BF) (s d tmp : Nat), (b.copy s d tmp).pos = tmp)
    ∧ (∀ (b : BF) (a bc r tc : Nat), (b.multiply a bc r tc).pos = a)
    ∧ (∀ (b : BF) (base : Nat), (b.divmod_10 base).pos = base + 2)
    ∧ (∀ (b : BF) (v ws : Nat), (b.print_number v ws).pos = ws + 12)
    ∧ (∀ (cs : Nat) (inp : List Int) (p c : Nat) (t : Nat → Int) (i : Nat)
        (o : List Int),
        BigStep cs inp (aMoves p c) ⟨t, p, i, o⟩ ⟨t, c, i, o⟩)
    ∧ (∀ (inp : List Int) (p cell n : Nat), 0 < n →
        ∀ (t : Nat → Int) (i : Nat) (o : List Int),
        BigStep 256 inp (incA p cell n) ⟨t, p, i, o⟩
          ⟨Function.update t cell ((t cell + (n : Int)) % 256), cell, i, o⟩)
    ∧ (∀ (inp : List Int) (p cell n : Nat), 0 < n →
        ∀ (t : Nat → Int) (i : Nat) (o : List Int),
        BigStep 256 inp (decA p cell n) ⟨t, p, i, o⟩
          ⟨Function.update t cell ((t cell - (n : Int)) % 256), cell, i, o⟩)
    ∧ (∀ (inp : List Int) (p cell k : Nat), k < 256 →
        ∀ (t : Nat → Int) (i : Nat) (o : List Int), t cell = (k : Int) →
        BigStep 256 inp (clearA p cell) ⟨t, p, i, o⟩
          ⟨Function.update t cell 0, cell, i, o⟩)
    ∧ (∀ (inp : List Int) (p cell : Nat) (t : Nat → Int) (i : Nat)
        (o : List Int),
        BigStep 256 inp (writeA p cell) ⟨t, p, i, o⟩
          ⟨t, cell, i, o ++ [t cell]⟩)
    ∧ (∀ (inp : List Int) (p src dst : Nat), src ≠ dst →
        ∀ (j w : Nat), j + w < 256 →
        ∀ (t : Nat → Int) (i : Nat) (o : List Int),
          t src = (j : Int) → t dst = (w : Int) →
        BigStep 256 inp (moveA p src dst) ⟨t, p, i, o⟩
          ⟨Function.update (Function.update t dst ((w + j : Nat) : Int))
            src 0, src, i, o⟩)
    ∧ (∀ (inp : List Int) (p src dst tmp : Nat), src ≠ dst → src ≠ tmp →
        dst ≠ tmp → ∀ (j : Nat), j < 256 →
        ∀ (t : Nat → Int) (i : Nat) (o : List Int),
          t src = (j : Int) → t dst = 0 → t tmp = 0 →
        BigStep 256 inp (copyA p src dst tmp) ⟨t, p, i, o⟩
          ⟨Function.update (Function.update (Function.update
              (Function.update (Function.update t dst (j : Int)) tmp
              (j : Int)) src 0) src (j : Int)) tmp 0,
            tmp, i, o⟩)
    ∧ (∀ (inp : List Int) (p a bc r tc : Nat),
        a ≠ bc → a ≠ r → a ≠ tc → bc ≠ r → bc ≠ tc → r ≠ tc →
        ∀ (α m : Nat), α < 256 → α * m < 256 →
        ∀ (t : Nat → Int) (i : Nat) (o : List Int),
          t a = (α : Int) → t bc = (m : Int) → t r = 0 → t tc = 0 →
        BigStep 256 inp (multiplyA p a bc r tc) ⟨t, p, i, o⟩
          ⟨Function.update (Function.update t r ((α * m : Nat) : Int)) a 0,
            a, i, o⟩)
    ∧ (∀ (inp : List Int) (p base n : Nat), n < 256 →
        ∀ (t : Nat → Int) (i : Nat) (o : List Int),
          t (base + 1) = (n : Int) → t (base + 2) = 0 → t (base + 3) = 0 →
          t (base + 4) = 0 → t (base + 5) = 0 → t (base + 6) = 0 →
        BigStep 256 inp (divmodA p base) ⟨t, p, i, o⟩
          ⟨Function.update (Function.update (Function.update
              (Function.update t (base + 1) 0) (base + 3)
              ((n % 10 : Nat) : Int)) (base + 4) ((n / 10 : Nat) : Int))
              (base + 2) 0,
            base + 2, i, o⟩)
    ∧ (∀ (inp : List Int) (p val ws v : Nat), v < 256 →
        (val < ws ∨ ws + 13 < val) →
        ∀ (t : Nat → Int) (i : Nat) (o : List Int), t val = (v : Int) →
        (∀ k, k ≤ 13 → t (ws + k) = 0) →
        BigStep 256 inp (printA p val ws) ⟨t, p, i, o⟩
          ⟨fun x => if x = val ∨ (ws ≤ x ∧ x ≤ ws + 13) then 0 else t x,
            ws + 12, i, o ++ decAscii v⟩)
    ∧ (∀ (ops : List Char) (tbl : Nat → Nat) (cs : Nat) (inp : List Int)
        (s : ExecState), ops.getD s.ip ' ' = '[' →
        ∃ s', machineStep ops tbl cs inp s = .cont s' ∧ s'.ptr = s.ptr
          ∧ s'.tape = s.tape)
    ∧ (∀ (ops : List Char) (tbl : Nat → Nat) (cs : Nat) (inp : List Int)
        (s : ExecState), ops.getD s.ip ' ' = ']' →
        ∃ s', machineStep ops tbl cs inp s = .cont s' ∧ s'.ptr = s.ptr
          ∧ s'.tape = s.tape) := by
  refine ⟨?_, ?_, ?_, goto_pos, inc_pos, dec_pos, clear_pos, read_pos,
    write_pos, loop_open_pos, loop_close_pos, move_pos, copy_pos,
    multiply_pos, divmod_pos, print_pos,
    fun cs inp p c t i o => bs_moves cs inp p c t i o,
    fun inp p cell n hn t i o => bs_incA inp p cell n hn t i o,
    fun inp p cell n hn t i o => bs_decA inp p cell n hn t i o,
    fun inp p cell k hk t i o ht => bs_clearA inp p cell k hk t i o ht,
    fun inp p cell t i o => bs_writeA inp p cell t i o,
    fun inp p src dst hne j w hjw t i o hts htd =>
      bs_moveA inp p src dst hne j w hjw t i o hts htd,
    fun inp p src dst tmp h1 h2 h3 j hj t i o hts htd htt =>
      bs_copyA inp p src dst tmp h1 h2 h3 j hj t i o hts htd htt,
    fun inp p a bc r tc hab har hat hbr hbt hrt α m hα hb t i o hva hvb
        hvr hvt =>
      bs_multiplyA inp p a bc r tc hab har hat hbr hbt hrt α m hα hb t i o
        hva hvb hvr hvt,
    fun inp p base n hn t i o h1 h2 h3 h4 h5 h6 =>
      bs_divmodA inp p base n hn t i o h1 h2 h3 h4 h5 h6,
    fun inp p val ws v hv hval t i o htv hw =>
      bs_printA inp p val ws v hv hval t i o htv hw,
    ?_, ?_⟩
  · intro b c h
    unfold BF.goto
    rw [if_pos h]
  · intro b c h
    unfold BF.goto
    rw [if_neg (by omega), if_pos h]
  · intro b c h
    unfold BF.goto
    rw [if_neg (by omega), if_neg (by omega)]
  · intro ops tbl cs inp s h
    exact ⟨_, machineStep_open h, rfl, rfl⟩
  · intro ops tbl cs inp s h
    exact ⟨_, machineStep_close h, rfl, rfl⟩

/-- C10: the program string produced by `generate` consists only of the
8 ISA characters and its brackets are balanced: the load-phase bracket
scan succeeds on it, so `run_bf generate` never returns a structural
error (unmatched close or unmatched open), for any input, cell size and
step budget. -/
theorem claim_C10 :
    (∀ ch ∈ generate, ch ∈ isaChars)
    ∧ ∃ tbl, scanBrackets (generate.filter (fun c => c ∈ isaChars)) = .ok tbl
        ∧ ∀ (inp : List Int) (cs ms p : Nat),
            run_bf generate inp cs ms ≠ .error (.unmatchedClose p)
            ∧ run_bf generate inp cs ms ≠ .error (.unmatchedOpen p) := by
  have hiso : ∀ ch ∈ generate, ch ∈ isaChars := by
    intro ch hch
    rw [generate_eq] at hch
    exact flatten_isa genAst ch hch
  have hfilt : generate.filter (fun c => c ∈ isaChars) = flatten genAst := by
    rw [generate_eq]
    exact filter_flatten genAst
  obtain ⟨tbl, htbl, _⟩ := scanBrackets_flatten genAst
  refine ⟨hiso, tbl, by rw [hfilt]; exact htbl, ?_⟩
  intro inp cs ms p
  have hrun : run_bf generate inp cs ms =
      execLoop (flatten genAst) tbl cs inp ms (ms + 1) 0 initState := by
    simp only [run_bf]
    rw [hfilt, htbl]
  rw [hrun]
  exact execLoop_no_structural (flatten genAst) tbl cs inp ms (ms + 1) 0
    initState p
